import Mathlib

/-!
# Verification of the asyncfatfs sector cache and file engine

A shallow embedding of the asyncfatfs FAT16/FAT32 driver (`asyncfatfs.c`,
provided in the repository as `src/unnamed/part_006`, together with the FAT
helpers of `src/lib/fat_standard.c`).

Modelling conventions:
* C `uint8_t*` buffers into the cache are represented by the cache slot
  index that owns them (`afatfs_cacheSectorGetMemory` /
  `afatfs_getCacheDescriptorIndexForBuffer` are a bijection between the two
  in the C code).
* The byte contents of cached sectors are modelled only as far as the
  claims need them: `St.mem slot idx` is the FAT-entry view of the slot's
  512-byte buffer (entry `idx` of a cached FAT sector).  Data bytes copied
  by `memcpy` are not modelled; no embedded control path depends on them.
* The SD card is the external collaborator: whether `sdcard_readBlock` /
  `sdcard_writeBlock` accept a request right now is modelled by the
  `sdReadAccepts` / `sdWriteAccepts` fields of the state.  Completions are
  delivered by separate calls of the completion callbacks, exactly as in
  the C code.
* Geometry fields that are written only while parsing the volume ID are
  gathered in an immutable `Geo` record; all claims concern the mounted
  filesystem where these are constant.
* Machine integers are modelled as `Nat`; truncation (`uint16_t` directory
  entry fields, `uint32_t` wrap-around in `afatfs_fseekAtomic`) is applied
  explicitly at the assignments where the C types force it.
-/

namespace AFat

/-- AFATFS_SECTOR_SIZE -/
def AFATFS_SECTOR_SIZE : Nat := 512

/-- AFATFS_NUM_CACHE_SECTORS -/
def AFATFS_NUM_CACHE_SECTORS : Nat := 8

/-- AFATFS_FAT32_FAT_ENTRIES_PER_SECTOR -/
def AFATFS_FAT32_FAT_ENTRIES_PER_SECTOR : Nat := 128

/-- AFATFS_FAT16_FAT_ENTRIES_PER_SECTOR -/
def AFATFS_FAT16_FAT_ENTRIES_PER_SECTOR : Nat := 256

/-- AFATFS_FREEFILE_LEAVE_CLUSTERS -/
def AFATFS_FREEFILE_LEAVE_CLUSTERS : Nat := 100

/-- FAT_SMALLEST_LEGAL_CLUSTER_NUMBER, from `fat_standard.h` (clusters are
numbered starting from 2; see the comment on `afatfs_t.numClusters`). -/
def FAT_SMALLEST_LEGAL_CLUSTER_NUMBER : Nat := 2

/-- afatfsOperationStatus_e -/
inductive OpStatus where
  | inProgress
  | success
  | failure
deriving DecidableEq, Repr

/-- afatfsFilesystemState_e -/
inductive FsState where
  | unknown
  | fatal
  | initialization
  | ready
deriving DecidableEq, Repr

/-- afatfsCacheBlockState_e -/
inductive CacheState where
  | empty
  | reading
  | inSync
  | dirty
  | writing
deriving DecidableEq, Repr

/-- fatFilesystemType_e (from fat_standard.h) -/
inductive FatType where
  | none
  | fat12
  | fat16
  | fat32
deriving DecidableEq, Repr

/-- afatfsClusterSearchCondition_e -/
inductive ClusterSearchCondition where
  | freeSectorAtBeginningOfFatSector
  | freeSector
  | occupiedSector
deriving DecidableEq, Repr

/-- afatfsFindClusterStatus_e -/
inductive FindClusterStatus where
  | inProgress
  | found
  | fatal
  | notFound
deriving DecidableEq, Repr

/-- afatfsCacheBlockDescriptor_t -/
structure CacheDescriptor where
  sectorIndex : Nat
  state : CacheState
  lastUse : Nat
  locked : Bool
  retainCount : Nat
  discardable : Bool
deriving DecidableEq, Repr

/-- afatfsFileType_e -/
inductive FileType where
  | none
  | normal
  | fat16Root
  | directory
deriving DecidableEq, Repr

/-- The AFATFS_FILE_MODE_* bitset of a file handle. -/
structure FileMode where
  read : Bool
  write : Bool
  append : Bool
  contiguous : Bool
  create : Bool
  retainDirectory : Bool
deriving DecidableEq, Repr

/-- The fields of fatDirectoryEntry_t that the embedded operations use.
The `uint16_t` cluster fields and the `uint32_t` size field are stored as
`Nat`; assignments truncate explicitly. -/
structure DirEntry where
  fileSize : Nat
  firstClusterHigh : Nat
  firstClusterLow : Nat
  attrib : Nat
deriving DecidableEq, Repr

/-- afatfsDirEntryPointer_t -/
structure DirEntryPos where
  clusterNumber : Nat
  sectorNumber : Nat
  entryIndex : Int
deriving DecidableEq, Repr

/-- afatfsAppendFreeClusterState_t -/
structure AppendFreeClusterState where
  phase : Nat
  previousCluster : Nat
  searchCluster : Nat
deriving DecidableEq, Repr

/-- afatfsFileOperation_e together with the per-operation state held in the
union inside afatfsOperation_t.  The extend-directory and init-subdirectory
states embed an afatfsAppendFreeClusterState_t as their first member so the
append-free-cluster machine can run as their sub-operation, exactly as the
C union layout arranges.  Callback pointers are external code and carry no
modelled state. -/
inductive FileOperation where
  | none
  | createFile (phase : Nat)
  | seek (seekOffset : Nat)
  | close
  | appendSupercluster (phase : Nat) (previousCluster : Nat)
      (fatRewriteStartCluster : Nat) (fatRewriteEndCluster : Nat)
  | appendFreeCluster (s : AppendFreeClusterState)
  | findNext
  | initSubdirectory (appendFreeCluster : AppendFreeClusterState)
      (phase : Nat) (parentDirectoryCluster : Nat)
  | extendDirectory (appendFreeCluster : AppendFreeClusterState)
      (sectorIndex : Int) (previousCluster : Nat)
deriving DecidableEq, Repr

/-- Read the afatfsAppendFreeClusterState_t member of the operation union
(shared by the append-free-cluster, extend-directory and init-subdirectory
states; embedded callers never read it through any other tag). -/
def FileOperation.getAppendFreeCluster : FileOperation → AppendFreeClusterState
  | FileOperation.appendFreeCluster s => s
  | FileOperation.extendDirectory s _ _ => s
  | FileOperation.initSubdirectory s _ _ => s
  | _ => ⟨0, 0, 0⟩

/-- Write the afatfsAppendFreeClusterState_t member of the operation union
back, preserving the operation tag. -/
def FileOperation.setAppendFreeCluster : FileOperation → AppendFreeClusterState → FileOperation
  | FileOperation.appendFreeCluster _, s => FileOperation.appendFreeCluster s
  | FileOperation.extendDirectory _ a b, s => FileOperation.extendDirectory s a b
  | FileOperation.initSubdirectory _ a b, s => FileOperation.initSubdirectory s a b
  | op, _ => op

/-- afatfsFile_t -/
structure File where
  type : FileType
  cursorOffset : Nat
  cursorCluster : Nat
  cursorPreviousCluster : Nat
  mode : FileMode
  lockedCacheIndex : Option Nat
  directoryEntryPos : DirEntryPos
  directoryEntry : DirEntry
  operation : FileOperation
deriving DecidableEq, Repr

/-- The geometry fields of afatfs_t that are assigned only while the volume
ID is parsed during mount and are constant afterwards. -/
structure Geo where
  filesystemType : FatType
  numClusters : Nat
  sectorsPerCluster : Nat
  byteInClusterMask : Nat
  fatStartSector : Nat
  fatSectors : Nat
  clusterStartSector : Nat
  rootDirectorySectors : Nat
  rootDirectoryCluster : Nat
deriving DecidableEq, Repr

/-- afatfsFreeSpaceSearchPhase_e -/
inductive FreeSpaceSearchPhase where
  | findHole
  | growHole
deriving DecidableEq, Repr

/-- afatfsFreeSpaceSearchState_t -/
structure FreeSpaceSearchState where
  candidateStart : Nat
  candidateEnd : Nat
  bestGapStart : Nat
  bestGapLength : Nat
  phase : FreeSpaceSearchPhase
deriving DecidableEq, Repr

/-- The mutable part of afatfs_t used by the embedded operations, together
with the SD card's instantaneous readiness (external environment).  The
C union of `freeSpaceSearch` and `freeSpaceFAT` inside `initState` is
split into separate fields; the two are never live at the same time. -/
structure St where
  slots : List CacheDescriptor
  mem : Nat → Nat → Nat
  cacheTimer : Nat
  cacheDirtyEntries : Nat
  filesystemState : FsState
  substate : Nat
  filesystemFull : Bool
  lastClusterAllocated : Nat
  freeFile : File
  freeSpaceSearch : FreeSpaceSearchState
  freeSpaceFATStartCluster : Nat
  freeSpaceFATEndCluster : Nat
  sdReadAccepts : Bool
  sdWriteAccepts : Bool

instance : Inhabited CacheDescriptor :=
  ⟨⟨0, CacheState.empty, 0, false, 0, false⟩⟩

/-- Read slot `i` of the cache descriptor array. -/
def St.slot (st : St) (i : Nat) : CacheDescriptor :=
  st.slots.getD i default

/-- Write slot `i` of the cache descriptor array. -/
def St.setSlot (st : St) (i : Nat) (d : CacheDescriptor) : St :=
  { st with slots := st.slots.set i d }

/-- Write FAT entry `idx` of the buffer owned by cache slot `slot`. -/
def St.setMem (st : St) (slot idx v : Nat) : St :=
  { st with mem := fun s i => if s = slot ∧ i = idx then v else st.mem s i }

/-- afatfs_assert: on a failed condition the filesystem enters the fatal
state (the debug `raise(SIGTRAP)` is a no-op on the modelled state); the
condition is returned so callers can branch on it. -/
def afatfs_assert (st : St) (cond : Bool) : Bool × St :=
  (cond, if cond then st else { st with filesystemState := FsState.fatal })

/-- roundUpTo -/
def roundUpTo (value rounding : Nat) : Nat :=
  let remainder := value % rounding
  if remainder > 0 then value + (rounding - remainder) else value

/-- isPowerOfTwo -/
def isPowerOfTwo (x : Nat) : Prop := ∃ k, x = 2 ^ k

/-- afatfs_fatEntriesPerSector -/
def afatfs_fatEntriesPerSector (geo : Geo) : Nat :=
  if geo.filesystemType = FatType.fat32 then
    AFATFS_FAT32_FAT_ENTRIES_PER_SECTOR
  else
    AFATFS_FAT16_FAT_ENTRIES_PER_SECTOR

/-- afatfs_clusterSize -/
def afatfs_clusterSize (geo : Geo) : Nat :=
  geo.sectorsPerCluster * AFATFS_SECTOR_SIZE

/-- afatfs_byteIndexInCluster -/
def afatfs_byteIndexInCluster (geo : Geo) (byteOffset : Nat) : Nat :=
  geo.byteInClusterMask &&& byteOffset

/-- afatfs_sectorIndexInCluster -/
def afatfs_sectorIndexInCluster (geo : Geo) (byteOffset : Nat) : Nat :=
  afatfs_byteIndexInCluster geo byteOffset / AFATFS_SECTOR_SIZE

/-- fat16_isEndOfChainMarker (fat_standard.c) -/
def fat16_isEndOfChainMarker (clusterNumber : Nat) : Bool :=
  clusterNumber ≥ 0xFFF8

/-- fat32_isEndOfChainMarker (fat_standard.c) -/
def fat32_isEndOfChainMarker (clusterNumber : Nat) : Bool :=
  clusterNumber ≥ 0x0FFFFFF8

/-- fat32_decodeClusterNumber (fat_standard.c) -/
def fat32_decodeClusterNumber (clusterNumber : Nat) : Nat :=
  clusterNumber &&& 0x0FFFFFFF

/-- fat_isFreeSpace (fat_standard.c) -/
def fat_isFreeSpace (clusterNumber : Nat) : Bool :=
  clusterNumber = 0

/-- afatfs_fatSectorToPhysical -/
def afatfs_fatSectorToPhysical (geo : Geo) (fatIndex : Nat) (fatSectorIndex : Nat) : Nat :=
  geo.fatStartSector + (if fatIndex ≠ 0 then geo.fatSectors else 0) + fatSectorIndex

/-- afatfs_fileClusterToPhysical.  Cluster numbers below 2 do not occur on
the embedded call paths (the C code would wrap around `uint32_t` here). -/
def afatfs_fileClusterToPhysical (geo : Geo) (clusterNumber sectorIndex : Nat) : Nat :=
  geo.clusterStartSector + (clusterNumber - 2) * geo.sectorsPerCluster + sectorIndex

/-- afatfs_directorySectorToPhysical -/
def afatfs_directorySectorToPhysical (geo : Geo) (clusterNumber sectorNumber : Nat) : Nat :=
  if clusterNumber = 0 then
    geo.fatStartSector + 2 * geo.fatSectors + sectorNumber
  else
    afatfs_fileClusterToPhysical geo clusterNumber sectorNumber

/-- afatfs_fileGetCursorPhysicalSector -/
def afatfs_fileGetCursorPhysicalSector (geo : Geo) (file : File) : Nat :=
  if file.type = FileType.fat16Root then
    geo.fatStartSector + 2 * geo.fatSectors + file.cursorOffset / AFATFS_SECTOR_SIZE
  else
    afatfs_fileClusterToPhysical geo file.cursorCluster
      (afatfs_sectorIndexInCluster geo file.cursorOffset)

/-- afatfs_isEndOfAllocatedFile -/
def afatfs_isEndOfAllocatedFile (geo : Geo) (file : File) : Bool :=
  if file.type = FileType.fat16Root then
    file.cursorOffset ≥ AFATFS_SECTOR_SIZE * geo.rootDirectorySectors
  else
    file.cursorCluster = 0
      ∨ (geo.filesystemType = FatType.fat16 ∧ fat16_isEndOfChainMarker file.cursorCluster)
      ∨ (geo.filesystemType = FatType.fat32 ∧ fat32_isEndOfChainMarker file.cursorCluster)

/-- afatfs_fileIsBusy -/
def afatfs_fileIsBusy (file : File) : Bool :=
  file.operation ≠ FileOperation.none

/-- afatfs_superClusterSize -/
def afatfs_superClusterSize (geo : Geo) : Nat :=
  afatfs_fatEntriesPerSector geo * afatfs_clusterSize geo

/-- afatfs_cacheSectorInit -/
def afatfs_cacheSectorInit (st : St) (i : Nat) (sectorIndex : Nat) (locked : Bool) : St :=
  let st := { st with cacheTimer := st.cacheTimer + 1 }
  st.setSlot i { sectorIndex := sectorIndex
                 state := CacheState.empty
                 lastUse := st.cacheTimer
                 locked := locked
                 retainCount := (st.slot i).retainCount
                 discardable := false }

/-- afatfs_cacheSectorMarkDirty.  The C routine receives a pointer into the
cache; `bufIdx` is the owning slot index (the pointer-to-descriptor lookup,
`afatfs_getCacheDescriptorForBuffer`, always succeeds for such pointers). -/
def afatfs_cacheSectorMarkDirty (st : St) (bufIdx : Nat) : St :=
  if (st.slot bufIdx).state ≠ CacheState.dirty then
    let st := st.setSlot bufIdx { st.slot bufIdx with state := CacheState.dirty }
    { st with cacheDirtyEntries := st.cacheDirtyEntries + 1 }
  else
    st

/-- The loop body of afatfs_sdcardReadComplete, scanning slots from `i`. -/
def afatfs_sdcardReadCompleteLoop (st : St) (sectorIndex buffer : Nat) (i : Nat) : St :=
  if i < AFATFS_NUM_CACHE_SECTORS then
    if (st.slot i).state ≠ CacheState.empty ∧ (st.slot i).sectorIndex = sectorIndex then
      let (_, st) := afatfs_assert st
        (decide (buffer = i ∧ (st.slot i).state = CacheState.reading))
      st.setSlot i { st.slot i with state := CacheState.inSync }
    else
      afatfs_sdcardReadCompleteLoop st sectorIndex buffer (i + 1)
  else
    st
termination_by AFATFS_NUM_CACHE_SECTORS - i

/-- afatfs_sdcardReadComplete.  `buffer` is the slot index owning the
buffer pointer the SD card layer passes back. -/
def afatfs_sdcardReadComplete (st : St) (sectorIndex buffer : Nat) : St :=
  afatfs_sdcardReadCompleteLoop st sectorIndex buffer 0

/-- The loop body of afatfs_sdcardWriteComplete, scanning slots from `i`. -/
def afatfs_sdcardWriteCompleteLoop (st : St) (sectorIndex buffer : Nat) (i : Nat) : St :=
  if i < AFATFS_NUM_CACHE_SECTORS then
    if (st.slot i).state = CacheState.writing ∧ (st.slot i).sectorIndex = sectorIndex then
      let (_, st) := afatfs_assert st (decide (buffer = i))
      st.setSlot i { st.slot i with state := CacheState.inSync }
    else
      afatfs_sdcardWriteCompleteLoop st sectorIndex buffer (i + 1)
  else
    st
termination_by AFATFS_NUM_CACHE_SECTORS - i

/-- afatfs_sdcardWriteComplete -/
def afatfs_sdcardWriteComplete (st : St) (sectorIndex buffer : Nat) : St :=
  afatfs_sdcardWriteCompleteLoop st sectorIndex buffer 0

/-- The loop of afatfs_flush: find the first dirty unlocked slot at index
`≥ i`, try to start its write, and return false; return true when the scan
finds none. -/
def afatfs_flushLoop (st : St) (i : Nat) : Bool × St :=
  if i < AFATFS_NUM_CACHE_SECTORS then
    if (st.slot i).state = CacheState.dirty ∧ (st.slot i).locked = false then
      if st.sdWriteAccepts then
        let st := st.setSlot i { st.slot i with state := CacheState.writing }
        (false, { st with cacheDirtyEntries := st.cacheDirtyEntries - 1 })
      else
        (false, st)
    else
      afatfs_flushLoop st (i + 1)
  else
    (true, st)
termination_by AFATFS_NUM_CACHE_SECTORS - i

/-- afatfs_flush -/
def afatfs_flush (st : St) : Bool × St :=
  if st.cacheDirtyEntries > 0 then
    afatfs_flushLoop st 0
  else
    (true, st)

/-- The AFATFS_CACHE_* flag bitset passed to afatfs_cacheSector. -/
structure CacheFlags where
  read : Bool
  write : Bool
  lock : Bool
  unlock : Bool
  discardable : Bool
  retain : Bool
deriving DecidableEq, Repr

/-- Outcome of the scan loop inside afatfs_allocateCacheSector: either the
requested sector was found in a non-empty slot (early return), or the scan
finished (or broke at a matching empty slot) with its candidates. -/
inductive AllocScan where
  | hit (i : Nat)
  | finish (emptyIndex discardableIndex oldestSyncedSectorIndex : Option Nat)
deriving DecidableEq, Repr

/-- The scan loop of afatfs_allocateCacheSector, from slot `i`, carrying
the loop's candidate accumulators. -/
def afatfs_allocateCacheSectorLoop (st : St) (sectorIndex : Nat) (i : Nat)
    (emptyIndex discardableIndex : Option Nat)
    (oldestSyncedSectorLastUse : Nat) (oldestSyncedSectorIndex : Option Nat) :
    AllocScan × St :=
  if i < AFATFS_NUM_CACHE_SECTORS then
    let d := st.slot i
    if d.sectorIndex = sectorIndex then
      if d.state = CacheState.empty then
        (AllocScan.finish (some i) discardableIndex oldestSyncedSectorIndex, st)
      else
        let st := { st with cacheTimer := st.cacheTimer + 1 }
        (AllocScan.hit i, st.setSlot i { st.slot i with lastUse := st.cacheTimer })
    else
      match d.state with
      | CacheState.empty =>
          afatfs_allocateCacheSectorLoop st sectorIndex (i + 1) (some i)
            discardableIndex oldestSyncedSectorLastUse oldestSyncedSectorIndex
      | CacheState.inSync =>
          if d.locked = false ∧ d.retainCount = 0 then
            if d.discardable then
              afatfs_allocateCacheSectorLoop st sectorIndex (i + 1) emptyIndex
                (some i) oldestSyncedSectorLastUse oldestSyncedSectorIndex
            else if d.lastUse < oldestSyncedSectorLastUse then
              afatfs_allocateCacheSectorLoop st sectorIndex (i + 1) emptyIndex
                discardableIndex d.lastUse (some i)
            else
              afatfs_allocateCacheSectorLoop st sectorIndex (i + 1) emptyIndex
                discardableIndex oldestSyncedSectorLastUse oldestSyncedSectorIndex
          else
            afatfs_allocateCacheSectorLoop st sectorIndex (i + 1) emptyIndex
              discardableIndex oldestSyncedSectorLastUse oldestSyncedSectorIndex
      | _ =>
          afatfs_allocateCacheSectorLoop st sectorIndex (i + 1) emptyIndex
            discardableIndex oldestSyncedSectorLastUse oldestSyncedSectorIndex
  else
    (AllocScan.finish emptyIndex discardableIndex oldestSyncedSectorIndex, st)
termination_by AFATFS_NUM_CACHE_SECTORS - i

/-- afatfs_allocateCacheSector.  `none` models the C routine's −1 return. -/
def afatfs_allocateCacheSector (geo : Geo) (st : St) (sectorIndex : Nat) :
    Option Nat × St :=
  match afatfs_assert st
      (decide (geo.numClusters = 0
        ∨ sectorIndex < geo.clusterStartSector + geo.numClusters * geo.sectorsPerCluster)) with
  | (false, st) => (none, st)
  | (true, st) =>
    match afatfs_allocateCacheSectorLoop st sectorIndex 0 none none 0xFFFFFFFF none with
    | (AllocScan.hit i, st) => (some i, st)
    | (AllocScan.finish emptyIndex discardableIndex oldestSyncedSectorIndex, st) =>
      let allocateIndex :=
        match emptyIndex with
        | some i => some i
        | none =>
          match discardableIndex with
          | some i => some i
          | none => oldestSyncedSectorIndex
      match allocateIndex with
      | some i => (some i, afatfs_cacheSectorInit st i sectorIndex false)
      | none => (none, st)

/-- The AFATFS_CACHE_LOCK / UNLOCK / RETAIN handling at the bottom of
afatfs_cacheSector (the AFATFS_CACHE_STATE_DIRTY fall-through target). -/
def afatfs_cacheSectorLockPhase (st : St) (idx : Nat) (flags : CacheFlags) :
    OpStatus × Nat × St :=
  let st := if flags.lock then st.setSlot idx { st.slot idx with locked := true } else st
  let st := if flags.unlock then st.setSlot idx { st.slot idx with locked := false } else st
  let st :=
    if flags.retain then
      st.setSlot idx { st.slot idx with retainCount := (st.slot idx).retainCount + 1 }
    else st
  (OpStatus.success, idx, st)

/-- The AFATFS_CACHE_WRITE handling of afatfs_cacheSector (the
AFATFS_CACHE_STATE_WRITING / IN_SYNC fall-through target). -/
def afatfs_cacheSectorWritePhase (st : St) (idx : Nat) (flags : CacheFlags) :
    OpStatus × Nat × St :=
  let st :=
    if flags.write then
      let st := st.setSlot idx { st.slot idx with state := CacheState.dirty }
      { st with cacheDirtyEntries := st.cacheDirtyEntries + 1 }
    else st
  afatfs_cacheSectorLockPhase st idx flags

/-- afatfs_cacheSector.  On success the returned `some idx` is the cache
buffer handed to the caller (the slot index owning it). -/
def afatfs_cacheSector (geo : Geo) (st : St) (physicalSectorIndex : Nat)
    (flags : CacheFlags) : OpStatus × Nat × St :=
  match afatfs_assert st (decide ¬(flags.write = true ∧ physicalSectorIndex = 0)) with
  | (false, st) => (OpStatus.failure, 0, st)
  | (true, st) =>
    match afatfs_allocateCacheSector geo st physicalSectorIndex with
    | (none, st) => (OpStatus.inProgress, 0, st)
    | (some idx, st) =>
      match (st.slot idx).state with
      | CacheState.reading => (OpStatus.inProgress, 0, st)
      | CacheState.empty =>
        if flags.read then
          let st :=
            if st.sdReadAccepts then
              st.setSlot idx { st.slot idx with state := CacheState.reading }
            else st
          (OpStatus.inProgress, 0, st)
        else
          let st := st.setSlot idx { st.slot idx with discardable := flags.discardable }
          afatfs_cacheSectorWritePhase st idx flags
      | CacheState.writing => afatfs_cacheSectorWritePhase st idx flags
      | CacheState.inSync => afatfs_cacheSectorWritePhase st idx flags
      | CacheState.dirty => afatfs_cacheSectorLockPhase st idx flags

/-- afatfs_fileUnlockCacheSector -/
def afatfs_fileUnlockCacheSector (st : St) (file : File) : File × St :=
  match file.lockedCacheIndex with
  | some i =>
      ({ file with lockedCacheIndex := none },
        st.setSlot i { st.slot i with locked := false })
  | none => (file, st)

/-- afatfs_getFATPositionForCluster, returning
(fatSectorIndex, fatSectorEntryIndex). -/
def afatfs_getFATPositionForCluster (geo : Geo) (cluster : Nat) : Nat × Nat :=
  if geo.filesystemType = FatType.fat16 then
    ((cluster &&& 0x0FFFFFFF) >>> 8, cluster &&& 0xFF)
  else
    ((cluster &&& 0x0FFFFFFF) >>> 7, cluster &&& 0x7F)

/-- afatfs_FATGetNextCluster.  On success the decoded next-cluster value is
returned in the middle component (the C out-parameter `*nextCluster`,
which is left unwritten — returned as 0 here — on the other statuses). -/
def afatfs_FATGetNextCluster (geo : Geo) (st : St) (fatIndex cluster : Nat) :
    OpStatus × Nat × St :=
  let pos := afatfs_getFATPositionForCluster geo cluster
  match afatfs_cacheSector geo st (afatfs_fatSectorToPhysical geo fatIndex pos.1)
      ⟨true, false, false, false, false, false⟩ with
  | (OpStatus.success, buf, st) =>
      if geo.filesystemType = FatType.fat16 then
        (OpStatus.success, st.mem buf pos.2, st)
      else
        (OpStatus.success, fat32_decodeClusterNumber (st.mem buf pos.2), st)
  | (result, _, st) => (result, 0, st)

/-- afatfs_FATSetNextCluster.  The stored value is truncated to the FAT
entry width (`uint16_t` / `uint32_t`). -/
def afatfs_FATSetNextCluster (geo : Geo) (st : St) (startCluster nextCluster : Nat) :
    OpStatus × St :=
  let pos := afatfs_getFATPositionForCluster geo startCluster
  let fatPhysicalSector := afatfs_fatSectorToPhysical geo 0 pos.1
  match afatfs_cacheSector geo st fatPhysicalSector
      ⟨true, true, false, false, false, false⟩ with
  | (OpStatus.success, buf, st) =>
      if geo.filesystemType = FatType.fat16 then
        (OpStatus.success, st.setMem buf pos.2 (nextCluster % 2 ^ 16))
      else
        (OpStatus.success, st.setMem buf pos.2 (nextCluster % 2 ^ 32))
  | (result, _, st) => (result, st)

/-- The freefile's first cluster as read in afatfs_fileGetNextCluster:
`(firstClusterHigh << 16) | firstClusterLow`. -/
def freeFileStartOr (st : St) : Nat :=
  (st.freeFile.directoryEntry.firstClusterHigh <<< 16)
    ||| st.freeFile.directoryEntry.firstClusterLow

/-- The freefile's first cluster as read in afatfs_findClusterWithCondition
and afatfs_appendSuperclusterContinue:
`(firstClusterHigh << 16) + firstClusterLow`. -/
def freeFileStartAdd (st : St) : Nat :=
  (st.freeFile.directoryEntry.firstClusterHigh <<< 16)
    + st.freeFile.directoryEntry.firstClusterLow

/-- afatfs_fileGetNextCluster -/
def afatfs_fileGetNextCluster (geo : Geo) (st : St) (file : File)
    (currentCluster : Nat) : OpStatus × Nat × St :=
  if file.mode.contiguous then
    let freeFileStart := freeFileStartOr st
    if currentCluster + 1 = freeFileStart then
      (OpStatus.success, 0, st)
    else
      (OpStatus.success, currentCluster + 1, st)
  else
    afatfs_FATGetNextCluster geo st 0 currentCluster

/-- Result of scanning the remainder of one cached FAT sector inside
afatfs_findClusterWithCondition: either the scan ends the whole search
(with the C routine's status and final `*cluster`), or it ran off the end
of the sector and the outer loop moves to the next FAT sector with the
advanced `*cluster`. -/
inductive InnerScan where
  | done (r : FindClusterStatus) (cluster : Nat)
  | nextSector (cluster : Nat)
deriving DecidableEq, Repr

/-- The decoded FAT entry read by the `switch (afatfs.filesystemType)` of
the inner loop of afatfs_findClusterWithCondition; `none` is the `default`
branch (`return AFATFS_FIND_CLUSTER_FATAL`). -/
def fatEntryValueAt (geo : Geo) (st : St) (buf fei : Nat) : Option Nat :=
  match geo.filesystemType with
  | FatType.fat16 => some (st.mem buf fei)
  | FatType.fat32 => some (fat32_decodeClusterNumber (st.mem buf fei))
  | _ => none

/-- The inner do/while of afatfs_findClusterWithCondition: examine FAT
entries of the cached sector `buf` from entry `fei`, advancing by `jump`,
with the search cursor at `cluster`.  The cache is only read here. -/
def findClusterScanSector (geo : Geo) (st : St) (lookingForFree : Bool)
    (jump : Nat) (hj : 0 < jump) (buf : Nat) (cluster fei : Nat) : InnerScan :=
  match fatEntryValueAt geo st buf fei with
  | none => InnerScan.done FindClusterStatus.fatal cluster
  | some clusterNumber =>
    if fat_isFreeSpace clusterNumber = lookingForFree then
      if cluster < geo.numClusters + FAT_SMALLEST_LEGAL_CLUSTER_NUMBER then
        InnerScan.done FindClusterStatus.found cluster
      else
        InnerScan.done FindClusterStatus.notFound
          (geo.numClusters + FAT_SMALLEST_LEGAL_CLUSTER_NUMBER)
    else
      if fei + jump < afatfs_fatEntriesPerSector geo then
        findClusterScanSector geo st lookingForFree jump hj buf (cluster + jump) (fei + jump)
      else
        InnerScan.nextSector (cluster + jump)
termination_by afatfs_fatEntriesPerSector geo - fei
decreasing_by omega

theorem findClusterScanSector_nextSector_lt (geo : Geo) (st : St)
    (lookingForFree : Bool) (jump : Nat) (hj : 0 < jump) (buf : Nat) :
    ∀ n cluster fei c2, afatfs_fatEntriesPerSector geo - fei ≤ n →
      findClusterScanSector geo st lookingForFree jump hj buf cluster fei
        = InnerScan.nextSector c2 →
      cluster < c2 ∧
        c2 ≤ cluster + (afatfs_fatEntriesPerSector geo - fei) + jump := by
  intro n
  induction n with
  | zero =>
      intro cluster fei c2 hn h
      unfold findClusterScanSector at h
      split at h
      · exact absurd h (by simp)
      · split at h
        · split at h <;> exact absurd h (by simp)
        · split at h
          · omega
          · cases h; omega
  | succ n ih =>
      intro cluster fei c2 hn h
      unfold findClusterScanSector at h
      split at h
      · exact absurd h (by simp)
      · split at h
        · split at h <;> exact absurd h (by simp)
        · split at h
          · have h2 := ih (cluster + jump) (fei + jump) c2 (by omega) h
            omega
          · cases h; omega

theorem roundUpTo_ge (value rounding : Nat) : value ≤ roundUpTo value rounding := by
  unfold roundUpTo
  dsimp only
  split <;> omega

theorem fatEntriesPerSector_pos (geo : Geo) : 0 < afatfs_fatEntriesPerSector geo := by
  unfold afatfs_fatEntriesPerSector AFATFS_FAT32_FAT_ENTRIES_PER_SECTOR
    AFATFS_FAT16_FAT_ENTRIES_PER_SECTOR
  split <;> norm_num

theorem clusterSize_pos (geo : Geo) (hspc : 0 < geo.sectorsPerCluster) :
    0 < afatfs_clusterSize geo := by
  unfold afatfs_clusterSize AFATFS_SECTOR_SIZE
  positivity

/-- The `while (*cluster < afatfs.numClusters + 2)` loop of
afatfs_findClusterWithCondition, entered with search cursor `cluster` and
the current FAT position `(fsi, fei)` (which the C code keeps in the local
variables `fatSectorIndex` / `fatSectorEntryIndex` and does not re-derive
from the cursor after the freefile skip). -/
def findClusterLoop (geo : Geo) (hspc : 0 < geo.sectorsPerCluster)
    (lookingForFree : Bool) (jump : Nat) (hj : 0 < jump)
    (hje : jump ≤ afatfs_fatEntriesPerSector geo)
    (st : St) (cluster fsi fei : Nat) : FindClusterStatus × Nat × St :=
  if cluster < geo.numClusters + FAT_SMALLEST_LEGAL_CLUSTER_NUMBER then
    if st.freeFile.directoryEntry.fileSize > 0 ∧ cluster = freeFileStartAdd st then
      findClusterLoop geo hspc lookingForFree jump hj hje st
        (roundUpTo
          (cluster +
            (st.freeFile.directoryEntry.fileSize + afatfs_clusterSize geo - 1) /
              afatfs_clusterSize geo)
          jump)
        fsi fei
    else
      match afatfs_cacheSector geo st (afatfs_fatSectorToPhysical geo 0 fsi)
          ⟨true, false, false, false, true, false⟩ with
      | (OpStatus.inProgress, _, st) => (FindClusterStatus.inProgress, cluster, st)
      | (OpStatus.failure, _, st) => (FindClusterStatus.fatal, cluster, st)
      | (OpStatus.success, buf, st) =>
        match hscan : findClusterScanSector geo st lookingForFree jump hj buf cluster fei with
        | InnerScan.done r c2 => (r, c2, st)
        | InnerScan.nextSector c2 =>
            findClusterLoop geo hspc lookingForFree jump hj hje st c2 (fsi + 1) 0
  else
    (FindClusterStatus.notFound,
      geo.numClusters + FAT_SMALLEST_LEGAL_CLUSTER_NUMBER, st)
termination_by
  geo.numClusters + FAT_SMALLEST_LEGAL_CLUSTER_NUMBER
    + 2 * afatfs_fatEntriesPerSector geo - cluster
decreasing_by
  · have hcs : 0 < afatfs_clusterSize geo := clusterSize_pos geo hspc
    have h1 : 1 ≤
        (st.freeFile.directoryEntry.fileSize + afatfs_clusterSize geo - 1) /
          afatfs_clusterSize geo := by
      rw [Nat.le_div_iff_mul_le hcs]
      omega
    have h2 := roundUpTo_ge
      (cluster +
        (st.freeFile.directoryEntry.fileSize + afatfs_clusterSize geo - 1) /
          afatfs_clusterSize geo) jump
    unfold FAT_SMALLEST_LEGAL_CLUSTER_NUMBER at *
    omega
  · have h2 := findClusterScanSector_nextSector_lt geo _ lookingForFree jump hj buf
      (afatfs_fatEntriesPerSector geo - fei) cluster fei c2 (le_refl _) hscan
    unfold FAT_SMALLEST_LEGAL_CLUSTER_NUMBER at *
    omega

/-- afatfs_findClusterWithCondition.  The returned `Nat` is the final value
of the in/out `*cluster` argument. -/
def afatfs_findClusterWithCondition (geo : Geo) (hspc : 0 < geo.sectorsPerCluster)
    (st : St) (condition : ClusterSearchCondition) (cluster : Nat) :
    FindClusterStatus × Nat × St :=
  let pos := afatfs_getFATPositionForCluster geo cluster
  match condition with
  | ClusterSearchCondition.freeSectorAtBeginningOfFatSector =>
    match afatfs_assert st (decide (pos.2 = 0)) with
    | (false, st) => (FindClusterStatus.fatal, cluster, st)
    | (true, st) =>
        findClusterLoop geo hspc true (afatfs_fatEntriesPerSector geo)
          (fatEntriesPerSector_pos geo) (le_refl _) st cluster pos.1 pos.2
  | ClusterSearchCondition.freeSector =>
      findClusterLoop geo hspc true 1 one_pos (fatEntriesPerSector_pos geo)
        st cluster pos.1 pos.2
  | ClusterSearchCondition.occupiedSector =>
      findClusterLoop geo hspc false 1 one_pos (fatEntriesPerSector_pos geo)
        st cluster pos.1 pos.2

/-- The entry-writing `for` loop inside afatfs_FATWriteSuperclusterChain:
write FAT entries `i, i+1, …, count−1` of the cached sector `buf` with the
running `nextCluster` values (truncated to the entry width), returning the
state and the advanced `nextCluster`. -/
def writeFatEntriesLoop (buf : Nat) (width : Nat) (st : St)
    (i count nextCluster : Nat) : St × Nat :=
  if i < count then
    writeFatEntriesLoop buf width (st.setMem buf i (nextCluster % width))
      (i + 1) count (nextCluster + 1)
  else
    (st, nextCluster)
termination_by count - i

/-- The `entriesToWrite` computation at the top of each iteration of the
afatfs_FATWriteSuperclusterChain loop (`endCluster − *startCluster − 1`,
clamped to the FAT entries per sector of the filesystem type). -/
def chainEntriesToWrite (geo : Geo) (startCluster endCluster : Nat) : Nat :=
  if geo.filesystemType = FatType.fat16 then
    min (endCluster - startCluster - 1) AFATFS_FAT16_FAT_ENTRIES_PER_SECTOR
  else
    min (endCluster - startCluster - 1) AFATFS_FAT32_FAT_ENTRIES_PER_SECTOR

theorem chainEntriesToWrite_le (geo : Geo) (s e : Nat) :
    chainEntriesToWrite geo s e ≤ e - s - 1 := by
  unfold chainEntriesToWrite
  split <;> omega

theorem chainEntriesToWrite_pos (geo : Geo) (s e : Nat) (h : s + 1 < e) :
    1 ≤ chainEntriesToWrite geo s e := by
  unfold chainEntriesToWrite AFATFS_FAT16_FAT_ENTRIES_PER_SECTOR
    AFATFS_FAT32_FAT_ENTRIES_PER_SECTOR
  split <;> omega

/-- The `while (*startCluster < endCluster)` loop of
afatfs_FATWriteSuperclusterChain.  Returns the C routine's status, the
final value of the in/out `*startCluster`, and the state. -/
def FATWriteSuperclusterChainLoop (geo : Geo) (st : St)
    (startCluster endCluster nextCluster fatPhysicalSector : Nat) :
    OpStatus × Nat × St :=
  if startCluster < endCluster then
    match afatfs_cacheSector geo st fatPhysicalSector
        ⟨false, true, false, false, true, false⟩ with
    | (OpStatus.success, buf, st) =>
      let entriesToWrite := chainEntriesToWrite geo startCluster endCluster
      let width := if geo.filesystemType = FatType.fat16 then 2 ^ 16 else 2 ^ 32
      let r := writeFatEntriesLoop buf width st 0 entriesToWrite nextCluster
      if h : startCluster + entriesToWrite = endCluster - 1 then
        let st :=
          if geo.filesystemType = FatType.fat16 then
            r.1.setMem buf entriesToWrite 0xFFFF
          else
            r.1.setMem buf entriesToWrite 0xFFFFFFFF
        (OpStatus.success, startCluster + entriesToWrite + 1, st)
      else
        FATWriteSuperclusterChainLoop geo r.1 (startCluster + entriesToWrite)
          endCluster r.2 (fatPhysicalSector + 1)
    | (result, _, st) => (result, startCluster, st)
  else
    (OpStatus.success, startCluster, st)
termination_by endCluster - startCluster
decreasing_by
  have h1 := chainEntriesToWrite_le geo startCluster endCluster
  rcases Nat.lt_or_ge (startCluster + 1) endCluster with h2 | h2
  · have h3 := chainEntriesToWrite_pos geo startCluster endCluster h2
    omega
  · omega

/-- afatfs_FATWriteSuperclusterChain -/
def afatfs_FATWriteSuperclusterChain (geo : Geo) (st : St)
    (startCluster endCluster : Nat) : OpStatus × Nat × St :=
  let nextCluster := startCluster + 1
  let pos := afatfs_getFATPositionForCluster geo startCluster
  let (_, st) := afatfs_assert st (decide (pos.2 = 0))
  FATWriteSuperclusterChainLoop geo st startCluster endCluster nextCluster
    (afatfs_fatSectorToPhysical geo 0 pos.1)

/-- afatfs_saveDirectoryEntry.  The 32-byte `memcpy` of the directory entry
into the cached sector touches only data bytes, which are outside the
modelled `mem`; the dirty marking is performed by the WRITE flag of the
cache request. -/
def afatfs_saveDirectoryEntry (geo : Geo) (st : St) (file : File) :
    OpStatus × File × St :=
  let sectorNumber := afatfs_directorySectorToPhysical geo
    file.directoryEntryPos.clusterNumber file.directoryEntryPos.sectorNumber
  match afatfs_cacheSector geo st sectorNumber
      ⟨true, true, false, false, false, false⟩ with
  | (OpStatus.success, _, st) =>
    let file :=
      if file.type = FileType.directory then
        { file with directoryEntry := { file.directoryEntry with fileSize := 0 } }
      else file
    match afatfs_assert st (decide (file.directoryEntryPos.entryIndex ≥ 0)) with
    | (true, st) => (OpStatus.success, file, st)
    | (false, st) => (OpStatus.failure, file, st)
  | (result, _, st) => (result, file, st)

/-- AFATFS_APPEND_FREE_CLUSTER_PHASE_* -/
def PHASE_AFC_INIT : Nat := 0
def PHASE_AFC_FIND_FREESPACE : Nat := 1
def PHASE_AFC_UPDATE_FAT1 : Nat := 2
def PHASE_AFC_UPDATE_FAT2 : Nat := 3
def PHASE_AFC_UPDATE_FILE_DIRECTORY : Nat := 4
def PHASE_AFC_COMPLETE : Nat := 5
def PHASE_AFC_FAILURE : Nat := 6

/-- The `doMore` dispatch of afatfs_appendRegularFreeClusterContinue, taking
and returning the afatfsAppendFreeClusterState_t explicitly. -/
def appendRegularFreeClusterMachine (geo : Geo) (hspc : 0 < geo.sectorsPerCluster)
    (st : St) (file : File) (opS : AppendFreeClusterState) :
    OpStatus × AppendFreeClusterState × File × St :=
  if h0 : opS.phase = PHASE_AFC_INIT then
    appendRegularFreeClusterMachine geo hspc st file
      { opS with searchCluster := st.lastClusterAllocated,
                 phase := PHASE_AFC_FIND_FREESPACE }
  else if h1 : opS.phase = PHASE_AFC_FIND_FREESPACE then
    match afatfs_findClusterWithCondition geo hspc st
        ClusterSearchCondition.freeSector opS.searchCluster with
    | (FindClusterStatus.found, c, st) =>
        let st := { st with lastClusterAllocated := c }
        let file := { file with cursorCluster := c }
        let file :=
          if opS.previousCluster = 0 then
            { file with directoryEntry :=
              { file.directoryEntry with
                  firstClusterHigh := (c >>> 16) % 2 ^ 16,
                  firstClusterLow := c &&& 0xFFFF } }
          else file
        appendRegularFreeClusterMachine geo hspc st file
          { opS with searchCluster := c, phase := PHASE_AFC_UPDATE_FAT1 }
    | (FindClusterStatus.fatal, c, st) =>
        appendRegularFreeClusterMachine geo hspc st file
          { opS with searchCluster := c, phase := PHASE_AFC_FAILURE }
    | (FindClusterStatus.notFound, c, st) =>
        appendRegularFreeClusterMachine geo hspc st file
          { opS with searchCluster := c, phase := PHASE_AFC_FAILURE }
    | (FindClusterStatus.inProgress, c, st) =>
        (OpStatus.inProgress, { opS with searchCluster := c }, file, st)
  else if h2 : opS.phase = PHASE_AFC_UPDATE_FAT1 then
    match afatfs_FATSetNextCluster geo st opS.searchCluster 0xFFFFFFFF with
    | (OpStatus.success, st) =>
        appendRegularFreeClusterMachine geo hspc st file
          { opS with phase :=
              if opS.previousCluster = 0 then PHASE_AFC_UPDATE_FILE_DIRECTORY
              else PHASE_AFC_UPDATE_FAT2 }
    | (_, st) => (OpStatus.inProgress, opS, file, st)
  else if h3 : opS.phase = PHASE_AFC_UPDATE_FILE_DIRECTORY then
    match afatfs_saveDirectoryEntry geo st file with
    | (OpStatus.success, file, st) =>
        appendRegularFreeClusterMachine geo hspc st file
          { opS with phase := PHASE_AFC_COMPLETE }
    | (_, file, st) => (OpStatus.inProgress, opS, file, st)
  else if h4 : opS.phase = PHASE_AFC_UPDATE_FAT2 then
    match afatfs_FATSetNextCluster geo st opS.previousCluster opS.searchCluster with
    | (OpStatus.success, st) =>
        appendRegularFreeClusterMachine geo hspc st file
          { opS with phase := PHASE_AFC_COMPLETE }
    | (_, st) => (OpStatus.inProgress, opS, file, st)
  else if h5 : opS.phase = PHASE_AFC_COMPLETE then
    (OpStatus.success, opS, file, st)
  else if h6 : opS.phase = PHASE_AFC_FAILURE then
    (OpStatus.failure, opS, file, { st with filesystemFull := true })
  else
    (OpStatus.inProgress, opS, file, st)
termination_by 7 - opS.phase
decreasing_by
  all_goals
    simp only [PHASE_AFC_INIT, PHASE_AFC_FIND_FREESPACE, PHASE_AFC_UPDATE_FAT1,
      PHASE_AFC_UPDATE_FAT2, PHASE_AFC_UPDATE_FILE_DIRECTORY, PHASE_AFC_COMPLETE,
      PHASE_AFC_FAILURE] at *
  all_goals first
  | omega
  | (split <;> omega)

/-- afatfs_appendRegularFreeClusterContinue -/
def afatfs_appendRegularFreeClusterContinue (geo : Geo)
    (hspc : 0 < geo.sectorsPerCluster) (st : St) (file : File) :
    OpStatus × File × St :=
  match appendRegularFreeClusterMachine geo hspc st file
      file.operation.getAppendFreeCluster with
  | (status, opS, file, st) =>
      (status, { file with operation := file.operation.setAppendFreeCluster opS }, st)

/-- afatfs_appendRegularFreeClusterInitOperationState.  The C routine
assigns only `phase` and `previousCluster`; `searchCluster` keeps whatever
the union held (it is overwritten by the INIT phase before any read) and is
modelled as 0. -/
def afatfs_appendRegularFreeClusterInitOperationState (previousCluster : Nat) :
    AppendFreeClusterState :=
  ⟨PHASE_AFC_INIT, previousCluster, 0⟩

/-- afatfs_appendRegularFreeCluster -/
def afatfs_appendRegularFreeCluster (geo : Geo) (hspc : 0 < geo.sectorsPerCluster)
    (st : St) (file : File) : OpStatus × File × St :=
  if (match file.operation with
      | FileOperation.appendFreeCluster _ => true
      | _ => false) then
    (OpStatus.inProgress, file, st)
  else if st.filesystemFull ∨ afatfs_fileIsBusy file then
    (OpStatus.failure, file, st)
  else
    let newOp := FileOperation.appendFreeCluster
      (afatfs_appendRegularFreeClusterInitOperationState file.cursorPreviousCluster)
    let file := { file with operation := newOp }
    match afatfs_appendRegularFreeClusterContinue geo hspc st file with
    | (status, file, st) =>
      if status ≠ OpStatus.inProgress then
        (status, { file with operation := FileOperation.none }, st)
      else
        (status, file, st)

/-- AFATFS_APPEND_SUPERCLUSTER_PHASE_* -/
def PHASE_ASC_INIT : Nat := 0
def PHASE_ASC_UPDATE_FAT : Nat := 1
def PHASE_ASC_UPDATE_FREEFILE_DIRECTORY : Nat := 2
def PHASE_ASC_UPDATE_FILE_DIRECTORY : Nat := 3

/-- The `doMore` dispatch of afatfs_appendSuperclusterContinue, taking and
returning the afatfsAppendSuperclusterState_t fields explicitly. -/
def appendSuperclusterMachine (geo : Geo) (st : St) (file : File)
    (phase previousCluster fatRewriteStartCluster fatRewriteEndCluster : Nat) :
    OpStatus × Nat × Nat × Nat × File × St :=
  if h0 : phase = PHASE_ASC_INIT then
    let freeFileStartCluster := freeFileStartOr st
    let fatRewriteStartCluster := freeFileStartCluster
    let fatRewriteEndCluster := freeFileStartCluster + afatfs_fatEntriesPerSector geo
    let file :=
      if previousCluster = 0 then
        { file with directoryEntry :=
          { file.directoryEntry with
              firstClusterHigh := st.freeFile.directoryEntry.firstClusterHigh,
              firstClusterLow := st.freeFile.directoryEntry.firstClusterLow } }
      else file
    let fatRewriteStartCluster :=
      if previousCluster = 0 then fatRewriteStartCluster
      else fatRewriteStartCluster - afatfs_fatEntriesPerSector geo
    let newFileSize :=
      st.freeFile.directoryEntry.fileSize - afatfs_superClusterSize geo
    let newFreeFileStartCluster :=
      if newFileSize = 0 then 0
      else freeFileStartCluster + afatfs_fatEntriesPerSector geo
    let st := { st with freeFile := { st.freeFile with directoryEntry :=
      { st.freeFile.directoryEntry with
          fileSize := newFileSize,
          firstClusterLow := newFreeFileStartCluster % 2 ^ 16,
          firstClusterHigh := (newFreeFileStartCluster >>> 16) % 2 ^ 16 } } }
    appendSuperclusterMachine geo st file PHASE_ASC_UPDATE_FAT previousCluster
      fatRewriteStartCluster fatRewriteEndCluster
  else if h1 : phase = PHASE_ASC_UPDATE_FAT then
    match afatfs_FATWriteSuperclusterChain geo st fatRewriteStartCluster
        fatRewriteEndCluster with
    | (OpStatus.success, s2, st) =>
        appendSuperclusterMachine geo st file PHASE_ASC_UPDATE_FREEFILE_DIRECTORY
          previousCluster s2 fatRewriteEndCluster
    | (status, s2, st) =>
        (status, phase, s2, fatRewriteEndCluster, file, st)
  else if h2 : phase = PHASE_ASC_UPDATE_FREEFILE_DIRECTORY then
    match afatfs_saveDirectoryEntry geo st st.freeFile with
    | (OpStatus.success, ff, st) =>
        let st := { st with freeFile := ff }
        if previousCluster = 0 then
          appendSuperclusterMachine geo st file PHASE_ASC_UPDATE_FILE_DIRECTORY
            previousCluster fatRewriteStartCluster fatRewriteEndCluster
        else
          (OpStatus.success, phase, fatRewriteStartCluster, fatRewriteEndCluster,
            file, st)
    | (status, ff, st) =>
        (status, phase, fatRewriteStartCluster, fatRewriteEndCluster, file,
          { st with freeFile := ff })
  else if h3 : phase = PHASE_ASC_UPDATE_FILE_DIRECTORY then
    match afatfs_saveDirectoryEntry geo st file with
    | (status, file, st) =>
        (status, phase, fatRewriteStartCluster, fatRewriteEndCluster, file, st)
  else
    -- A phase outside the enumeration leaves `status` indeterminate in C;
    -- the machine is never entered in such a phase.
    (OpStatus.inProgress, phase, fatRewriteStartCluster, fatRewriteEndCluster,
      file, st)
termination_by 4 - phase
decreasing_by
  all_goals
    simp only [PHASE_ASC_INIT, PHASE_ASC_UPDATE_FAT,
      PHASE_ASC_UPDATE_FREEFILE_DIRECTORY, PHASE_ASC_UPDATE_FILE_DIRECTORY] at *
  all_goals omega

/-- afatfs_appendSuperclusterContinue -/
def afatfs_appendSuperclusterContinue (geo : Geo) (st : St) (file : File) :
    OpStatus × File × St :=
  match file.operation with
  | FileOperation.appendSupercluster phase previousCluster frs fre =>
    match appendSuperclusterMachine geo st file phase previousCluster frs fre with
    | (status, phase, frs, fre, file, st) =>
        (status,
          { file with operation :=
              FileOperation.appendSupercluster phase previousCluster frs fre },
          st)
  | _ =>
      -- Union reinterpretation of an unrelated operation state: the
      -- embedded callers always set the tag before calling.
      (OpStatus.inProgress, file, st)

/-- afatfs_appendSupercluster -/
def afatfs_appendSupercluster (geo : Geo) (st : St) (file : File)
    (previousCluster : Nat) : OpStatus × File × St :=
  if (match file.operation with
      | FileOperation.appendSupercluster _ _ _ _ => true
      | _ => false) then
    (OpStatus.inProgress, file, st)
  else
    let st :=
      if st.freeFile.directoryEntry.fileSize < afatfs_superClusterSize geo then
        { st with filesystemFull := true }
      else st
    if st.filesystemFull ∨ afatfs_fileIsBusy file then
      (OpStatus.failure, file, st)
    else
      let newOp := FileOperation.appendSupercluster PHASE_ASC_INIT previousCluster 0 0
      let file := { file with operation := newOp }
      let file := { file with cursorCluster := freeFileStartOr st }
      match afatfs_appendSuperclusterContinue geo st file with
      | (status, file, st) =>
        if status ≠ OpStatus.inProgress then
          (status, { file with operation := FileOperation.none }, st)
        else
          (status, file, st)

/-- afatfs_appendFreeCluster -/
def afatfs_appendFreeCluster (geo : Geo) (hspc : 0 < geo.sectorsPerCluster)
    (st : St) (file : File) : OpStatus × File × St :=
  if file.mode.contiguous then
    afatfs_appendSupercluster geo st file file.cursorPreviousCluster
  else
    afatfs_appendRegularFreeCluster geo hspc st file

/-- Reduction of an `int` expression to the `uint32_t` it converts to. -/
def u32ofInt (x : Int) : Nat := (x % (2 ^ 32 : Int)).toNat

/-- `uint32_t` + `int32_t` arithmetic as performed on cursor offsets. -/
def u32AddInt (a : Nat) (b : Int) : Nat := u32ofInt (a + b)

/-- The tail of afatfs_fseekAtomic: "If we didn't already hit the end of
the file, add any remaining offset needed inside the cluster". -/
def afatfs_fseekAtomicFinish (geo : Geo) (st : St) (file : File) (offset : Int) :
    Bool × File × St :=
  if ¬ afatfs_isEndOfAllocatedFile geo file then
    (true, { file with cursorOffset := u32AddInt file.cursorOffset offset }, st)
  else
    (true, file, st)

/-- afatfs_fseekAtomic -/
def afatfs_fseekAtomic (geo : Geo) (st : St) (file : File) (offset : Int) :
    Bool × File × St :=
  let newSectorOffset := u32AddInt (file.cursorOffset % AFATFS_SECTOR_SIZE) offset
  if newSectorOffset < AFATFS_SECTOR_SIZE then
    (true, { file with cursorOffset := u32AddInt file.cursorOffset offset }, st)
  else
    match afatfs_fileUnlockCacheSector st file with
    | (file, st) =>
      if file.type = FileType.fat16Root then
        (true, { file with cursorOffset := u32AddInt file.cursorOffset offset }, st)
      else
        let clusterSizeBytes := afatfs_clusterSize geo
        let offsetInCluster := afatfs_byteIndexInCluster geo file.cursorOffset
        let newOffsetInCluster := u32AddInt offsetInCluster offset
        if offset > (clusterSizeBytes : Int) ∨ offset < -(offsetInCluster : Int) then
          (false, file, st)
        else
          if newOffsetInCluster ≥ clusterSizeBytes then
            match afatfs_fileGetNextCluster geo st file file.cursorCluster with
            | (OpStatus.success, nextCluster, st) =>
                let bytesToSeek := clusterSizeBytes - offsetInCluster
                let file := { file with
                  cursorPreviousCluster := file.cursorCluster,
                  cursorCluster := nextCluster,
                  cursorOffset := (file.cursorOffset + bytesToSeek) % 2 ^ 32 }
                afatfs_fseekAtomicFinish geo st file (offset - (bytesToSeek : Int))
            | (_, _, st) => (false, file, st)
          else
            afatfs_fseekAtomicFinish geo st file offset

/-- afatfs_fseekInternal.  The completion callback is external code; the
embedded call sites pass NULL. -/
def afatfs_fseekInternal (geo : Geo) (st : St) (file : File) (offset : Nat) :
    OpStatus × File × St :=
  match afatfs_fseekAtomic geo st file (offset : Int) with
  | (true, file, st) => (OpStatus.success, file, st)
  | (false, file, st) =>
    if afatfs_fileIsBusy file then
      (OpStatus.failure, file, st)
    else
      (OpStatus.inProgress, { file with operation := FileOperation.seek offset }, st)

/-- afatfsSeek_e -/
inductive Whence where
  | set
  | cur
  | seekEnd
deriving DecidableEq, Repr

/-- The SEEK_SET path at the bottom of afatfs_fseek: rewind to the start of
the file and seek forwards by the (int-to-uint32 converted) offset. -/
def afatfs_fseekSet (geo : Geo) (st : St) (file : File) (offset : Int) :
    OpStatus × File × St :=
  match afatfs_fileUnlockCacheSector st file with
  | (file, st) =>
    let file := { file with
      cursorPreviousCluster := 0,
      cursorCluster :=
        (file.directoryEntry.firstClusterHigh <<< 16)
          ||| file.directoryEntry.firstClusterLow,
      cursorOffset := 0 }
    afatfs_fseekInternal geo st file (u32ofInt offset)

/-- afatfs_fseek -/
def afatfs_fseek (geo : Geo) (st : St) (file : File) (offset : Int)
    (whence : Whence) : OpStatus × File × St :=
  match whence with
  | Whence.cur =>
    if offset ≥ 0 then
      afatfs_fseekInternal geo st file (u32ofInt offset)
    else
      afatfs_fseekSet geo st file (offset + (file.cursorOffset : Int))
  | Whence.seekEnd =>
      afatfs_fseekSet geo st file (offset + (file.directoryEntry.fileSize : Int))
  | Whence.set =>
      afatfs_fseekSet geo st file offset

/-- The lock-and-fetch tail of afatfs_fileLockCursorSectorForWrite (after
the append-if-at-end step): compute the cursor's physical sector, decide
whether its previous contents must be read, and lock it in the cache. -/
def fileLockCursorSectorFetch (geo : Geo) (st : St) (file : File) :
    Option Nat × File × St :=
  let physicalSector := afatfs_fileGetCursorPhysicalSector geo file
  let cursorOffsetInSector := file.cursorOffset % AFATFS_SECTOR_SIZE
  let needRead :=
    cursorOffsetInSector > 0
      ∨ (file.cursorOffset &&& (2 ^ 32 - AFATFS_SECTOR_SIZE)) + AFATFS_SECTOR_SIZE
          < file.directoryEntry.fileSize
  match afatfs_cacheSector geo st physicalSector
      ⟨decide needRead, true, true, false, false, false⟩ with
  | (OpStatus.success, idx, st) =>
      (some idx, { file with lockedCacheIndex := some idx }, st)
  | (_, _, st) => (none, file, st)

/-- afatfs_fileLockCursorSectorForWrite.  The returned `Option Nat` is the
cache buffer handed to the caller (`NULL` on `none`). -/
def afatfs_fileLockCursorSectorForWrite (geo : Geo)
    (hspc : 0 < geo.sectorsPerCluster) (st : St) (file : File) :
    Option Nat × File × St :=
  match file.lockedCacheIndex with
  | some lockedCacheIndex =>
    let physicalSector := afatfs_fileGetCursorPhysicalSector geo file
    match afatfs_assert st
        (decide (physicalSector = (st.slot lockedCacheIndex).sectorIndex)) with
    | (false, st) => (none, file, st)
    | (true, st) => (some lockedCacheIndex, file, st)
  | none =>
    if afatfs_isEndOfAllocatedFile geo file then
      match afatfs_appendFreeCluster geo hspc st file with
      | (OpStatus.success, file, st) => fileLockCursorSectorFetch geo st file
      | (_, file, st) => (none, file, st)
    else
      fileLockCursorSectorFetch geo st file

/-- The `while (len > 0)` loop of afatfs_fwrite.  The data bytes moved by
`memcpy` are outside the modelled state.  `cursorOffsetInSector` is the
loop-carried local of the C code (always < 512 there, required here for
termination).  The leading Bool distinguishes the two ways out of the C
loop: `true` is the `return writtenBytes` taken when the cache is busy,
which skips the file-size update after the loop; `false` is the `break`
on a queued seek or the loop condition turning false, after which that
update runs. -/
def afatfs_fwriteLoop (geo : Geo) (hspc : 0 < geo.sectorsPerCluster)
    (st : St) (file : File) (cursorOffsetInSector : Nat)
    (hcos : cursorOffsetInSector < AFATFS_SECTOR_SIZE) (len writtenBytes : Nat) :
    Bool × Nat × File × St :=
  if hlen : len > 0 then
    let bytesToWriteThisSector := min (AFATFS_SECTOR_SIZE - cursorOffsetInSector) len
    match afatfs_fileLockCursorSectorForWrite geo hspc st file with
    | (none, file, st) => (true, writtenBytes, file, st)
    | (some _, file, st) =>
      let writtenBytes := writtenBytes + bytesToWriteThisSector
      match afatfs_fseek geo st file (bytesToWriteThisSector : Int) Whence.cur with
      | (OpStatus.inProgress, file, st) => (false, writtenBytes, file, st)
      | (_, file, st) =>
          afatfs_fwriteLoop geo hspc st file 0 (by unfold AFATFS_SECTOR_SIZE; omega)
            (len - bytesToWriteThisSector) writtenBytes
  else
    (false, writtenBytes, file, st)
termination_by len
decreasing_by
  unfold AFATFS_SECTOR_SIZE at *
  omega

/-- afatfs_fwrite.  Returns the number of bytes written together with the
updated file handle and state.  The `fileSize = MAX(fileSize,
cursorOffset)` update after the loop runs only when the loop was left by
its condition or by the queued-seek `break`; the cache-busy `return
writtenBytes` inside the loop skips it. -/
def afatfs_fwrite (geo : Geo) (hspc : 0 < geo.sectorsPerCluster)
    (st : St) (file : File) (len : Nat) : Nat × File × St :=
  if (file.mode.append ∨ file.mode.write) = false then
    (0, file, st)
  else if afatfs_fileIsBusy file then
    (0, file, st)
  else
    match afatfs_fwriteLoop geo hspc st file (file.cursorOffset % AFATFS_SECTOR_SIZE)
        (by unfold AFATFS_SECTOR_SIZE; omega) len 0 with
    | (true, writtenBytes, file, st) => (writtenBytes, file, st)
    | (false, writtenBytes, file, st) =>
      let file := { file with directoryEntry :=
        { file.directoryEntry with
            fileSize := max file.directoryEntry.fileSize file.cursorOffset } }
      (writtenBytes, file, st)

/-- AFATFS_SUBSTATE_INITIALIZATION_* (only the freefile-init tail is
modelled). -/
def SUBSTATE_FREEFILE_UPDATE_FAT : Nat := 4
def SUBSTATE_FREEFILE_SAVE_DIR_ENTRY : Nat := 5

/-- The AFATFS_SUBSTATE_INITIALIZATION_FREEFILE_SAVE_DIR_ENTRY case of
afatfs_initContinue. -/
def afatfs_initContinueSaveDirEntry (geo : Geo) (st : St) : St :=
  match afatfs_saveDirectoryEntry geo st st.freeFile with
  | (OpStatus.success, ff, st) =>
      { st with freeFile := ff, filesystemState := FsState.ready }
  | (OpStatus.failure, ff, st) =>
      { st with freeFile := ff, filesystemState := FsState.fatal }
  | (_, ff, st) => { st with freeFile := ff }

/-- The AFATFS_SUBSTATE_INITIALIZATION_FREEFILE_UPDATE_FAT case of
afatfs_initContinue, including the `goto doMore` into the save-directory
case on success. -/
def afatfs_initContinueUpdateFat (geo : Geo) (st : St) : St :=
  match afatfs_FATWriteSuperclusterChain geo st st.freeSpaceFATStartCluster
      st.freeSpaceFATEndCluster with
  | (OpStatus.success, s2, st) =>
      let st := { st with freeSpaceFATStartCluster := s2,
                          substate := SUBSTATE_FREEFILE_SAVE_DIR_ENTRY }
      afatfs_initContinueSaveDirEntry geo st
  | (OpStatus.failure, s2, st) =>
      { st with freeSpaceFATStartCluster := s2,
                filesystemState := FsState.fatal }
  | (_, s2, st) => { st with freeSpaceFATStartCluster := s2 }

/-- The AFATFS_SUBSTATE_INITIALIZATION_FREEFILE_FAT_SEARCH case of
afatfs_initContinue from the moment
afatfs_findLargestContiguousFreeBlockContinue has returned
AFATFS_OPERATION_SUCCESS (lines 2572–2600): trim the best gap, set up the
freefile's directory entry and FAT rewrite range, and `goto doMore` into
the chosen follow-up substate. -/
def afatfs_initContinueFreefileFatSearchCompleted (geo : Geo) (st : St) : St :=
  let st := { st with substate := SUBSTATE_FREEFILE_SAVE_DIR_ENTRY }
  if st.freeSpaceSearch.bestGapLength > AFATFS_FREEFILE_LEAVE_CLUSTERS then
    let bgl := st.freeSpaceSearch.bestGapLength - AFATFS_FREEFILE_LEAVE_CLUSTERS
    let bgl := bgl &&& (2 ^ 32 - afatfs_fatEntriesPerSector geo)
    let st := { st with freeSpaceSearch :=
      { st.freeSpaceSearch with bestGapLength := bgl } }
    if bgl > 0 then
      let startCluster := st.freeSpaceSearch.bestGapStart
      let endCluster := st.freeSpaceSearch.bestGapStart + bgl
      let st := { st with
        freeSpaceFATStartCluster := startCluster,
        freeSpaceFATEndCluster := endCluster,
        freeFile := { st.freeFile with directoryEntry :=
          { st.freeFile.directoryEntry with
              firstClusterHigh := (startCluster >>> 16) % 2 ^ 16,
              firstClusterLow := startCluster &&& 0xFFFF,
              fileSize := (bgl * afatfs_clusterSize geo) % 2 ^ 32 } },
        substate := SUBSTATE_FREEFILE_UPDATE_FAT }
      afatfs_initContinueUpdateFat geo st
    else
      afatfs_initContinueSaveDirEntry geo st
  else
    afatfs_initContinueSaveDirEntry geo st

/-!  ## Generic facts about the state and the cache loops -/

theorem St.slot_fs (st : St) (fs : FsState) (j : Nat) :
    ({ st with filesystemState := fs } : St).slot j = st.slot j := rfl

theorem St.slot_setSlot_ne (st : St) (k : Nat) (d : CacheDescriptor) (j : Nat)
    (h : j ≠ k) : (st.setSlot k d).slot j = st.slot j := by
  simp only [St.setSlot, St.slot]
  rw [List.getD_eq_getElem?_getD, List.getD_eq_getElem?_getD,
    List.getElem?_set_ne (by omega)]

theorem St.slot_setSlot_self (st : St) (k : Nat) (d : CacheDescriptor)
    (h : k < st.slots.length) : (st.setSlot k d).slot k = d := by
  simp only [St.setSlot, St.slot]
  rw [List.getD_eq_getElem?_getD, List.getElem?_set_self h]
  rfl

/-- The match condition of the afatfs_sdcardReadComplete scan. -/
def readCompleteMatch (st : St) (sectorIndex j : Nat) : Prop :=
  (st.slot j).state ≠ CacheState.empty ∧ (st.slot j).sectorIndex = sectorIndex

instance (st : St) (sectorIndex j : Nat) :
    Decidable (readCompleteMatch st sectorIndex j) := by
  unfold readCompleteMatch; infer_instance

/-- The match condition of the afatfs_sdcardWriteComplete scan. -/
def writeCompleteMatch (st : St) (sectorIndex j : Nat) : Prop :=
  (st.slot j).state = CacheState.writing ∧ (st.slot j).sectorIndex = sectorIndex

instance (st : St) (sectorIndex j : Nat) :
    Decidable (writeCompleteMatch st sectorIndex j) := by
  unfold writeCompleteMatch; infer_instance

theorem sdcardReadCompleteLoop_no_match (st : St) (S buf : Nat) :
    ∀ n i, AFATFS_NUM_CACHE_SECTORS - i ≤ n →
      (∀ j, i ≤ j → j < AFATFS_NUM_CACHE_SECTORS → ¬ readCompleteMatch st S j) →
      afatfs_sdcardReadCompleteLoop st S buf i = st := by
  intro n
  induction n with
  | zero =>
      intro i hn hno
      unfold afatfs_sdcardReadCompleteLoop
      rw [if_neg]
      omega
  | succ n ih =>
      intro i hn hno
      unfold afatfs_sdcardReadCompleteLoop
      split
      · rw [if_neg]
        · exact ih (i + 1) (by omega) (fun j h1 h2 => hno j (by omega) h2)
        · exact hno i (le_refl i) (by omega)
      · rfl

theorem sdcardReadCompleteLoop_match (st : St) (S buf : Nat) :
    ∀ n i k, AFATFS_NUM_CACHE_SECTORS - i ≤ n →
      i ≤ k → k < AFATFS_NUM_CACHE_SECTORS → readCompleteMatch st S k →
      (∀ j, i ≤ j → j < k → ¬ readCompleteMatch st S j) →
      afatfs_sdcardReadCompleteLoop st S buf i =
        (if buf = k ∧ (st.slot k).state = CacheState.reading then st
         else { st with filesystemState := FsState.fatal }).setSlot k
          { st.slot k with state := CacheState.inSync } := by
  intro n
  induction n with
  | zero => intro i k hn; omega
  | succ n ih =>
      intro i k hn hik hk hmatch hno
      unfold afatfs_sdcardReadCompleteLoop
      rw [if_pos (by omega)]
      rcases Nat.eq_or_lt_of_le hik with heq | hlt
      · subst heq
        have hm : (st.slot i).state ≠ CacheState.empty ∧ (st.slot i).sectorIndex = S :=
          hmatch
        rw [if_pos hm]
        by_cases hc : buf = i ∧ (st.slot i).state = CacheState.reading
        · rw [decide_eq_true hc, if_pos hc]
          rfl
        · rw [decide_eq_false hc, if_neg hc]
          rfl
      · have hm : ¬((st.slot i).state ≠ CacheState.empty ∧ (st.slot i).sectorIndex = S) :=
          hno i (le_refl i) hlt
        rw [if_neg hm]
        exact ih (i + 1) k (by omega) hlt hk hmatch (fun j h1 h2 => hno j (by omega) h2)

theorem sdcardWriteCompleteLoop_no_match (st : St) (S buf : Nat) :
    ∀ n i, AFATFS_NUM_CACHE_SECTORS - i ≤ n →
      (∀ j, i ≤ j → j < AFATFS_NUM_CACHE_SECTORS → ¬ writeCompleteMatch st S j) →
      afatfs_sdcardWriteCompleteLoop st S buf i = st := by
  intro n
  induction n with
  | zero =>
      intro i hn hno
      unfold afatfs_sdcardWriteCompleteLoop
      rw [if_neg]
      omega
  | succ n ih =>
      intro i hn hno
      unfold afatfs_sdcardWriteCompleteLoop
      split
      · rw [if_neg]
        · exact ih (i + 1) (by omega) (fun j h1 h2 => hno j (by omega) h2)
        · exact hno i (le_refl i) (by omega)
      · rfl

theorem sdcardWriteCompleteLoop_match (st : St) (S buf : Nat) :
    ∀ n i k, AFATFS_NUM_CACHE_SECTORS - i ≤ n →
      i ≤ k → k < AFATFS_NUM_CACHE_SECTORS → writeCompleteMatch st S k →
      (∀ j, i ≤ j → j < k → ¬ writeCompleteMatch st S j) →
      afatfs_sdcardWriteCompleteLoop st S buf i =
        (if buf = k then st
         else { st with filesystemState := FsState.fatal }).setSlot k
          { st.slot k with state := CacheState.inSync } := by
  intro n
  induction n with
  | zero => intro i k hn; omega
  | succ n ih =>
      intro i k hn hik hk hmatch hno
      unfold afatfs_sdcardWriteCompleteLoop
      rw [if_pos (by omega)]
      rcases Nat.eq_or_lt_of_le hik with heq | hlt
      · subst heq
        have hm : (st.slot i).state = CacheState.writing ∧ (st.slot i).sectorIndex = S :=
          hmatch
        rw [if_pos hm]
        by_cases hc : buf = i
        · rw [decide_eq_true hc, if_pos hc]
          rfl
        · rw [decide_eq_false hc, if_neg hc]
          rfl
      · have hm : ¬((st.slot i).state = CacheState.writing ∧ (st.slot i).sectorIndex = S) :=
          hno i (le_refl i) hlt
        rw [if_neg hm]
        exact ih (i + 1) k (by omega) hlt hk hmatch (fun j h1 h2 => hno j (by omega) h2)

/-!  ## Claim C2: completion-callback matching -/

/-- C2 (amended): the completion callbacks match a slot by sector index and
slot state alone — Reading slots for read completions, Writing slots for
write completions.  The first matching slot is promoted to InSync whether
or not the passed buffer belongs to it; buffer identity (and, for reads,
the Reading state) is checked only by an assertion, which on mismatch
sends the filesystem to Fatal instead of ignoring the completion.  A
completion for which no slot matches is silently ignored, so in particular
a Writing slot that was re-dirtied concurrently (now Dirty) stays Dirty. -/
theorem sdcardComplete_matchedBySectorIndex (st : St) (S buf : Nat)
    (hlen : st.slots.length = AFATFS_NUM_CACHE_SECTORS) :
    (∀ k, k < AFATFS_NUM_CACHE_SECTORS → readCompleteMatch st S k →
      (∀ j, j < k → ¬ readCompleteMatch st S j) →
      ((afatfs_sdcardReadComplete st S buf).slot k).state = CacheState.inSync
        ∧ (∀ j, j ≠ k → (afatfs_sdcardReadComplete st S buf).slot j = st.slot j)
        ∧ (afatfs_sdcardReadComplete st S buf).filesystemState =
            (if buf = k ∧ (st.slot k).state = CacheState.reading
             then st.filesystemState else FsState.fatal))
    ∧ ((∀ j, j < AFATFS_NUM_CACHE_SECTORS → ¬ readCompleteMatch st S j) →
        afatfs_sdcardReadComplete st S buf = st)
    ∧ (∀ k, k < AFATFS_NUM_CACHE_SECTORS → writeCompleteMatch st S k →
      (∀ j, j < k → ¬ writeCompleteMatch st S j) →
      ((afatfs_sdcardWriteComplete st S buf).slot k).state = CacheState.inSync
        ∧ (∀ j, j ≠ k → (afatfs_sdcardWriteComplete st S buf).slot j = st.slot j)
        ∧ (afatfs_sdcardWriteComplete st S buf).filesystemState =
            (if buf = k then st.filesystemState else FsState.fatal))
    ∧ ((∀ j, j < AFATFS_NUM_CACHE_SECTORS → ¬ writeCompleteMatch st S j) →
        afatfs_sdcardWriteComplete st S buf = st) := by
  refine ⟨?_, ?_, ?_, ?_⟩
  · intro k hk hmatch hfirst
    unfold afatfs_sdcardReadComplete
    rw [sdcardReadCompleteLoop_match st S buf AFATFS_NUM_CACHE_SECTORS 0 k
      (by omega) (Nat.zero_le k) hk hmatch (fun j h1 h2 => hfirst j h2)]
    refine ⟨?_, ?_, ?_⟩
    · by_cases hc : buf = k ∧ (st.slot k).state = CacheState.reading
      · rw [if_pos hc, St.slot_setSlot_self _ k _ (by omega)]
      · rw [if_neg hc, St.slot_setSlot_self _ k _ (by simp only [St.setSlot]; omega)]
    · intro j hj
      by_cases hc : buf = k ∧ (st.slot k).state = CacheState.reading
      · rw [if_pos hc, St.slot_setSlot_ne _ _ _ _ hj]
      · rw [if_neg hc, St.slot_setSlot_ne _ _ _ _ hj]
        rfl
    · by_cases hc : buf = k ∧ (st.slot k).state = CacheState.reading
      · rw [if_pos hc, if_pos hc]
        rfl
      · rw [if_neg hc, if_neg hc]
        rfl
  · intro hno
    unfold afatfs_sdcardReadComplete
    exact sdcardReadCompleteLoop_no_match st S buf AFATFS_NUM_CACHE_SECTORS 0
      (by omega) (fun j h1 h2 => hno j h2)
  · intro k hk hmatch hfirst
    unfold afatfs_sdcardWriteComplete
    rw [sdcardWriteCompleteLoop_match st S buf AFATFS_NUM_CACHE_SECTORS 0 k
      (by omega) (Nat.zero_le k) hk hmatch (fun j h1 h2 => hfirst j h2)]
    refine ⟨?_, ?_, ?_⟩
    · by_cases hc : buf = k
      · rw [if_pos hc, St.slot_setSlot_self _ k _ (by omega)]
      · rw [if_neg hc, St.slot_setSlot_self _ k _ (by simp only [St.setSlot]; omega)]
    · intro j hj
      by_cases hc : buf = k
      · rw [if_pos hc, St.slot_setSlot_ne _ _ _ _ hj]
      · rw [if_neg hc, St.slot_setSlot_ne _ _ _ _ hj]
        rfl
    · by_cases hc : buf = k
      · rw [if_pos hc, if_pos hc]
        rfl
      · rw [if_neg hc, if_neg hc]
        rfl
  · intro hno
    unfold afatfs_sdcardWriteComplete
    exact sdcardWriteCompleteLoop_no_match st S buf AFATFS_NUM_CACHE_SECTORS 0
      (by omega) (fun j h1 h2 => hno j h2)

/-- A file handle with no open file, used to build concrete states. -/
def exFile : File :=
  ⟨FileType.none, 0, 0, 0, ⟨false, false, false, false, false, false⟩,
    Option.none, ⟨0, 0, 0⟩, ⟨0, 0, 0, 0⟩, FileOperation.none⟩

def exSearch : FreeSpaceSearchState := ⟨0, 0, 0, 0, FreeSpaceSearchPhase.findHole⟩

def emptySlot : CacheDescriptor := ⟨0, CacheState.empty, 0, false, 0, false⟩

/-- A ready filesystem whose slot 0 is reading sector 5, all other slots
empty. -/
def c2_exSt : St :=
  { slots := [⟨5, CacheState.reading, 0, false, 0, false⟩, emptySlot, emptySlot,
      emptySlot, emptySlot, emptySlot, emptySlot, emptySlot]
    mem := fun _ _ => 0
    cacheTimer := 0
    cacheDirtyEntries := 0
    filesystemState := FsState.ready
    substate := 0
    filesystemFull := false
    lastClusterAllocated := 1
    freeFile := exFile
    freeSpaceSearch := exSearch
    freeSpaceFATStartCluster := 0
    freeSpaceFATEndCluster := 0
    sdReadAccepts := true
    sdWriteAccepts := true }

/-- C2, as stated, is false: the read completion for sector 5 with buffer 1
matches no slot by (sector index, buffer) — slot 0 reads sector 5 through
buffer 0 — yet it is not silently ignored: the assertion sends the
filesystem to Fatal and the slot is still promoted to InSync. -/
theorem c2_counterexample :
    (∀ i, i < AFATFS_NUM_CACHE_SECTORS →
        ¬((c2_exSt.slot i).state ≠ CacheState.empty
           ∧ (c2_exSt.slot i).sectorIndex = 5 ∧ i = 1))
    ∧ (afatfs_sdcardReadComplete c2_exSt 5 1).filesystemState = FsState.fatal
    ∧ ((afatfs_sdcardReadComplete c2_exSt 5 1).slot 0).state = CacheState.inSync
    ∧ c2_exSt.filesystemState = FsState.ready
    ∧ (c2_exSt.slot 0).state = CacheState.reading := by
  refine ⟨by decide, ?_, ?_, by decide, by decide⟩ <;>
    simp [afatfs_sdcardReadComplete, afatfs_sdcardReadCompleteLoop, c2_exSt,
      St.slot, St.setSlot, afatfs_assert, AFATFS_NUM_CACHE_SECTORS, emptySlot]

theorem c2_witness :
    ((afatfs_sdcardReadComplete c2_exSt 5 0).slot 0).state = CacheState.inSync
      ∧ (afatfs_sdcardReadComplete c2_exSt 5 0).filesystemState = FsState.ready := by
  have h := (sdcardComplete_matchedBySectorIndex c2_exSt 5 0 (by decide)).1 0
    (by decide) (by decide) (fun j hj => absurd hj (by omega))
  refine ⟨h.1, ?_⟩
  rw [h.2.2]
  decide

/-!  ## Claim C4: flush -/

/-- The condition on which the afatfs_flush scan stops: a dirty, unlocked
slot. -/
def flushMatch (st : St) (j : Nat) : Prop :=
  (st.slot j).state = CacheState.dirty ∧ (st.slot j).locked = false

instance (st : St) (j : Nat) : Decidable (flushMatch st j) := by
  unfold flushMatch; infer_instance

/-- The number of cache slots in the Dirty state (what the
`cacheDirtyEntries` counter of afatfs_t tracks). -/
def countDirtySlots (st : St) : Nat :=
  st.slots.countP (fun d => decide (d.state = CacheState.dirty))

theorem flushLoop_no_match (st : St) :
    ∀ n i, AFATFS_NUM_CACHE_SECTORS - i ≤ n →
      (∀ j, i ≤ j → j < AFATFS_NUM_CACHE_SECTORS → ¬ flushMatch st j) →
      afatfs_flushLoop st i = (true, st) := by
  intro n
  induction n with
  | zero =>
      intro i hn hno
      unfold afatfs_flushLoop
      rw [if_neg]
      omega
  | succ n ih =>
      intro i hn hno
      unfold afatfs_flushLoop
      split
      · have hm : ¬((st.slot i).state = CacheState.dirty ∧ (st.slot i).locked = false) :=
          hno i (le_refl i) (by omega)
        rw [if_neg hm]
        exact ih (i + 1) (by omega) (fun j h1 h2 => hno j (by omega) h2)
      · rfl

theorem flushLoop_first_match (st : St) :
    ∀ n i k, AFATFS_NUM_CACHE_SECTORS - i ≤ n →
      i ≤ k → k < AFATFS_NUM_CACHE_SECTORS → flushMatch st k →
      (∀ j, i ≤ j → j < k → ¬ flushMatch st j) →
      afatfs_flushLoop st i =
        (false,
          if st.sdWriteAccepts then
            { st.setSlot k { st.slot k with state := CacheState.writing } with
                cacheDirtyEntries := st.cacheDirtyEntries - 1 }
          else st) := by
  intro n
  induction n with
  | zero => intro i k hn; omega
  | succ n ih =>
      intro i k hn hik hk hmatch hno
      unfold afatfs_flushLoop
      rw [if_pos (by omega)]
      rcases Nat.eq_or_lt_of_le hik with heq | hlt
      · subst heq
        have hm : (st.slot i).state = CacheState.dirty ∧ (st.slot i).locked = false :=
          hmatch
        rw [if_pos hm]
        by_cases ha : st.sdWriteAccepts
        · rw [if_pos ha, if_pos ha]
          rfl
        · rw [if_neg ha, if_neg ha]
      · have hm : ¬((st.slot i).state = CacheState.dirty ∧ (st.slot i).locked = false) :=
          hno i (le_refl i) hlt
        rw [if_neg hm]
        exact ih (i + 1) k (by omega) hlt hk hmatch (fun j h1 h2 => hno j (by omega) h2)

theorem exists_flushMatch_countDirty_pos (st : St)
    (hlen : st.slots.length = AFATFS_NUM_CACHE_SECTORS) :
    (∃ i, i < AFATFS_NUM_CACHE_SECTORS ∧ flushMatch st i) → 0 < countDirtySlots st := by
  rintro ⟨i, hi, hdirty, _⟩
  unfold countDirtySlots
  rw [List.countP_pos]
  refine ⟨st.slot i, ?_, by simp [hdirty]⟩
  unfold St.slot
  rw [List.getD_eq_getElem st.slots default (by omega)]
  exact List.getElem_mem _

/-- C4: a call of afatfs_flush starts a write on at most one cache slot —
any slot it changes was dirty and unlocked and is set to Writing, and only
when the card accepted the write — and it returns true exactly when no
slot is simultaneously Dirty and unlocked (given that `cacheDirtyEntries`
counts the dirty slots, as the field is defined to). -/
theorem afatfs_flush_spec (st : St)
    (hlen : st.slots.length = AFATFS_NUM_CACHE_SECTORS)
    (hcnt : st.cacheDirtyEntries = countDirtySlots st) :
    ((afatfs_flush st).1 = true ↔
        ∀ i, i < AFATFS_NUM_CACHE_SECTORS → ¬ flushMatch st i)
    ∧ (∀ i j, (afatfs_flush st).2.slot i ≠ st.slot i →
        (afatfs_flush st).2.slot j ≠ st.slot j → i = j)
    ∧ (∀ i, (afatfs_flush st).2.slot i ≠ st.slot i →
        i < AFATFS_NUM_CACHE_SECTORS ∧ flushMatch st i ∧ st.sdWriteAccepts = true
          ∧ (afatfs_flush st).2.slot i = { st.slot i with state := CacheState.writing })
    ∧ ((st.sdWriteAccepts = true
          ∧ ∃ i, i < AFATFS_NUM_CACHE_SECTORS ∧ flushMatch st i) →
        ∃ i, i < AFATFS_NUM_CACHE_SECTORS ∧ flushMatch st i
          ∧ (afatfs_flush st).2.slot i = { st.slot i with state := CacheState.writing }) := by
  by_cases hd : st.cacheDirtyEntries > 0
  · unfold afatfs_flush
    rw [if_pos hd]
    by_cases hex : ∃ i, i < AFATFS_NUM_CACHE_SECTORS ∧ flushMatch st i
    · have hkspec := Nat.find_spec hex
      set k := Nat.find hex with hkdef
      have hfirst : ∀ j, 0 ≤ j → j < k → ¬ flushMatch st j := by
        intro j h1 h2 hm
        exact Nat.find_min hex h2 ⟨by omega, hm⟩
      rw [flushLoop_first_match st AFATFS_NUM_CACHE_SECTORS 0 k (by omega)
        (Nat.zero_le k) hkspec.1 hkspec.2 hfirst]
      by_cases ha : st.sdWriteAccepts
      · rw [if_pos ha]
        have hunch : ∀ i, i ≠ k →
            ({ st.setSlot k { st.slot k with state := CacheState.writing } with
              cacheDirtyEntries := st.cacheDirtyEntries - 1 } : St).slot i = st.slot i := by
          intro i hi
          exact St.slot_setSlot_ne st k _ i hi
        have hself :
            ({ st.setSlot k { st.slot k with state := CacheState.writing } with
              cacheDirtyEntries := st.cacheDirtyEntries - 1 } : St).slot k =
              { st.slot k with state := CacheState.writing } :=
          St.slot_setSlot_self st k _ (by omega)
        refine ⟨?_, ?_, ?_, ?_⟩
        · constructor
          · intro h
            exact absurd h (by simp)
          · intro hall
            exact absurd hkspec.2 (hall k hkspec.1)
        · intro i j hi hj
          by_contra hne
          rcases eq_or_ne i k with hik | hik
          · exact hj (hunch j (by omega))
          · exact hi (hunch i hik)
        · intro i hi
          rcases eq_or_ne i k with hik | hik
          · subst hik
            exact ⟨hkspec.1, hkspec.2, ha, hself⟩
          · exact absurd (hunch i hik) hi
        · intro _
          exact ⟨k, hkspec.1, hkspec.2, hself⟩
      · rw [if_neg ha]
        refine ⟨?_, ?_, ?_, ?_⟩
        · constructor
          · intro h
            exact absurd h (by simp)
          · intro hall
            exact absurd hkspec.2 (hall k hkspec.1)
        · intro i j hi _
          exact absurd rfl hi
        · intro i hi
          exact absurd rfl hi
        · intro hacc
          exact absurd hacc.1 (by simpa using ha)
    · have hnone : ∀ j, 0 ≤ j → j < AFATFS_NUM_CACHE_SECTORS → ¬ flushMatch st j :=
        fun j _ hj hm => hex ⟨j, hj, hm⟩
      rw [flushLoop_no_match st AFATFS_NUM_CACHE_SECTORS 0 (by omega) hnone]
      refine ⟨⟨fun _ i hi => hnone i (Nat.zero_le i) hi, fun _ => rfl⟩, ?_, ?_, ?_⟩
      · intro i j hi _
        exact absurd rfl hi
      · intro i hi
        exact absurd rfl hi
      · intro hacc
        exact absurd hacc.2 hex
  · unfold afatfs_flush
    rw [if_neg hd]
    have hnone : ∀ i, i < AFATFS_NUM_CACHE_SECTORS → ¬ flushMatch st i := by
      intro i hi hm
      have := exists_flushMatch_countDirty_pos st hlen ⟨i, hi, hm⟩
      omega
    refine ⟨⟨fun _ i hi => hnone i hi, fun _ => rfl⟩, ?_, ?_, ?_⟩
    · intro i j hi _
      exact absurd rfl hi
    · intro i hi
      exact absurd rfl hi
    · intro hacc
      obtain ⟨i, hi, hm⟩ := hacc.2
      exact absurd hm (hnone i hi)

/-- A ready filesystem whose slot 0 holds sector 3 dirty and unlocked. -/
def c4_exSt : St :=
  { slots := [⟨3, CacheState.dirty, 0, false, 0, false⟩, emptySlot, emptySlot,
      emptySlot, emptySlot, emptySlot, emptySlot, emptySlot]
    mem := fun _ _ => 0
    cacheTimer := 0
    cacheDirtyEntries := 1
    filesystemState := FsState.ready
    substate := 0
    filesystemFull := false
    lastClusterAllocated := 1
    freeFile := exFile
    freeSpaceSearch := exSearch
    freeSpaceFATStartCluster := 0
    freeSpaceFATEndCluster := 0
    sdReadAccepts := true
    sdWriteAccepts := true }

theorem c4_witness :
    (afatfs_flush c4_exSt).1 = false ∧ flushMatch c4_exSt 0 := by
  have h := afatfs_flush_spec c4_exSt (by decide) (by decide)
  have hm : flushMatch c4_exSt 0 := by decide
  refine ⟨?_, hm⟩
  by_contra hne
  have htrue : (afatfs_flush c4_exSt).1 = true := by
    simpa using hne
  exact absurd hm (h.1.mp htrue 0 (by decide))

/-!  ## Claims C3 and C8: cache slot allocation -/

/-- An Empty slot (first preference of the allocation policy). -/
def isEmptySlot (st : St) (i : Nat) : Prop :=
  (st.slot i).state = CacheState.empty

/-- A clean discardable slot that is neither locked nor retained (second
preference). -/
def isDiscardableOk (st : St) (i : Nat) : Prop :=
  (st.slot i).state = CacheState.inSync ∧ (st.slot i).locked = false
    ∧ (st.slot i).retainCount = 0 ∧ (st.slot i).discardable = true

/-- An InSync slot neither locked nor retained (the eviction candidates of
the third preference). -/
def isEligible (st : St) (i : Nat) : Prop :=
  (st.slot i).state = CacheState.inSync ∧ (st.slot i).locked = false
    ∧ (st.slot i).retainCount = 0

/-- A non-discardable eviction candidate (what the loop's oldest-slot
accumulator actually competes over). -/
def isEligibleNd (st : St) (i : Nat) : Prop :=
  isEligible st i ∧ (st.slot i).discardable = false

instance (st : St) (i : Nat) : Decidable (isEmptySlot st i) := by
  unfold isEmptySlot; infer_instance

instance (st : St) (i : Nat) : Decidable (isDiscardableOk st i) := by
  unfold isDiscardableOk; infer_instance

instance (st : St) (i : Nat) : Decidable (isEligible st i) := by
  unfold isEligible; infer_instance

instance (st : St) (i : Nat) : Decidable (isEligibleNd st i) := by
  unfold isEligibleNd; infer_instance

/-- Characterisation of the allocation scan when no slot carries the
requested sector: the scan completes without touching the state and its
three candidate accumulators behave as folds over the scanned suffix. -/
theorem allocLoop_full_scan (st : St) (S : Nat) :
    ∀ n i e d ol oi, AFATFS_NUM_CACHE_SECTORS - i ≤ n →
    (∀ j, i ≤ j → j < AFATFS_NUM_CACHE_SECTORS → (st.slot j).sectorIndex ≠ S) →
    (oi = none → ol = 0xFFFFFFFF) →
    ∃ e2 d2 o2,
      afatfs_allocateCacheSectorLoop st S i e d ol oi = (AllocScan.finish e2 d2 o2, st)
      ∧ (e2 = e ∨ ∃ x, i ≤ x ∧ x < AFATFS_NUM_CACHE_SECTORS
          ∧ e2 = some x ∧ isEmptySlot st x)
      ∧ (e2 = none →
          e = none ∧ ∀ j, i ≤ j → j < AFATFS_NUM_CACHE_SECTORS → ¬ isEmptySlot st j)
      ∧ (d2 = d ∨ ∃ x, i ≤ x ∧ x < AFATFS_NUM_CACHE_SECTORS
          ∧ d2 = some x ∧ isDiscardableOk st x)
      ∧ (d2 = none →
          d = none ∧ ∀ j, i ≤ j → j < AFATFS_NUM_CACHE_SECTORS → ¬ isDiscardableOk st j)
      ∧ ((o2 = oi ∧ ∀ j, i ≤ j → j < AFATFS_NUM_CACHE_SECTORS →
            isEligibleNd st j → ol ≤ (st.slot j).lastUse)
         ∨ (∃ x, i ≤ x ∧ x < AFATFS_NUM_CACHE_SECTORS ∧ o2 = some x
              ∧ isEligibleNd st x ∧ (st.slot x).lastUse < ol
              ∧ ∀ j, i ≤ j → j < AFATFS_NUM_CACHE_SECTORS →
                  isEligibleNd st j → (st.slot x).lastUse ≤ (st.slot j).lastUse))
      ∧ (o2 = none → oi = none) := by
  intro n
  induction n with
  | zero =>
      intro i e d ol oi hn hno hinv
      refine ⟨e, d, oi, ?_, Or.inl rfl, ?_, Or.inl rfl, ?_, Or.inl ⟨rfl, ?_⟩, fun h => h ▸ rfl⟩
      · unfold afatfs_allocateCacheSectorLoop
        rw [if_neg (by omega)]
      · intro he
        exact ⟨he, fun j h1 h2 => by omega⟩
      · intro hd
        exact ⟨hd, fun j h1 h2 => by omega⟩
      · intro j h1 h2
        omega
  | succ n ih =>
      intro i e d ol oi hn hno hinv
      by_cases hi : i < AFATFS_NUM_CACHE_SECTORS
      case neg =>
        refine ⟨e, d, oi, ?_, Or.inl rfl, ?_, Or.inl rfl, ?_, Or.inl ⟨rfl, ?_⟩, fun h => h ▸ rfl⟩
        · unfold afatfs_allocateCacheSectorLoop
          rw [if_neg hi]
        · intro he
          exact ⟨he, fun j h1 h2 => by omega⟩
        · intro hd
          exact ⟨hd, fun j h1 h2 => by omega⟩
        · intro j h1 h2
          omega
      case pos =>
      have hsec : (st.slot i).sectorIndex ≠ S := hno i (le_refl i) hi
      have hstep : afatfs_allocateCacheSectorLoop st S i e d ol oi =
          match (st.slot i).state with
          | CacheState.empty =>
              afatfs_allocateCacheSectorLoop st S (i + 1) (some i) d ol oi
          | CacheState.inSync =>
              if (st.slot i).locked = false ∧ (st.slot i).retainCount = 0 then
                if (st.slot i).discardable then
                  afatfs_allocateCacheSectorLoop st S (i + 1) e (some i) ol oi
                else if (st.slot i).lastUse < ol then
                  afatfs_allocateCacheSectorLoop st S (i + 1) e d
                    ((st.slot i).lastUse) (some i)
                else
                  afatfs_allocateCacheSectorLoop st S (i + 1) e d ol oi
              else
                afatfs_allocateCacheSectorLoop st S (i + 1) e d ol oi
          | _ => afatfs_allocateCacheSectorLoop st S (i + 1) e d ol oi := by
        conv =>
          lhs
          rw [afatfs_allocateCacheSectorLoop]
        rw [if_pos hi, if_neg hsec]
      have hnext : ∀ j, i + 1 ≤ j → j < AFATFS_NUM_CACHE_SECTORS →
          (st.slot j).sectorIndex ≠ S := fun j h1 h2 => hno j (by omega) h2
      rw [hstep]
      cases hstate : (st.slot i).state with
      | empty =>
          obtain ⟨e2, d2, o2, hloop, he, hen, hd, hdn, ho, hon⟩ :=
            ih (i + 1) (some i) d ol oi (by omega) hnext hinv
          refine ⟨e2, d2, o2, hloop, ?_, ?_, ?_, ?_, ?_, hon⟩
          · rcases he with he | ⟨x, hx1, hx2, hx3, hx4⟩
            · exact Or.inr ⟨i, le_refl i, hi, he, hstate⟩
            · exact Or.inr ⟨x, by omega, hx2, hx3, hx4⟩
          · intro h2
            exact absurd ((hen h2).1) (by simp)
          · rcases hd with hd | ⟨x, hx1, hx2, hx3, hx4⟩
            · exact Or.inl hd
            · exact Or.inr ⟨x, by omega, hx2, hx3, hx4⟩
          · intro h2
            refine ⟨(hdn h2).1, fun j h1 hj => ?_⟩
            rcases Nat.eq_or_lt_of_le h1 with rfl | hlt
            · intro hcon
              unfold isDiscardableOk at hcon
              rw [hstate] at hcon
              simp at hcon
            · exact (hdn h2).2 j (by omega) hj
          · rcases ho with ⟨ho1, ho2⟩ | ⟨x, hx1, hx2, hx3, hx4, hx5, hx6⟩
            · refine Or.inl ⟨ho1, fun j h1 hj hel => ?_⟩
              rcases Nat.eq_or_lt_of_le h1 with rfl | hlt
              · unfold isEligibleNd isEligible at hel
                rw [hstate] at hel
                simp at hel
              · exact ho2 j (by omega) hj hel
            · refine Or.inr ⟨x, by omega, hx2, hx3, hx4, hx5, fun j h1 hj hel => ?_⟩
              rcases Nat.eq_or_lt_of_le h1 with rfl | hlt
              · unfold isEligibleNd isEligible at hel
                rw [hstate] at hel
                simp at hel
              · exact hx6 j (by omega) hj hel
      | inSync =>
          by_cases helig : (st.slot i).locked = false ∧ (st.slot i).retainCount = 0
          · rw [if_pos helig]
            by_cases hdisc : (st.slot i).discardable
            · rw [if_pos hdisc]
              obtain ⟨e2, d2, o2, hloop, he, hen, hd, hdn, ho, hon⟩ :=
                ih (i + 1) e (some i) ol oi (by omega) hnext hinv
              refine ⟨e2, d2, o2, hloop, ?_, ?_, ?_, ?_, ?_, hon⟩
              · rcases he with he | ⟨x, hx1, hx2, hx3, hx4⟩
                · exact Or.inl he
                · exact Or.inr ⟨x, by omega, hx2, hx3, hx4⟩
              · intro h2
                refine ⟨(hen h2).1, fun j h1 hj => ?_⟩
                rcases Nat.eq_or_lt_of_le h1 with rfl | hlt
                · intro hcon
                  unfold isEmptySlot at hcon
                  rw [hstate] at hcon
                  simp at hcon
                · exact (hen h2).2 j (by omega) hj
              · rcases hd with hd | ⟨x, hx1, hx2, hx3, hx4⟩
                · exact Or.inr ⟨i, le_refl i, hi, hd, hstate, helig.1, helig.2, hdisc⟩
                · exact Or.inr ⟨x, by omega, hx2, hx3, hx4⟩
              · intro h2
                exact absurd ((hdn h2).1) (by simp)
              · rcases ho with ⟨ho1, ho2⟩ | ⟨x, hx1, hx2, hx3, hx4, hx5, hx6⟩
                · refine Or.inl ⟨ho1, fun j h1 hj hel => ?_⟩
                  rcases Nat.eq_or_lt_of_le h1 with rfl | hlt
                  · unfold isEligibleNd at hel
                    rw [hdisc] at hel
                    simp at hel
                  · exact ho2 j (by omega) hj hel
                · refine Or.inr ⟨x, by omega, hx2, hx3, hx4, hx5, fun j h1 hj hel => ?_⟩
                  rcases Nat.eq_or_lt_of_le h1 with rfl | hlt
                  · unfold isEligibleNd at hel
                    rw [hdisc] at hel
                    simp at hel
                  · exact hx6 j (by omega) hj hel
            · rw [if_neg hdisc]
              by_cases hlu : (st.slot i).lastUse < ol
              · rw [if_pos hlu]
                obtain ⟨e2, d2, o2, hloop, he, hen, hd, hdn, ho, hon⟩ :=
                  ih (i + 1) e d ((st.slot i).lastUse) (some i) (by omega) hnext
                    (by simp)
                have hiel : isEligibleNd st i :=
                  ⟨⟨hstate, helig.1, helig.2⟩, by simpa using hdisc⟩
                refine ⟨e2, d2, o2, hloop, ?_, ?_, ?_, ?_, ?_, ?_⟩
                · rcases he with he | ⟨x, hx1, hx2, hx3, hx4⟩
                  · exact Or.inl he
                  · exact Or.inr ⟨x, by omega, hx2, hx3, hx4⟩
                · intro h2
                  refine ⟨(hen h2).1, fun j h1 hj => ?_⟩
                  rcases Nat.eq_or_lt_of_le h1 with rfl | hlt
                  · intro hcon
                    unfold isEmptySlot at hcon
                    rw [hstate] at hcon
                    simp at hcon
                  · exact (hen h2).2 j (by omega) hj
                · rcases hd with hd | ⟨x, hx1, hx2, hx3, hx4⟩
                  · exact Or.inl hd
                  · exact Or.inr ⟨x, by omega, hx2, hx3, hx4⟩
                · intro h2
                  refine ⟨(hdn h2).1, fun j h1 hj => ?_⟩
                  rcases Nat.eq_or_lt_of_le h1 with rfl | hlt
                  · intro hcon
                    unfold isDiscardableOk at hcon
                    exact absurd hcon.2.2.2 (by simpa using hdisc)
                  · exact (hdn h2).2 j (by omega) hj
                · rcases ho with ⟨ho1, ho2⟩ | ⟨x, hx1, hx2, hx3, hx4, hx5, hx6⟩
                  · refine Or.inr ⟨i, le_refl i, hi, ho1, hiel, hlu,
                      fun j h1 hj hel => ?_⟩
                    rcases Nat.eq_or_lt_of_le h1 with rfl | hlt
                    · exact le_refl _
                    · exact ho2 j (by omega) hj hel
                  · refine Or.inr ⟨x, by omega, hx2, hx3, hx4, by omega,
                      fun j h1 hj hel => ?_⟩
                    rcases Nat.eq_or_lt_of_le h1 with rfl | hlt
                    · omega
                    · exact hx6 j (by omega) hj hel
                · intro h2
                  exact absurd (hon h2) (by simp)
              · rw [if_neg hlu]
                obtain ⟨e2, d2, o2, hloop, he, hen, hd, hdn, ho, hon⟩ :=
                  ih (i + 1) e d ol oi (by omega) hnext hinv
                have hiel : isEligibleNd st i :=
                  ⟨⟨hstate, helig.1, helig.2⟩, by simpa using hdisc⟩
                refine ⟨e2, d2, o2, hloop, ?_, ?_, ?_, ?_, ?_, hon⟩
                · rcases he with he | ⟨x, hx1, hx2, hx3, hx4⟩
                  · exact Or.inl he
                  · exact Or.inr ⟨x, by omega, hx2, hx3, hx4⟩
                · intro h2
                  refine ⟨(hen h2).1, fun j h1 hj => ?_⟩
                  rcases Nat.eq_or_lt_of_le h1 with rfl | hlt
                  · intro hcon
                    unfold isEmptySlot at hcon
                    rw [hstate] at hcon
                    simp at hcon
                  · exact (hen h2).2 j (by omega) hj
                · rcases hd with hd | ⟨x, hx1, hx2, hx3, hx4⟩
                  · exact Or.inl hd
                  · exact Or.inr ⟨x, by omega, hx2, hx3, hx4⟩
                · intro h2
                  refine ⟨(hdn h2).1, fun j h1 hj => ?_⟩
                  rcases Nat.eq_or_lt_of_le h1 with rfl | hlt
                  · intro hcon
                    unfold isDiscardableOk at hcon
                    exact absurd hcon.2.2.2 (by simpa using hdisc)
                  · exact (hdn h2).2 j (by omega) hj
                · rcases ho with ⟨ho1, ho2⟩ | ⟨x, hx1, hx2, hx3, hx4, hx5, hx6⟩
                  · refine Or.inl ⟨ho1, fun j h1 hj hel => ?_⟩
                    rcases Nat.eq_or_lt_of_le h1 with rfl | hlt
                    · omega
                    · exact ho2 j (by omega) hj hel
                  · refine Or.inr ⟨x, by omega, hx2, hx3, hx4, hx5,
                      fun j h1 hj hel => ?_⟩
                    rcases Nat.eq_or_lt_of_le h1 with rfl | hlt
                    · omega
                    · exact hx6 j (by omega) hj hel
          · rw [if_neg helig]
            obtain ⟨e2, d2, o2, hloop, he, hen, hd, hdn, ho, hon⟩ :=
              ih (i + 1) e d ol oi (by omega) hnext hinv
            have hnel : ¬ isEligibleNd st i := by
              intro hcon
              exact helig ⟨hcon.1.2.1, hcon.1.2.2⟩
            have hndk : ¬ isDiscardableOk st i := by
              intro hcon
              exact helig ⟨hcon.2.1, hcon.2.2.1⟩
            refine ⟨e2, d2, o2, hloop, ?_, ?_, ?_, ?_, ?_, hon⟩
            · rcases he with he | ⟨x, hx1, hx2, hx3, hx4⟩
              · exact Or.inl he
              · exact Or.inr ⟨x, by omega, hx2, hx3, hx4⟩
            · intro h2
              refine ⟨(hen h2).1, fun j h1 hj => ?_⟩
              rcases Nat.eq_or_lt_of_le h1 with rfl | hlt
              · intro hcon
                unfold isEmptySlot at hcon
                rw [hstate] at hcon
                simp at hcon
              · exact (hen h2).2 j (by omega) hj
            · rcases hd with hd | ⟨x, hx1, hx2, hx3, hx4⟩
              · exact Or.inl hd
              · exact Or.inr ⟨x, by omega, hx2, hx3, hx4⟩
            · intro h2
              refine ⟨(hdn h2).1, fun j h1 hj => ?_⟩
              rcases Nat.eq_or_lt_of_le h1 with rfl | hlt
              · exact hndk
              · exact (hdn h2).2 j (by omega) hj
            · rcases ho with ⟨ho1, ho2⟩ | ⟨x, hx1, hx2, hx3, hx4, hx5, hx6⟩
              · refine Or.inl ⟨ho1, fun j h1 hj hel => ?_⟩
                rcases Nat.eq_or_lt_of_le h1 with rfl | hlt
                · exact absurd hel hnel
                · exact ho2 j (by omega) hj hel
              · refine Or.inr ⟨x, by omega, hx2, hx3, hx4, hx5,
                  fun j h1 hj hel => ?_⟩
                rcases Nat.eq_or_lt_of_le h1 with rfl | hlt
                · exact absurd hel hnel
                · exact hx6 j (by omega) hj hel
      | reading =>
          obtain ⟨e2, d2, o2, hloop, he, hen, hd, hdn, ho, hon⟩ :=
            ih (i + 1) e d ol oi (by omega) hnext hinv
          have hprops : ¬ isEmptySlot st i ∧ ¬ isDiscardableOk st i ∧ ¬ isEligibleNd st i := by
            refine ⟨?_, ?_, ?_⟩ <;>
              (intro hcon
               first
               | exact absurd hcon (by unfold isEmptySlot; rw [hstate]; simp)
               | exact absurd hcon.1 (by rw [hstate]; simp)
               | exact absurd hcon.1.1 (by rw [hstate]; simp))
          refine ⟨e2, d2, o2, hloop, ?_, ?_, ?_, ?_, ?_, hon⟩
          · rcases he with he | ⟨x, hx1, hx2, hx3, hx4⟩
            · exact Or.inl he
            · exact Or.inr ⟨x, by omega, hx2, hx3, hx4⟩
          · intro h2
            refine ⟨(hen h2).1, fun j h1 hj => ?_⟩
            rcases Nat.eq_or_lt_of_le h1 with rfl | hlt
            · exact hprops.1
            · exact (hen h2).2 j (by omega) hj
          · rcases hd with hd | ⟨x, hx1, hx2, hx3, hx4⟩
            · exact Or.inl hd
            · exact Or.inr ⟨x, by omega, hx2, hx3, hx4⟩
          · intro h2
            refine ⟨(hdn h2).1, fun j h1 hj => ?_⟩
            rcases Nat.eq_or_lt_of_le h1 with rfl | hlt
            · exact hprops.2.1
            · exact (hdn h2).2 j (by omega) hj
          · rcases ho with ⟨ho1, ho2⟩ | ⟨x, hx1, hx2, hx3, hx4, hx5, hx6⟩
            · refine Or.inl ⟨ho1, fun j h1 hj hel => ?_⟩
              rcases Nat.eq_or_lt_of_le h1 with rfl | hlt
              · exact absurd hel hprops.2.2
              · exact ho2 j (by omega) hj hel
            · refine Or.inr ⟨x, by omega, hx2, hx3, hx4, hx5, fun j h1 hj hel => ?_⟩
              rcases Nat.eq_or_lt_of_le h1 with rfl | hlt
              · exact absurd hel hprops.2.2
              · exact hx6 j (by omega) hj hel
      | dirty =>
          obtain ⟨e2, d2, o2, hloop, he, hen, hd, hdn, ho, hon⟩ :=
            ih (i + 1) e d ol oi (by omega) hnext hinv
          have hprops : ¬ isEmptySlot st i ∧ ¬ isDiscardableOk st i ∧ ¬ isEligibleNd st i := by
            refine ⟨?_, ?_, ?_⟩ <;>
              (intro hcon
               first
               | exact absurd hcon (by unfold isEmptySlot; rw [hstate]; simp)
               | exact absurd hcon.1 (by rw [hstate]; simp)
               | exact absurd hcon.1.1 (by rw [hstate]; simp))
          refine ⟨e2, d2, o2, hloop, ?_, ?_, ?_, ?_, ?_, hon⟩
          · rcases he with he | ⟨x, hx1, hx2, hx3, hx4⟩
            · exact Or.inl he
            · exact Or.inr ⟨x, by omega, hx2, hx3, hx4⟩
          · intro h2
            refine ⟨(hen h2).1, fun j h1 hj => ?_⟩
            rcases Nat.eq_or_lt_of_le h1 with rfl | hlt
            · exact hprops.1
            · exact (hen h2).2 j (by omega) hj
          · rcases hd with hd | ⟨x, hx1, hx2, hx3, hx4⟩
            · exact Or.inl hd
            · exact Or.inr ⟨x, by omega, hx2, hx3, hx4⟩
          · intro h2
            refine ⟨(hdn h2).1, fun j h1 hj => ?_⟩
            rcases Nat.eq_or_lt_of_le h1 with rfl | hlt
            · exact hprops.2.1
            · exact (hdn h2).2 j (by omega) hj
          · rcases ho with ⟨ho1, ho2⟩ | ⟨x, hx1, hx2, hx3, hx4, hx5, hx6⟩
            · refine Or.inl ⟨ho1, fun j h1 hj hel => ?_⟩
              rcases Nat.eq_or_lt_of_le h1 with rfl | hlt
              · exact absurd hel hprops.2.2
              · exact ho2 j (by omega) hj hel
            · refine Or.inr ⟨x, by omega, hx2, hx3, hx4, hx5, fun j h1 hj hel => ?_⟩
              rcases Nat.eq_or_lt_of_le h1 with rfl | hlt
              · exact absurd hel hprops.2.2
              · exact hx6 j (by omega) hj hel
      | writing =>
          obtain ⟨e2, d2, o2, hloop, he, hen, hd, hdn, ho, hon⟩ :=
            ih (i + 1) e d ol oi (by omega) hnext hinv
          have hprops : ¬ isEmptySlot st i ∧ ¬ isDiscardableOk st i ∧ ¬ isEligibleNd st i := by
            refine ⟨?_, ?_, ?_⟩ <;>
              (intro hcon
               first
               | exact absurd hcon (by unfold isEmptySlot; rw [hstate]; simp)
               | exact absurd hcon.1 (by rw [hstate]; simp)
               | exact absurd hcon.1.1 (by rw [hstate]; simp))
          refine ⟨e2, d2, o2, hloop, ?_, ?_, ?_, ?_, ?_, hon⟩
          · rcases he with he | ⟨x, hx1, hx2, hx3, hx4⟩
            · exact Or.inl he
            · exact Or.inr ⟨x, by omega, hx2, hx3, hx4⟩
          · intro h2
            refine ⟨(hen h2).1, fun j h1 hj => ?_⟩
            rcases Nat.eq_or_lt_of_le h1 with rfl | hlt
            · exact hprops.1
            · exact (hen h2).2 j (by omega) hj
          · rcases hd with hd | ⟨x, hx1, hx2, hx3, hx4⟩
            · exact Or.inl hd
            · exact Or.inr ⟨x, by omega, hx2, hx3, hx4⟩
          · intro h2
            refine ⟨(hdn h2).1, fun j h1 hj => ?_⟩
            rcases Nat.eq_or_lt_of_le h1 with rfl | hlt
            · exact hprops.2.1
            · exact (hdn h2).2 j (by omega) hj
          · rcases ho with ⟨ho1, ho2⟩ | ⟨x, hx1, hx2, hx3, hx4, hx5, hx6⟩
            · refine Or.inl ⟨ho1, fun j h1 hj hel => ?_⟩
              rcases Nat.eq_or_lt_of_le h1 with rfl | hlt
              · exact absurd hel hprops.2.2
              · exact ho2 j (by omega) hj hel
            · refine Or.inr ⟨x, by omega, hx2, hx3, hx4, hx5, fun j h1 hj hel => ?_⟩
              rcases Nat.eq_or_lt_of_le h1 with rfl | hlt
              · exact absurd hel hprops.2.2
              · exact hx6 j (by omega) hj hel

/-- When the first slot holding the requested sector is non-Empty, the
scan returns that slot as a hit, bumping its last-use stamp. -/
theorem allocLoop_hit (st : St) (S : Nat) :
    ∀ n i k e d ol oi, AFATFS_NUM_CACHE_SECTORS - i ≤ n → i ≤ k →
    k < AFATFS_NUM_CACHE_SECTORS →
    (st.slot k).sectorIndex = S → (st.slot k).state ≠ CacheState.empty →
    (∀ j, i ≤ j → j < k → (st.slot j).sectorIndex ≠ S) →
    afatfs_allocateCacheSectorLoop st S i e d ol oi =
      (AllocScan.hit k,
        ({ st with cacheTimer := st.cacheTimer + 1 } : St).setSlot k
          { st.slot k with lastUse := st.cacheTimer + 1 }) := by
  intro n
  induction n with
  | zero =>
      intro i k e d ol oi hn hik hk hsec hne hfirst
      omega
  | succ n ih =>
      intro i k e d ol oi hn hik hk hsec hne hfirst
      have hi : i < AFATFS_NUM_CACHE_SECTORS := by omega
      rcases Nat.eq_or_lt_of_le hik with rfl | hlt
      · conv =>
          lhs
          rw [afatfs_allocateCacheSectorLoop]
        rw [if_pos hi, if_pos hsec, if_neg hne]
        rfl
      · have hisec : (st.slot i).sectorIndex ≠ S := hfirst i (le_refl i) hlt
        have hnext : ∀ j, i + 1 ≤ j → j < k → (st.slot j).sectorIndex ≠ S :=
          fun j h1 h2 => hfirst j (by omega) h2
        have hstep : afatfs_allocateCacheSectorLoop st S i e d ol oi =
            match (st.slot i).state with
            | CacheState.empty =>
                afatfs_allocateCacheSectorLoop st S (i + 1) (some i) d ol oi
            | CacheState.inSync =>
                if (st.slot i).locked = false ∧ (st.slot i).retainCount = 0 then
                  if (st.slot i).discardable then
                    afatfs_allocateCacheSectorLoop st S (i + 1) e (some i) ol oi
                  else if (st.slot i).lastUse < ol then
                    afatfs_allocateCacheSectorLoop st S (i + 1) e d
                      ((st.slot i).lastUse) (some i)
                  else
                    afatfs_allocateCacheSectorLoop st S (i + 1) e d ol oi
                else
                  afatfs_allocateCacheSectorLoop st S (i + 1) e d ol oi
            | _ => afatfs_allocateCacheSectorLoop st S (i + 1) e d ol oi := by
          conv =>
            lhs
            rw [afatfs_allocateCacheSectorLoop]
          rw [if_pos hi, if_neg hisec]
        rw [hstep]
        cases hstate : (st.slot i).state with
        | empty => exact ih (i + 1) k (some i) d ol oi (by omega) (by omega) hk hsec hne hnext
        | inSync =>
            by_cases helig : (st.slot i).locked = false ∧ (st.slot i).retainCount = 0
            · rw [if_pos helig]
              by_cases hdisc : (st.slot i).discardable
              · rw [if_pos hdisc]
                exact ih (i + 1) k e (some i) ol oi (by omega) (by omega) hk hsec hne hnext
              · rw [if_neg hdisc]
                by_cases hlu : (st.slot i).lastUse < ol
                · rw [if_pos hlu]
                  exact ih (i + 1) k e d _ (some i) (by omega) (by omega) hk hsec hne hnext
                · rw [if_neg hlu]
                  exact ih (i + 1) k e d ol oi (by omega) (by omega) hk hsec hne hnext
            · rw [if_neg helig]
              exact ih (i + 1) k e d ol oi (by omega) (by omega) hk hsec hne hnext
        | reading => exact ih (i + 1) k e d ol oi (by omega) (by omega) hk hsec hne hnext
        | dirty => exact ih (i + 1) k e d ol oi (by omega) (by omega) hk hsec hne hnext
        | writing => exact ih (i + 1) k e d ol oi (by omega) (by omega) hk hsec hne hnext

/-- When the first slot holding the requested sector is Empty, the scan
breaks there: the state is untouched and that slot becomes the recorded
empty candidate. -/
theorem allocLoop_break (st : St) (S : Nat) :
    ∀ n i k e d ol oi, AFATFS_NUM_CACHE_SECTORS - i ≤ n → i ≤ k →
    k < AFATFS_NUM_CACHE_SECTORS →
    (st.slot k).sectorIndex = S → (st.slot k).state = CacheState.empty →
    (∀ j, i ≤ j → j < k → (st.slot j).sectorIndex ≠ S) →
    ∃ d2 o2,
      afatfs_allocateCacheSectorLoop st S i e d ol oi =
        (AllocScan.finish (some k) d2 o2, st) := by
  intro n
  induction n with
  | zero =>
      intro i k e d ol oi hn hik hk hsec hemp hfirst
      omega
  | succ n ih =>
      intro i k e d ol oi hn hik hk hsec hemp hfirst
      have hi : i < AFATFS_NUM_CACHE_SECTORS := by omega
      rcases Nat.eq_or_lt_of_le hik with rfl | hlt
      · refine ⟨d, oi, ?_⟩
        conv =>
          lhs
          rw [afatfs_allocateCacheSectorLoop]
        rw [if_pos hi, if_pos hsec, if_pos hemp]
      · have hisec : (st.slot i).sectorIndex ≠ S := hfirst i (le_refl i) hlt
        have hnext : ∀ j, i + 1 ≤ j → j < k → (st.slot j).sectorIndex ≠ S :=
          fun j h1 h2 => hfirst j (by omega) h2
        have hstep : afatfs_allocateCacheSectorLoop st S i e d ol oi =
            match (st.slot i).state with
            | CacheState.empty =>
                afatfs_allocateCacheSectorLoop st S (i + 1) (some i) d ol oi
            | CacheState.inSync =>
                if (st.slot i).locked = false ∧ (st.slot i).retainCount = 0 then
                  if (st.slot i).discardable then
                    afatfs_allocateCacheSectorLoop st S (i + 1) e (some i) ol oi
                  else if (st.slot i).lastUse < ol then
                    afatfs_allocateCacheSectorLoop st S (i + 1) e d
                      ((st.slot i).lastUse) (some i)
                  else
                    afatfs_allocateCacheSectorLoop st S (i + 1) e d ol oi
                else
                  afatfs_allocateCacheSectorLoop st S (i + 1) e d ol oi
            | _ => afatfs_allocateCacheSectorLoop st S (i + 1) e d ol oi := by
          conv =>
            lhs
            rw [afatfs_allocateCacheSectorLoop]
          rw [if_pos hi, if_neg hisec]
        rw [hstep]
        cases hstate : (st.slot i).state with
        | empty => exact ih (i + 1) k (some i) d ol oi (by omega) (by omega) hk hsec hemp hnext
        | inSync =>
            by_cases helig : (st.slot i).locked = false ∧ (st.slot i).retainCount = 0
            · rw [if_pos helig]
              by_cases hdisc : (st.slot i).discardable
              · rw [if_pos hdisc]
                exact ih (i + 1) k e (some i) ol oi (by omega) (by omega) hk hsec hemp hnext
              · rw [if_neg hdisc]
                by_cases hlu : (st.slot i).lastUse < ol
                · rw [if_pos hlu]
                  exact ih (i + 1) k e d _ (some i) (by omega) (by omega) hk hsec hemp hnext
                · rw [if_neg hlu]
                  exact ih (i + 1) k e d ol oi (by omega) (by omega) hk hsec hemp hnext
            · rw [if_neg helig]
              exact ih (i + 1) k e d ol oi (by omega) (by omega) hk hsec hemp hnext
        | reading => exact ih (i + 1) k e d ol oi (by omega) (by omega) hk hsec hemp hnext
        | dirty => exact ih (i + 1) k e d ol oi (by omega) (by omega) hk hsec hemp hnext
        | writing => exact ih (i + 1) k e d ol oi (by omega) (by omega) hk hsec hemp hnext

/-- With its bounds assertion satisfied, afatfs_allocateCacheSector is the
scan followed by the empty/discardable/oldest preference selection. -/
theorem allocateCacheSector_eq (geo : Geo) (st : St) (S : Nat)
    (hassert : geo.numClusters = 0
      ∨ S < geo.clusterStartSector + geo.numClusters * geo.sectorsPerCluster) :
    afatfs_allocateCacheSector geo st S =
      (match afatfs_allocateCacheSectorLoop st S 0 none none 0xFFFFFFFF none with
       | (AllocScan.hit i, st2) => (some i, st2)
       | (AllocScan.finish emptyIndex discardableIndex oldestSyncedSectorIndex, st2) =>
         let allocateIndex :=
           match emptyIndex with
           | some i => some i
           | none =>
             match discardableIndex with
             | some i => some i
             | none => oldestSyncedSectorIndex
         match allocateIndex with
         | some i => (some i, afatfs_cacheSectorInit st2 i S false)
         | none => (none, st2)) := by
  unfold afatfs_allocateCacheSector
  rw [decide_eq_true hassert]
  rfl

/-- Case analysis of afatfs_allocateCacheSector when its bounds assertion
holds: a hit on the first slot caching the sector (bumping its last-use
stamp only), re-initialisation of the first slot caching the sector when
that slot is Empty, or — when no slot caches the sector — either
re-initialisation of some slot or failure with the state untouched. -/
theorem allocateCacheSector_spec (geo : Geo) (st : St) (S : Nat)
    (hassert : geo.numClusters = 0
      ∨ S < geo.clusterStartSector + geo.numClusters * geo.sectorsPerCluster) :
    (∃ k, k < AFATFS_NUM_CACHE_SECTORS ∧ (st.slot k).sectorIndex = S
       ∧ (st.slot k).state ≠ CacheState.empty
       ∧ (∀ j, j < k → (st.slot j).sectorIndex ≠ S)
       ∧ afatfs_allocateCacheSector geo st S =
           (some k, ({ st with cacheTimer := st.cacheTimer + 1 } : St).setSlot k
             { st.slot k with lastUse := st.cacheTimer + 1 }))
    ∨ (∃ k, k < AFATFS_NUM_CACHE_SECTORS ∧ (st.slot k).sectorIndex = S
       ∧ (st.slot k).state = CacheState.empty
       ∧ (∀ j, j < k → (st.slot j).sectorIndex ≠ S)
       ∧ afatfs_allocateCacheSector geo st S = (some k, afatfs_cacheSectorInit st k S false))
    ∨ ((∀ j, j < AFATFS_NUM_CACHE_SECTORS → (st.slot j).sectorIndex ≠ S)
       ∧ ((∃ k, k < AFATFS_NUM_CACHE_SECTORS
             ∧ afatfs_allocateCacheSector geo st S = (some k, afatfs_cacheSectorInit st k S false))
          ∨ afatfs_allocateCacheSector geo st S = (none, st))) := by
  by_cases hS : ∃ j, j < AFATFS_NUM_CACHE_SECTORS ∧ (st.slot j).sectorIndex = S
  · set k0 := Nat.find hS with hk0
    have hspec := Nat.find_spec hS
    have hmin : ∀ j, j < k0 → (st.slot j).sectorIndex ≠ S := by
      intro j hj hcon
      exact Nat.find_min hS hj ⟨by omega, hcon⟩
    by_cases hemp : (st.slot k0).state = CacheState.empty
    · refine Or.inr (Or.inl ⟨k0, hspec.1, hspec.2, hemp, hmin, ?_⟩)
      obtain ⟨d2, o2, hloop⟩ := allocLoop_break st S AFATFS_NUM_CACHE_SECTORS 0 k0
        none none 0xFFFFFFFF none (by omega) (by omega) hspec.1 hspec.2 hemp
        (fun j h1 h2 => hmin j h2)
      rw [allocateCacheSector_eq geo st S hassert, hloop]
    · refine Or.inl ⟨k0, hspec.1, hspec.2, hemp, hmin, ?_⟩
      have hloop := allocLoop_hit st S AFATFS_NUM_CACHE_SECTORS 0 k0
        none none 0xFFFFFFFF none (by omega) (by omega) hspec.1 hspec.2 hemp
        (fun j h1 h2 => hmin j h2)
      rw [allocateCacheSector_eq geo st S hassert, hloop]
  · push_neg at hS
    have hno : ∀ j, j < AFATFS_NUM_CACHE_SECTORS → (st.slot j).sectorIndex ≠ S := hS
    obtain ⟨e2, d2, o2, hloop, he, hen, hd, hdn, ho, hon⟩ :=
      allocLoop_full_scan st S AFATFS_NUM_CACHE_SECTORS 0 none none 0xFFFFFFFF none
        (by omega) (fun j h1 h2 => hno j h2) (fun _ => rfl)
    refine Or.inr (Or.inr ⟨hno, ?_⟩)
    cases he2 : e2 with
    | some x =>
        have hx : x < AFATFS_NUM_CACHE_SECTORS := by
          rcases he with he | ⟨y, hy1, hy2, hy3, hy4⟩
          · rw [he2] at he
            exact absurd he (by simp)
          · rw [he2] at hy3
            cases hy3
            exact hy2
        refine Or.inl ⟨x, hx, ?_⟩
        rw [allocateCacheSector_eq geo st S hassert, hloop, he2]
    | none =>
        cases hd2 : d2 with
        | some x =>
            have hx : x < AFATFS_NUM_CACHE_SECTORS := by
              rcases hd with hd | ⟨y, hy1, hy2, hy3, hy4⟩
              · rw [hd2] at hd
                exact absurd hd (by simp)
              · rw [hd2] at hy3
                cases hy3
                exact hy2
            refine Or.inl ⟨x, hx, ?_⟩
            rw [allocateCacheSector_eq geo st S hassert, hloop, he2, hd2]
        | none =>
            cases ho2 : o2 with
            | some x =>
                have hx : x < AFATFS_NUM_CACHE_SECTORS := by
                  rcases ho with ⟨ho1, ho2'⟩ | ⟨y, hy1, hy2, hy3, hy4, hy5, hy6⟩
                  · rw [ho2] at ho1
                    exact absurd ho1 (by simp)
                  · rw [ho2] at hy3
                    cases hy3
                    exact hy2
                refine Or.inl ⟨x, hx, ?_⟩
                rw [allocateCacheSector_eq geo st S hassert, hloop, he2, hd2, ho2]
            | none =>
                refine Or.inr ?_
                rw [allocateCacheSector_eq geo st S hassert, hloop, he2, hd2, ho2]

/-- When the MBR-protection assertion holds, afatfs_cacheSector is the
allocation followed by the per-state promotion of the chosen slot. -/
theorem cacheSector_eq (geo : Geo) (st : St) (S : Nat) (flags : CacheFlags)
    (hmbr : ¬(flags.write = true ∧ S = 0)) :
    afatfs_cacheSector geo st S flags =
      (match afatfs_allocateCacheSector geo st S with
       | (none, st2) => (OpStatus.inProgress, 0, st2)
       | (some idx, st2) =>
         match (st2.slot idx).state with
         | CacheState.reading => (OpStatus.inProgress, 0, st2)
         | CacheState.empty =>
           if flags.read then
             let st3 :=
               if st2.sdReadAccepts then
                 st2.setSlot idx { st2.slot idx with state := CacheState.reading }
               else st2
             (OpStatus.inProgress, 0, st3)
           else
             let st3 := st2.setSlot idx { st2.slot idx with discardable := flags.discardable }
             afatfs_cacheSectorWritePhase st3 idx flags
         | CacheState.writing => afatfs_cacheSectorWritePhase st2 idx flags
         | CacheState.inSync => afatfs_cacheSectorWritePhase st2 idx flags
         | CacheState.dirty => afatfs_cacheSectorLockPhase st2 idx flags) := by
  unfold afatfs_cacheSector
  rw [decide_eq_true hmbr]
  rfl

/-- C3 (amended): when no non-Empty cache slot already holds sector S, the
slot afatfs_cacheSector's allocation (afatfs_allocateCacheSector) chooses
for S follows this descending preference — an Empty slot; then a clean
(InSync) discardable slot neither locked nor retained; then the InSync
slot with the smallest last-use counter among those neither locked nor
retained — and if none of these exists the afatfs_cacheSector call returns
InProgress with no slot reassigned, provided the call does not request a
write to physical sector 0 (in that case the MBR-protection assert fails
the call with Failure instead; the original claim omitted this proviso).
The bounds-assertion hypothesis reflects afatfs_allocateCacheSector's
numClusters assertion; last-use counters below 0xFFFFFFFF reflect the
loop's oldest-slot sentinel. -/
theorem cacheSector_allocationPreference (geo : Geo) (st : St) (S : Nat)
    (flags : CacheFlags)
    (hno : ∀ i, i < AFATFS_NUM_CACHE_SECTORS → (st.slot i).sectorIndex = S →
      (st.slot i).state = CacheState.empty)
    (hlu : ∀ i, i < AFATFS_NUM_CACHE_SECTORS → (st.slot i).lastUse < 0xFFFFFFFF)
    (hassert : geo.numClusters = 0
      ∨ S < geo.clusterStartSector + geo.numClusters * geo.sectorsPerCluster) :
    ((∃ i, i < AFATFS_NUM_CACHE_SECTORS ∧ isEmptySlot st i) →
      ∃ k, k < AFATFS_NUM_CACHE_SECTORS ∧ isEmptySlot st k
        ∧ afatfs_allocateCacheSector geo st S =
            (some k, afatfs_cacheSectorInit st k S false))
    ∧ ((∀ i, i < AFATFS_NUM_CACHE_SECTORS → ¬ isEmptySlot st i) →
       (∃ i, i < AFATFS_NUM_CACHE_SECTORS ∧ isDiscardableOk st i) →
      ∃ k, k < AFATFS_NUM_CACHE_SECTORS ∧ isDiscardableOk st k
        ∧ afatfs_allocateCacheSector geo st S =
            (some k, afatfs_cacheSectorInit st k S false))
    ∧ ((∀ i, i < AFATFS_NUM_CACHE_SECTORS → ¬ isEmptySlot st i) →
       (∀ i, i < AFATFS_NUM_CACHE_SECTORS → ¬ isDiscardableOk st i) →
       (∃ i, i < AFATFS_NUM_CACHE_SECTORS ∧ isEligible st i) →
      ∃ k, k < AFATFS_NUM_CACHE_SECTORS ∧ isEligible st k
        ∧ (∀ j, j < AFATFS_NUM_CACHE_SECTORS → isEligible st j →
            (st.slot k).lastUse ≤ (st.slot j).lastUse)
        ∧ afatfs_allocateCacheSector geo st S =
            (some k, afatfs_cacheSectorInit st k S false))
    ∧ ((∀ i, i < AFATFS_NUM_CACHE_SECTORS → ¬ isEmptySlot st i) →
       (∀ i, i < AFATFS_NUM_CACHE_SECTORS → ¬ isDiscardableOk st i) →
       (∀ i, i < AFATFS_NUM_CACHE_SECTORS → ¬ isEligible st i) →
       ¬(flags.write = true ∧ S = 0) →
      afatfs_cacheSector geo st S flags = (OpStatus.inProgress, 0, st)) := by
  refine ⟨?_, ?_, ?_, ?_⟩
  · intro hex
    by_cases hS : ∃ j, j < AFATFS_NUM_CACHE_SECTORS ∧ (st.slot j).sectorIndex = S
    · have hspec := Nat.find_spec hS
      have hmin : ∀ j, j < Nat.find hS → (st.slot j).sectorIndex ≠ S := by
        intro j hj hcon
        exact Nat.find_min hS hj ⟨by
          have := Nat.lt_of_lt_of_le hj (Nat.le_of_lt_succ (Nat.lt_succ_of_lt hspec.1))
          omega, hcon⟩
      have hemp : (st.slot (Nat.find hS)).state = CacheState.empty :=
        hno _ hspec.1 hspec.2
      obtain ⟨d2, o2, hloop⟩ := allocLoop_break st S AFATFS_NUM_CACHE_SECTORS 0
        (Nat.find hS) none none 0xFFFFFFFF none (by omega) (by omega) hspec.1
        hspec.2 hemp (fun j h1 h2 => hmin j h2)
      refine ⟨Nat.find hS, hspec.1, hemp, ?_⟩
      rw [allocateCacheSector_eq geo st S hassert, hloop]
    · push_neg at hS
      obtain ⟨e2, d2, o2, hloop, he, hen, hd, hdn, ho, hon⟩ :=
        allocLoop_full_scan st S AFATFS_NUM_CACHE_SECTORS 0 none none 0xFFFFFFFF none
          (by omega) (fun j h1 h2 => hS j h2) (fun _ => rfl)
      rcases he3 : e2 with _ | x
      · obtain ⟨i, hi, hie⟩ := hex
        exact absurd hie ((hen he3).2 i (by omega) hi)
      · have hxe : isEmptySlot st x := by
          rcases he with he | ⟨y, hy1, hy2, hy3, hy4⟩
          · rw [he3] at he
            exact absurd he (by simp)
          · rw [he3] at hy3
            cases hy3
            exact hy4
        have hx : x < AFATFS_NUM_CACHE_SECTORS := by
          rcases he with he | ⟨y, hy1, hy2, hy3, hy4⟩
          · rw [he3] at he
            exact absurd he (by simp)
          · rw [he3] at hy3
            cases hy3
            exact hy2
        refine ⟨x, hx, hxe, ?_⟩
        rw [allocateCacheSector_eq geo st S hassert, hloop, he3]
  · intro hnoe hexd
    have hS : ∀ j, j < AFATFS_NUM_CACHE_SECTORS → (st.slot j).sectorIndex ≠ S :=
      fun j hj hc => hnoe j hj (hno j hj hc)
    obtain ⟨e2, d2, o2, hloop, he, hen, hd, hdn, ho, hon⟩ :=
      allocLoop_full_scan st S AFATFS_NUM_CACHE_SECTORS 0 none none 0xFFFFFFFF none
        (by omega) (fun j h1 h2 => hS j h2) (fun _ => rfl)
    have he3 : e2 = none := by
      rcases he4 : e2 with _ | x
      · rfl
      · rcases he with he | ⟨y, hy1, hy2, hy3, hy4⟩
        · rw [he4] at he
          exact absurd he (by simp)
        · rw [he4] at hy3
          cases hy3
          exact absurd hy4 (hnoe _ hy2)
    rcases hd3 : d2 with _ | x
    · obtain ⟨i, hi, hid⟩ := hexd
      exact absurd hid ((hdn hd3).2 i (by omega) hi)
    · have hxd : isDiscardableOk st x ∧ x < AFATFS_NUM_CACHE_SECTORS := by
        rcases hd with hd | ⟨y, hy1, hy2, hy3, hy4⟩
        · rw [hd3] at hd
          exact absurd hd (by simp)
        · rw [hd3] at hy3
          cases hy3
          exact ⟨hy4, hy2⟩
      refine ⟨x, hxd.2, hxd.1, ?_⟩
      rw [allocateCacheSector_eq geo st S hassert, hloop, he3, hd3]
  · intro hnoe hnod hexo
    have hS : ∀ j, j < AFATFS_NUM_CACHE_SECTORS → (st.slot j).sectorIndex ≠ S :=
      fun j hj hc => hnoe j hj (hno j hj hc)
    obtain ⟨e2, d2, o2, hloop, he, hen, hd, hdn, ho, hon⟩ :=
      allocLoop_full_scan st S AFATFS_NUM_CACHE_SECTORS 0 none none 0xFFFFFFFF none
        (by omega) (fun j h1 h2 => hS j h2) (fun _ => rfl)
    have hnd : ∀ i, i < AFATFS_NUM_CACHE_SECTORS → isEligible st i → isEligibleNd st i := by
      intro i hi hel
      refine ⟨hel, ?_⟩
      by_cases hdi : (st.slot i).discardable = true
      · exact absurd ⟨hel.1, hel.2.1, hel.2.2, hdi⟩ (hnod i hi)
      · simpa using hdi
    have he3 : e2 = none := by
      rcases he4 : e2 with _ | x
      · rfl
      · rcases he with he | ⟨y, hy1, hy2, hy3, hy4⟩
        · rw [he4] at he
          exact absurd he (by simp)
        · rw [he4] at hy3
          cases hy3
          exact absurd hy4 (hnoe _ hy2)
    have hd3 : d2 = none := by
      rcases hd4 : d2 with _ | x
      · rfl
      · rcases hd with hd | ⟨y, hy1, hy2, hy3, hy4⟩
        · rw [hd4] at hd
          exact absurd hd (by simp)
        · rw [hd4] at hy3
          cases hy3
          exact absurd hy4 (hnod _ hy2)
    rcases ho with ⟨ho1, ho2⟩ | ⟨x, hx1, hx2, hx3, hx4, hx5, hx6⟩
    · obtain ⟨i, hi, hie⟩ := hexo
      have := ho2 i (by omega) hi (hnd i hi hie)
      have := hlu i hi
      omega
    · refine ⟨x, hx2, hx4.1, fun j hj hje => ?_, ?_⟩
      · exact hx6 j (by omega) hj (hnd j hj hje)
      · rw [allocateCacheSector_eq geo st S hassert, hloop, he3, hd3, hx3]
  · intro hnoe hnod hnoo hmbr
    have hS : ∀ j, j < AFATFS_NUM_CACHE_SECTORS → (st.slot j).sectorIndex ≠ S :=
      fun j hj hc => hnoe j hj (hno j hj hc)
    obtain ⟨e2, d2, o2, hloop, he, hen, hd, hdn, ho, hon⟩ :=
      allocLoop_full_scan st S AFATFS_NUM_CACHE_SECTORS 0 none none 0xFFFFFFFF none
        (by omega) (fun j h1 h2 => hS j h2) (fun _ => rfl)
    have he3 : e2 = none := by
      rcases he4 : e2 with _ | x
      · rfl
      · rcases he with he | ⟨y, hy1, hy2, hy3, hy4⟩
        · rw [he4] at he
          exact absurd he (by simp)
        · rw [he4] at hy3
          cases hy3
          exact absurd hy4 (hnoe _ hy2)
    have hd3 : d2 = none := by
      rcases hd4 : d2 with _ | x
      · rfl
      · rcases hd with hd | ⟨y, hy1, hy2, hy3, hy4⟩
        · rw [hd4] at hd
          exact absurd hd (by simp)
        · rw [hd4] at hy3
          cases hy3
          exact absurd hy4 (hnod _ hy2)
    have ho3 : o2 = none := by
      rcases ho4 : o2 with _ | x
      · rfl
      · rcases ho with ⟨ho1, ho2⟩ | ⟨y, hy1, hy2, hy3, hy4, hy5, hy6⟩
        · rw [ho4] at ho1
          exact absurd ho1 (by simp)
        · rw [ho4] at hy3
          cases hy3
          exact absurd hy4.1 (hnoo _ hy2)
    rw [cacheSector_eq geo st S flags hmbr, allocateCacheSector_eq geo st S hassert,
      hloop, he3, hd3, ho3]

/-- A small FAT16 geometry used for concrete cache-allocation runs. -/
def c3_geo : Geo :=
  { filesystemType := FatType.fat16
    numClusters := 100
    sectorsPerCluster := 1
    byteInClusterMask := 511
    fatStartSector := 1
    fatSectors := 1
    clusterStartSector := 3
    rootDirectorySectors := 1
    rootDirectoryCluster := 0 }

/-- A ready filesystem with every slot dirty (no allocation candidate at
all) and no slot caching sector 0. -/
def c3_badSt : St :=
  { slots := [⟨10, CacheState.dirty, 0, false, 0, false⟩,
      ⟨11, CacheState.dirty, 0, false, 0, false⟩,
      ⟨12, CacheState.dirty, 0, false, 0, false⟩,
      ⟨13, CacheState.dirty, 0, false, 0, false⟩,
      ⟨14, CacheState.dirty, 0, false, 0, false⟩,
      ⟨15, CacheState.dirty, 0, false, 0, false⟩,
      ⟨16, CacheState.dirty, 0, false, 0, false⟩,
      ⟨17, CacheState.dirty, 0, false, 0, false⟩]
    mem := fun _ _ => 0
    cacheTimer := 0
    cacheDirtyEntries := 8
    filesystemState := FsState.ready
    substate := 0
    filesystemFull := false
    lastClusterAllocated := 1
    freeFile := exFile
    freeSpaceSearch := exSearch
    freeSpaceFATStartCluster := 0
    freeSpaceFATEndCluster := 0
    sdReadAccepts := true
    sdWriteAccepts := true }

/-- C3, as stated: refuted.  In `c3_badSt` no non-Empty slot holds sector
0 and no allocation candidate of any preference class exists, yet a
cacheSector call for sector 0 with the write flag returns Failure — not
the InProgress the claim promises for the no-candidate case — because the
MBR-protection assert rejects every write to physical sector 0. -/
theorem c3_counterexample :
    (∀ i, i < AFATFS_NUM_CACHE_SECTORS → (c3_badSt.slot i).sectorIndex = 0 →
        (c3_badSt.slot i).state = CacheState.empty)
    ∧ (∀ i, i < AFATFS_NUM_CACHE_SECTORS →
        ¬ isEmptySlot c3_badSt i ∧ ¬ isDiscardableOk c3_badSt i ∧ ¬ isEligible c3_badSt i)
    ∧ (afatfs_cacheSector c3_geo c3_badSt 0
        ⟨false, true, false, false, false, false⟩).1 = OpStatus.failure := by
  refine ⟨by decide, by decide, by decide⟩

/-- A ready filesystem whose slot 0 is dirty on sector 9 and whose

remaining slots are empty. -/
def c3_exSt : St :=
  { slots := [⟨9, CacheState.dirty, 0, false, 0, false⟩, emptySlot, emptySlot,
      emptySlot, emptySlot, emptySlot, emptySlot, emptySlot]
    mem := fun _ _ => 0
    cacheTimer := 0
    cacheDirtyEntries := 1
    filesystemState := FsState.ready
    substate := 0
    filesystemFull := false
    lastClusterAllocated := 1
    freeFile := exFile
    freeSpaceSearch := exSearch
    freeSpaceFATStartCluster := 0
    freeSpaceFATEndCluster := 0
    sdReadAccepts := true
    sdWriteAccepts := true }

theorem c3_witness :
    ∃ k, k < AFATFS_NUM_CACHE_SECTORS ∧ isEmptySlot c3_exSt k
      ∧ afatfs_allocateCacheSector c3_geo c3_exSt 5 =
          (some k, afatfs_cacheSectorInit c3_exSt k 5 false) :=
  (cacheSector_allocationPreference c3_geo c3_exSt 5
      ⟨true, false, false, false, false, false⟩
      (by decide) (by decide) (by decide)).1
    ⟨1, by decide, by decide⟩

/-- The claim's per-sector uniqueness property: at most one slot caches
any given sector in a non-Empty state. -/
def atMostOneSlotPerSector (st : St) : Prop :=
  ∀ i, i < AFATFS_NUM_CACHE_SECTORS → ∀ j, j < AFATFS_NUM_CACHE_SECTORS →
    (st.slot i).state ≠ CacheState.empty → (st.slot j).state ≠ CacheState.empty →
    (st.slot i).sectorIndex = (st.slot j).sectorIndex → i = j

/-- The inductive cache invariant: a slot caching a sector in a non-Empty
state is the lowest-indexed slot carrying that sectorIndex, and every
other slot carrying the same sectorIndex is Empty.  (The scan of
afatfs_allocateCacheSector always selects the first slot carrying the
requested sector, so re-initialisation can promote only that first
slot.) -/
def cacheInv (st : St) : Prop :=
  ∀ i, i < AFATFS_NUM_CACHE_SECTORS → ∀ j, j < AFATFS_NUM_CACHE_SECTORS →
    (j ≠ i ∧ (st.slot i).state ≠ CacheState.empty
      ∧ (st.slot j).sectorIndex = (st.slot i).sectorIndex) →
    (st.slot j).state = CacheState.empty ∧ i < j

instance (st : St) : Decidable (atMostOneSlotPerSector st) := by
  unfold atMostOneSlotPerSector; infer_instance

instance (st : St) : Decidable (cacheInv st) := by
  unfold cacheInv; infer_instance

theorem atMostOne_of_cacheInv (st : St) (h : cacheInv st) :
    atMostOneSlotPerSector st := by
  intro i hi j hj hne hnj hsec
  by_contra hij
  exact hnj (h i hi j hj ⟨fun hc => hij hc.symm, hne, hsec.symm⟩).1

/-- Setting a slot to a descriptor with the same sectorIndex and state
leaves every slot's sectorIndex and state unchanged. -/
theorem slot_setSlot_frame (st : St) (k : Nat) (d : CacheDescriptor)
    (hsec : d.sectorIndex = (st.slot k).sectorIndex)
    (hst : d.state = (st.slot k).state) (j : Nat) :
    ((st.setSlot k d).slot j).sectorIndex = (st.slot j).sectorIndex
    ∧ ((st.setSlot k d).slot j).state = (st.slot j).state := by
  by_cases hj : j = k
  · subst hj
    by_cases hk : j < st.slots.length
    · rw [St.slot_setSlot_self st j d hk]
      exact ⟨hsec, hst⟩
    · have hset : st.setSlot j d = st := by
        unfold St.setSlot
        rw [List.set_eq_of_length_le (by omega)]
      rw [hset]
      exact ⟨rfl, rfl⟩
  · rw [St.slot_setSlot_ne st k d j hj]
    exact ⟨rfl, rfl⟩

/-- Both slot projections relevant to the uniqueness invariant are
unchanged between two states. -/
def slotsFrame (st st' : St) : Prop :=
  ∀ j, (st'.slot j).sectorIndex = (st.slot j).sectorIndex
    ∧ (st'.slot j).state = (st.slot j).state

theorem slotsFrame_refl (st : St) : slotsFrame st st := fun _ => ⟨rfl, rfl⟩

theorem slotsFrame_trans {a b c : St} (h1 : slotsFrame a b) (h2 : slotsFrame b c) :
    slotsFrame a c :=
  fun j => ⟨(h2 j).1.trans (h1 j).1, (h2 j).2.trans (h1 j).2⟩

theorem slotsFrame_setSlot (st : St) (k : Nat) (d : CacheDescriptor)
    (hsec : d.sectorIndex = (st.slot k).sectorIndex)
    (hst : d.state = (st.slot k).state) : slotsFrame st (st.setSlot k d) :=
  fun j => slot_setSlot_frame st k d hsec hst j

theorem slotsFrame_ite (b : Prop) [Decidable b] (st st' : St)
    (h : slotsFrame st st') : slotsFrame st (if b then st' else st) := by
  by_cases hb : b
  · rw [if_pos hb]; exact h
  · rw [if_neg hb]; exact slotsFrame_refl st

/-- The lock/unlock/retain phase changes no slot's sectorIndex or state. -/
theorem lockPhase_frame (st : St) (idx : Nat) (flags : CacheFlags) :
    slotsFrame st ((afatfs_cacheSectorLockPhase st idx flags).2.2) := by
  unfold afatfs_cacheSectorLockPhase
  dsimp only
  set st1 := if flags.lock = true
    then st.setSlot idx { st.slot idx with locked := true } else st with hst1
  set st2 := if flags.unlock = true
    then st1.setSlot idx { st1.slot idx with locked := false } else st1 with hst2
  set st3 := if flags.retain = true
    then st2.setSlot idx { st2.slot idx with retainCount := (st2.slot idx).retainCount + 1 }
    else st2 with hst3
  have f1 : slotsFrame st st1 := by
    rw [hst1]
    exact slotsFrame_ite _ _ _ (slotsFrame_setSlot st idx _ rfl rfl)
  have f2 : slotsFrame st1 st2 := by
    rw [hst2]
    exact slotsFrame_ite _ _ _ (slotsFrame_setSlot st1 idx _ rfl rfl)
  have f3 : slotsFrame st2 st3 := by
    rw [hst3]
    exact slotsFrame_ite _ _ _ (slotsFrame_setSlot st2 idx _ rfl rfl)
  exact slotsFrame_trans (slotsFrame_trans f1 f2) f3

/-- Setting one slot while keeping its sectorIndex: no sectorIndex moves,
other slots' states are untouched, and the set slot's state is either
unchanged (out-of-range set) or the new descriptor's. -/
theorem slot_setSlot_stateAt (st : St) (k : Nat) (d : CacheDescriptor)
    (hsec : d.sectorIndex = (st.slot k).sectorIndex) :
    (∀ j, ((st.setSlot k d).slot j).sectorIndex = (st.slot j).sectorIndex)
    ∧ (∀ j, j ≠ k → ((st.setSlot k d).slot j).state = (st.slot j).state)
    ∧ (((st.setSlot k d).slot k).state = (st.slot k).state
       ∨ ((st.setSlot k d).slot k).state = d.state) := by
  by_cases hk : k < st.slots.length
  · refine ⟨fun j => ?_, fun j hj => ?_, Or.inr ?_⟩
    · by_cases hj : j = k
      · subst hj
        rw [St.slot_setSlot_self st j d hk, hsec]
      · rw [St.slot_setSlot_ne st k d j hj]
    · rw [St.slot_setSlot_ne st k d j hj]
    · rw [St.slot_setSlot_self st k d hk]
  · have hset : st.setSlot k d = { st with slots := st.slots.set k d } := rfl
    have hid : st.slots.set k d = st.slots := List.set_eq_of_length_le (by omega)
    refine ⟨fun j => ?_, fun j hj => ?_, Or.inl ?_⟩ <;>
      simp only [hset, St.slot, hid]

/-- The per-state slot change of the write phase: sectorIndexes are
untouched, other slots keep their states, and the chosen slot's state is
unchanged or becomes Dirty. -/
theorem writePhase_frame (st : St) (idx : Nat) (flags : CacheFlags) :
    (∀ j, (((afatfs_cacheSectorWritePhase st idx flags).2.2).slot j).sectorIndex
        = (st.slot j).sectorIndex)
    ∧ (∀ j, j ≠ idx →
        (((afatfs_cacheSectorWritePhase st idx flags).2.2).slot j).state
          = (st.slot j).state)
    ∧ ((((afatfs_cacheSectorWritePhase st idx flags).2.2).slot idx).state
          = (st.slot idx).state
       ∨ (((afatfs_cacheSectorWritePhase st idx flags).2.2).slot idx).state
          = CacheState.dirty) := by
  unfold afatfs_cacheSectorWritePhase
  dsimp only
  by_cases hw : flags.write = true
  · rw [if_pos hw]
    have hmid := slot_setSlot_stateAt st idx
      { st.slot idx with state := CacheState.dirty } rfl
    have hlock := lockPhase_frame
      ({ st.setSlot idx { st.slot idx with state := CacheState.dirty } with
          cacheDirtyEntries :=
            (st.setSlot idx { st.slot idx with state := CacheState.dirty }).cacheDirtyEntries
              + 1 }) idx flags
    refine ⟨fun j => ?_, fun j hj => ?_, ?_⟩
    · rw [(hlock j).1]
      exact hmid.1 j
    · rw [(hlock j).2]
      exact hmid.2.1 j hj
    · rw [(hlock idx).2]
      exact hmid.2.2
  · rw [if_neg hw]
    have hlock := lockPhase_frame st idx flags
    exact ⟨fun j => (hlock j).1, fun j _ => (hlock j).2, Or.inl (hlock idx).2⟩

/-- A transition that can modify only slot `k`, and keeps even slot `k`'s
sectorIndex. -/
def frameAt (st st' : St) (k : Nat) : Prop :=
  (∀ j, j ≠ k → (st'.slot j).sectorIndex = (st.slot j).sectorIndex
    ∧ (st'.slot j).state = (st.slot j).state)
  ∧ (st'.slot k).sectorIndex = (st.slot k).sectorIndex

theorem frameAt_of_slotsFrame {st st' : St} (k : Nat) (h : slotsFrame st st') :
    frameAt st st' k :=
  ⟨fun j _ => h j, (h k).1⟩

theorem frameAt_trans {a b c : St} {k : Nat} (h1 : frameAt a b k)
    (h2 : frameAt b c k) : frameAt a c k := by
  refine ⟨fun j hj => ⟨((h2.1 j hj).1).trans (h1.1 j hj).1,
    ((h2.1 j hj).2).trans (h1.1 j hj).2⟩, h2.2.trans h1.2⟩

theorem frameAt_setSlot (st : St) (k : Nat) (d : CacheDescriptor)
    (hsec : d.sectorIndex = (st.slot k).sectorIndex) :
    frameAt st (st.setSlot k d) k := by
  have h := slot_setSlot_stateAt st k d hsec
  exact ⟨fun j hj => ⟨h.1 j, h.2.1 j hj⟩, h.1 k⟩

theorem frameAt_ite (b : Prop) [Decidable b] (st st' : St) (k : Nat)
    (h : frameAt st st' k) : frameAt st (if b then st' else st) k := by
  by_cases hb : b
  · rw [if_pos hb]; exact h
  · rw [if_neg hb]; exact ⟨fun j _ => ⟨rfl, rfl⟩, rfl⟩

theorem frameAt_writePhase (st : St) (idx : Nat) (flags : CacheFlags) :
    frameAt st ((afatfs_cacheSectorWritePhase st idx flags).2.2) idx := by
  have h := writePhase_frame st idx flags
  exact ⟨fun j hj => ⟨h.1 j, h.2.1 j hj⟩, h.1 idx⟩

theorem frameAt_lockPhase (st : St) (idx : Nat) (flags : CacheFlags) :
    frameAt st ((afatfs_cacheSectorLockPhase st idx flags).2.2) idx :=
  frameAt_of_slotsFrame idx (lockPhase_frame st idx flags)

/-- afatfs_cacheSector on a write request for physical sector 0: the MBR
assertion fails the call. -/
theorem cacheSector_mbrFail (geo : Geo) (st : St) (S : Nat) (flags : CacheFlags)
    (h : flags.write = true ∧ S = 0) :
    afatfs_cacheSector geo st S flags =
      (OpStatus.failure, 0, { st with filesystemState := FsState.fatal }) := by
  unfold afatfs_cacheSector
  rw [decide_eq_false (not_not_intro h)]
  rfl

/-- afatfs_allocateCacheSector when its bounds assertion fails: no slot is
allocated and only the filesystem state changes (to Fatal). -/
theorem allocateCacheSector_boundsFail (geo : Geo) (st : St) (S : Nat)
    (h : ¬(geo.numClusters = 0
      ∨ S < geo.clusterStartSector + geo.numClusters * geo.sectorsPerCluster)) :
    afatfs_allocateCacheSector geo st S =
      (none, { st with filesystemState := FsState.fatal }) := by
  unfold afatfs_allocateCacheSector
  rw [decide_eq_false h]
  rfl

/-- afatfs_cacheSector once the allocation has produced a slot: the
per-state promotion switch of the chosen slot. -/
theorem cacheSector_eq_some (geo : Geo) (st : St) (S : Nat) (flags : CacheFlags)
    (idx : Nat) (st2 : St) (hmbr : ¬(flags.write = true ∧ S = 0))
    (halloc : afatfs_allocateCacheSector geo st S = (some idx, st2)) :
    afatfs_cacheSector geo st S flags =
      (match (st2.slot idx).state with
       | CacheState.reading => (OpStatus.inProgress, 0, st2)
       | CacheState.empty =>
         if flags.read then
           (OpStatus.inProgress, 0,
             if st2.sdReadAccepts then
               st2.setSlot idx { st2.slot idx with state := CacheState.reading }
             else st2)
         else
           afatfs_cacheSectorWritePhase
             (st2.setSlot idx { st2.slot idx with discardable := flags.discardable })
             idx flags
       | CacheState.writing => afatfs_cacheSectorWritePhase st2 idx flags
       | CacheState.inSync => afatfs_cacheSectorWritePhase st2 idx flags
       | CacheState.dirty => afatfs_cacheSectorLockPhase st2 idx flags) := by
  rw [cacheSector_eq geo st S flags hmbr, halloc]

/-- Assembling the frame of the re-initialisation path: the chosen slot
ends on the requested sector and every other slot's sectorIndex and state
are untouched. -/
theorem initTail_assemble (st st2 st3 : St) (S k : Nat)
    (hj : ∀ j, j ≠ k → st2.slot j = st.slot j)
    (hkk : (st2.slot k).sectorIndex = S)
    (hframe : frameAt st2 st3 k) :
    (∀ j, j ≠ k → (st3.slot j).sectorIndex = (st.slot j).sectorIndex
      ∧ (st3.slot j).state = (st.slot j).state)
    ∧ (st3.slot k).sectorIndex = S := by
  refine ⟨fun j hjk => ⟨(hframe.1 j hjk).1.trans (by rw [hj j hjk]),
    (hframe.1 j hjk).2.trans (by rw [hj j hjk])⟩, hframe.2.trans hkk⟩

/-- The descriptor afatfs_cacheSectorInit installs at an in-range slot. -/
theorem cacheSectorInit_slot_self (st : St) (k S : Nat) (locked : Bool)
    (hk : k < st.slots.length) :
    (afatfs_cacheSectorInit st k S locked).slot k =
      ⟨S, CacheState.empty, st.cacheTimer + 1, locked, (st.slot k).retainCount, false⟩ := by
  unfold afatfs_cacheSectorInit
  dsimp only
  exact St.slot_setSlot_self _ k _ hk

theorem cacheSectorInit_slot_ne (st : St) (k S : Nat) (locked : Bool)
    (j : Nat) (hj : j ≠ k) :
    (afatfs_cacheSectorInit st k S locked).slot j = st.slot j := by
  unfold afatfs_cacheSectorInit
  dsimp only
  exact (St.slot_setSlot_ne _ k _ j hj).trans rfl

/-- How one afatfs_cacheSector call can change the slot descriptors:
either no slot's sectorIndex or state moves at all; or the first slot
caching the requested sector, already non-Empty, stays on that sector in
a non-Empty state while every other slot is untouched; or a slot is
re-initialised for the requested sector — and then either that slot was
the first (Empty) holder of the sector, or no slot held the sector. -/
theorem cacheSector_frame (geo : Geo) (st : St) (S : Nat) (flags : CacheFlags)
    (st' : St) (hlen : st.slots.length = AFATFS_NUM_CACHE_SECTORS)
    (hres : (afatfs_cacheSector geo st S flags).2.2 = st') :
    slotsFrame st st'
    ∨ (∃ k, k < AFATFS_NUM_CACHE_SECTORS
        ∧ (st.slot k).sectorIndex = S ∧ (st.slot k).state ≠ CacheState.empty
        ∧ (∀ j, j < k → (st.slot j).sectorIndex ≠ S)
        ∧ frameAt st st' k ∧ (st'.slot k).state ≠ CacheState.empty)
    ∨ (∃ k, k < AFATFS_NUM_CACHE_SECTORS
        ∧ ((st.slot k).sectorIndex = S ∧ (st.slot k).state = CacheState.empty
             ∧ (∀ j, j < k → (st.slot j).sectorIndex ≠ S)
           ∨ (∀ j, j < AFATFS_NUM_CACHE_SECTORS → (st.slot j).sectorIndex ≠ S))
        ∧ (∀ j, j ≠ k → (st'.slot j).sectorIndex = (st.slot j).sectorIndex
            ∧ (st'.slot j).state = (st.slot j).state)
        ∧ (st'.slot k).sectorIndex = S) := by
  subst hres
  by_cases hmbr : flags.write = true ∧ S = 0
  · refine Or.inl ?_
    rw [cacheSector_mbrFail geo st S flags hmbr]
    exact fun j => ⟨rfl, rfl⟩
  · by_cases hbounds : geo.numClusters = 0
      ∨ S < geo.clusterStartSector + geo.numClusters * geo.sectorsPerCluster
    case neg =>
      refine Or.inl ?_
      rw [cacheSector_eq geo st S flags hmbr,
        allocateCacheSector_boundsFail geo st S hbounds]
      exact fun j => ⟨rfl, rfl⟩
    case pos =>
    rcases allocateCacheSector_spec geo st S hbounds with
      ⟨k, hk, hsec, hne, hfirst, halloc⟩ | ⟨k, hk, hsec, hemp, hfirst, halloc⟩ |
      ⟨hno, ⟨k, hk, halloc⟩ | halloc⟩
    · -- hit: the sector is already cached in a non-Empty slot
      have hbf : slotsFrame st
          (({ st with cacheTimer := st.cacheTimer + 1 } : St).setSlot k
            { st.slot k with lastUse := st.cacheTimer + 1 }) := by
        refine slotsFrame_trans (b := { st with cacheTimer := st.cacheTimer + 1 })
          (fun j => ⟨rfl, rfl⟩) ?_
        exact slotsFrame_setSlot _ k _ rfl rfl
      rw [cacheSector_eq_some geo st S flags k _ hmbr halloc]
      set st2 := ({ st with cacheTimer := st.cacheTimer + 1 } : St).setSlot k
        { st.slot k with lastUse := st.cacheTimer + 1 } with hst2
      rw [(hbf k).2]
      cases hstate : (st.slot k).state with
      | empty => exact absurd hstate hne
      | reading =>
          refine Or.inr (Or.inl ⟨k, hk, hsec, hne, hfirst,
            frameAt_of_slotsFrame k hbf, ?_⟩)
          show (st2.slot k).state ≠ CacheState.empty
          rw [(hbf k).2, hstate]
          simp
      | writing =>
          have hw := writePhase_frame st2 k flags
          refine Or.inr (Or.inl ⟨k, hk, hsec, hne, hfirst,
            frameAt_trans (frameAt_of_slotsFrame k hbf) (frameAt_writePhase st2 k flags), ?_⟩)
          show (((afatfs_cacheSectorWritePhase st2 k flags).2.2).slot k).state
            ≠ CacheState.empty
          rcases hw.2.2 with h2 | h2 <;> rw [h2]
          · rw [(hbf k).2, hstate]
            simp
          · simp
      | inSync =>
          have hw := writePhase_frame st2 k flags
          refine Or.inr (Or.inl ⟨k, hk, hsec, hne, hfirst,
            frameAt_trans (frameAt_of_slotsFrame k hbf) (frameAt_writePhase st2 k flags), ?_⟩)
          show (((afatfs_cacheSectorWritePhase st2 k flags).2.2).slot k).state
            ≠ CacheState.empty
          rcases hw.2.2 with h2 | h2 <;> rw [h2]
          · rw [(hbf k).2, hstate]
            simp
          · simp
      | dirty =>
          have hw := lockPhase_frame st2 k flags
          refine Or.inr (Or.inl ⟨k, hk, hsec, hne, hfirst,
            frameAt_trans (frameAt_of_slotsFrame k hbf) (frameAt_lockPhase st2 k flags), ?_⟩)
          show (((afatfs_cacheSectorLockPhase st2 k flags).2.2).slot k).state
            ≠ CacheState.empty
          rw [(hw k).2, (hbf k).2, hstate]
          simp
    · -- break: the first slot caching the sector is Empty and is re-initialised
      have hklen : k < st.slots.length := by omega
      have hk2 : ((afatfs_cacheSectorInit st k S false).slot k).state
          = CacheState.empty := by
        rw [cacheSectorInit_slot_self st k S false hklen]
      rw [cacheSector_eq_some geo st S flags k _ hmbr halloc, hk2]
      refine Or.inr (Or.inr ⟨k, hk, Or.inl ⟨hsec, hemp, hfirst⟩, ?_⟩)
      set st2 := afatfs_cacheSectorInit st k S false with hst2
      have hinitj : ∀ j, j ≠ k → st2.slot j = st.slot j :=
        fun j hj => cacheSectorInit_slot_ne st k S false j hj
      have hinitk : (st2.slot k).sectorIndex = S := by
        rw [hst2, cacheSectorInit_slot_self st k S false hklen]
      by_cases hread : flags.read = true
      · rw [if_pos hread]
        exact initTail_assemble st st2 _ S k hinitj hinitk
          (frameAt_ite (st2.sdReadAccepts = true) st2
            (st2.setSlot k { st2.slot k with state := CacheState.reading }) k
            (frameAt_setSlot st2 k
              { st2.slot k with state := CacheState.reading } rfl))
      · rw [if_neg hread]
        exact initTail_assemble st st2 _ S k hinitj hinitk
          (frameAt_trans
            (frameAt_setSlot st2 k
              { st2.slot k with discardable := flags.discardable } rfl)
            (frameAt_writePhase
              (st2.setSlot k { st2.slot k with discardable := flags.discardable })
              k flags))
    · -- full scan: no slot caches the sector; a candidate is re-initialised
      have hklen : k < st.slots.length := by omega
      have hk2 : ((afatfs_cacheSectorInit st k S false).slot k).state
          = CacheState.empty := by
        rw [cacheSectorInit_slot_self st k S false hklen]
      rw [cacheSector_eq_some geo st S flags k _ hmbr halloc, hk2]
      refine Or.inr (Or.inr ⟨k, hk, Or.inr hno, ?_⟩)
      set st2 := afatfs_cacheSectorInit st k S false with hst2
      have hinitj : ∀ j, j ≠ k → st2.slot j = st.slot j :=
        fun j hj => cacheSectorInit_slot_ne st k S false j hj
      have hinitk : (st2.slot k).sectorIndex = S := by
        rw [hst2, cacheSectorInit_slot_self st k S false hklen]
      by_cases hread : flags.read = true
      · rw [if_pos hread]
        exact initTail_assemble st st2 _ S k hinitj hinitk
          (frameAt_ite (st2.sdReadAccepts = true) st2
            (st2.setSlot k { st2.slot k with state := CacheState.reading }) k
            (frameAt_setSlot st2 k
              { st2.slot k with state := CacheState.reading } rfl))
      · rw [if_neg hread]
        exact initTail_assemble st st2 _ S k hinitj hinitk
          (frameAt_trans
            (frameAt_setSlot st2 k
              { st2.slot k with discardable := flags.discardable } rfl)
            (frameAt_writePhase
              (st2.setSlot k { st2.slot k with discardable := flags.discardable })
              k flags))
    · -- full scan, no candidate: nothing changes
      rw [cacheSector_eq geo st S flags hmbr, halloc]
      exact Or.inl (fun j => ⟨rfl, rfl⟩)

/-- A transition that keeps every slot's sectorIndex and either keeps its
state or moves it between two non-Empty states. -/
def classPreserving (st st' : St) : Prop :=
  ∀ j, (st'.slot j).sectorIndex = (st.slot j).sectorIndex
    ∧ ((st'.slot j).state = (st.slot j).state
       ∨ ((st'.slot j).state ≠ CacheState.empty ∧ (st.slot j).state ≠ CacheState.empty))

theorem classPreserving_refl (st : St) : classPreserving st st :=
  fun _ => ⟨rfl, Or.inl rfl⟩

theorem classPreserving_of_slotsFrame {st st' : St} (h : slotsFrame st st') :
    classPreserving st st' :=
  fun j => ⟨(h j).1, Or.inl (h j).2⟩

theorem cacheInv_of_classPreserving {st st' : St} (h : classPreserving st st')
    (hinv : cacheInv st) : cacheInv st' := by
  intro i hi j hj hante
  obtain ⟨hji, hnei, hsec⟩ := hante
  have hsi : (st.slot i).state ≠ CacheState.empty := by
    rcases (h i).2 with heq | hb
    · rw [← heq]; exact hnei
    · exact hb.2
  have hsecp : (st.slot j).sectorIndex = (st.slot i).sectorIndex := by
    rw [← (h j).1, ← (h i).1]; exact hsec
  obtain ⟨hempj, hij⟩ := hinv i hi j hj ⟨hji, hsi, hsecp⟩
  refine ⟨?_, hij⟩
  rcases (h j).2 with heq | hb
  · rw [heq]; exact hempj
  · exact absurd hempj hb.2

/-- The state component of afatfs_assert never changes the cache slots. -/
theorem assert_slots (st : St) (c : Bool) :
    ((afatfs_assert st c).2).slots = st.slots ∧
      ∀ j, ((afatfs_assert st c).2).slot j = st.slot j := by
  cases c <;> exact ⟨rfl, fun _ => rfl⟩

/-- afatfs_flush changes slot states only from Dirty to Writing, keeping
every sectorIndex. -/
theorem flushLoop_classPreserving (st : St)
    (hlen : st.slots.length = AFATFS_NUM_CACHE_SECTORS) :
    ∀ n i, AFATFS_NUM_CACHE_SECTORS - i ≤ n →
    classPreserving st (afatfs_flushLoop st i).2 := by
  intro n
  induction n with
  | zero =>
      intro i hn
      unfold afatfs_flushLoop
      rw [if_neg (by omega)]
      exact classPreserving_refl st
  | succ n ih =>
      intro i hn
      by_cases hi : i < AFATFS_NUM_CACHE_SECTORS
      case neg =>
        unfold afatfs_flushLoop
        rw [if_neg hi]
        exact classPreserving_refl st
      case pos =>
      unfold afatfs_flushLoop
      rw [if_pos hi]
      by_cases hm : (st.slot i).state = CacheState.dirty ∧ (st.slot i).locked = false
      · rw [if_pos hm]
        by_cases ha : st.sdWriteAccepts = true
        · rw [if_pos ha]
          intro j
          by_cases hj : j = i
          · subst hj
            have hself := St.slot_setSlot_self st j
              { st.slot j with state := CacheState.writing } (by omega)
            refine ⟨?_, Or.inr ⟨?_, ?_⟩⟩
            · show ((st.setSlot j _).slot j).sectorIndex = _
              rw [hself]
            · show ((st.setSlot j _).slot j).state ≠ _
              rw [hself]
              simp
            · rw [hm.1]
              simp
          · have hne := St.slot_setSlot_ne st i
              { st.slot i with state := CacheState.writing } j hj
            refine ⟨?_, Or.inl ?_⟩
            · show ((st.setSlot i _).slot j).sectorIndex = _
              rw [hne]
            · show ((st.setSlot i _).slot j).state = _
              rw [hne]
        · rw [if_neg ha]
          exact classPreserving_refl st
      · rw [if_neg hm]
        exact ih (i + 1) (by omega)

theorem flush_classPreserving (st : St)
    (hlen : st.slots.length = AFATFS_NUM_CACHE_SECTORS) :
    classPreserving st (afatfs_flush st).2 := by
  unfold afatfs_flush
  by_cases h : st.cacheDirtyEntries > 0
  · rw [if_pos h]
    exact flushLoop_classPreserving st hlen AFATFS_NUM_CACHE_SECTORS 0 (by omega)
  · rw [if_neg h]
    exact classPreserving_refl st

/-- The slots of a fatal-or-not branch state. -/
theorem St.slot_iteFatal (c : Prop) [Decidable c] (st : St) (j : Nat) :
    ((if c then st else { st with filesystemState := FsState.fatal }) : St).slot j
      = st.slot j := by
  by_cases hc : c
  · rw [if_pos hc]
  · rw [if_neg hc]
    rfl

theorem St.slots_iteFatal (c : Prop) [Decidable c] (st : St) :
    ((if c then st else { st with filesystemState := FsState.fatal }) : St).slots
      = st.slots := by
  by_cases hc : c
  · rw [if_pos hc]
  · rw [if_neg hc]

/-- afatfs_sdcardReadComplete promotes a matched non-Empty slot to InSync
and keeps every sectorIndex. -/
theorem readComplete_classPreserving (st : St) (sec buf : Nat)
    (hlen : st.slots.length = AFATFS_NUM_CACHE_SECTORS) :
    classPreserving st (afatfs_sdcardReadComplete st sec buf) := by
  by_cases hex : ∃ k, k < AFATFS_NUM_CACHE_SECTORS ∧ readCompleteMatch st sec k
  · have hspec := Nat.find_spec hex
    have hfirst : ∀ j, 0 ≤ j → j < Nat.find hex → ¬ readCompleteMatch st sec j := by
      intro j _ hj hcon
      exact Nat.find_min hex hj ⟨by omega, hcon⟩
    have hres := sdcardReadCompleteLoop_match st sec buf AFATFS_NUM_CACHE_SECTORS 0
      (Nat.find hex) (by omega) (by omega) hspec.1 hspec.2 hfirst
    unfold afatfs_sdcardReadComplete
    rw [hres]
    intro j
    by_cases hj : j = Nat.find hex
    · rw [hj, St.slot_setSlot_self _ (Nat.find hex) _ (by rw [St.slots_iteFatal]; omega)]
      refine ⟨rfl, Or.inr ⟨by simp, hspec.2.1⟩⟩
    · rw [St.slot_setSlot_ne _ _ _ j hj, St.slot_iteFatal]
      exact ⟨rfl, Or.inl rfl⟩
  · push_neg at hex
    have hres := sdcardReadCompleteLoop_no_match st sec buf AFATFS_NUM_CACHE_SECTORS 0
      (by omega) (fun j h1 h2 => hex j h2)
    unfold afatfs_sdcardReadComplete
    rw [hres]
    exact classPreserving_refl st

/-- afatfs_sdcardWriteComplete promotes a matched Writing slot to InSync
and keeps every sectorIndex. -/
theorem writeComplete_classPreserving (st : St) (sec buf : Nat)
    (hlen : st.slots.length = AFATFS_NUM_CACHE_SECTORS) :
    classPreserving st (afatfs_sdcardWriteComplete st sec buf) := by
  by_cases hex : ∃ k, k < AFATFS_NUM_CACHE_SECTORS ∧ writeCompleteMatch st sec k
  · have hspec := Nat.find_spec hex
    have hfirst : ∀ j, 0 ≤ j → j < Nat.find hex → ¬ writeCompleteMatch st sec j := by
      intro j _ hj hcon
      exact Nat.find_min hex hj ⟨by omega, hcon⟩
    have hres := sdcardWriteCompleteLoop_match st sec buf AFATFS_NUM_CACHE_SECTORS 0
      (Nat.find hex) (by omega) (by omega) hspec.1 hspec.2 hfirst
    unfold afatfs_sdcardWriteComplete
    rw [hres]
    intro j
    by_cases hj : j = Nat.find hex
    · rw [hj, St.slot_setSlot_self _ (Nat.find hex) _ (by rw [St.slots_iteFatal]; omega)]
      refine ⟨rfl, Or.inr ⟨by simp, by rw [hspec.2.1]; simp⟩⟩
    · rw [St.slot_setSlot_ne _ _ _ j hj, St.slot_iteFatal]
      exact ⟨rfl, Or.inl rfl⟩
  · push_neg at hex
    have hres := sdcardWriteCompleteLoop_no_match st sec buf AFATFS_NUM_CACHE_SECTORS 0
      (by omega) (fun j h1 h2 => hex j h2)
    unfold afatfs_sdcardWriteComplete
    rw [hres]
    exact classPreserving_refl st

/-- One afatfs_cacheSector call preserves the cache invariant. -/
theorem cacheInv_cacheSector (geo : Geo) (st : St) (S : Nat) (flags : CacheFlags)
    (hlen : st.slots.length = AFATFS_NUM_CACHE_SECTORS) (hinv : cacheInv st) :
    cacheInv ((afatfs_cacheSector geo st S flags).2.2) := by
  rcases cacheSector_frame geo st S flags _ hlen rfl with
    hf | ⟨k, hk, hsec, hne, hfirst, hfr, hne'⟩ | ⟨k, hk, hcase, hjs, hks⟩
  · exact cacheInv_of_classPreserving (classPreserving_of_slotsFrame hf) hinv
  · -- hit case
    set st' := (afatfs_cacheSector geo st S flags).2.2
    have hsecall : ∀ x, (st'.slot x).sectorIndex = (st.slot x).sectorIndex := by
      intro x
      by_cases hx : x = k
      · rw [hx]; exact hfr.2
      · exact (hfr.1 x hx).1
    have hstateo : ∀ x, x ≠ k → (st'.slot x).state = (st.slot x).state :=
      fun x hx => (hfr.1 x hx).2
    intro i hi j hj hante
    obtain ⟨hji, hnei, hsecji⟩ := hante
    have hsecp : (st.slot j).sectorIndex = (st.slot i).sectorIndex := by
      rw [← hsecall j, ← hsecall i]; exact hsecji
    have hnei' : (st.slot i).state ≠ CacheState.empty := by
      by_cases hik : i = k
      · rw [hik]; exact hne
      · rw [← hstateo i hik]; exact hnei
    obtain ⟨hempj, hij⟩ := hinv i hi j hj ⟨hji, hnei', hsecp⟩
    refine ⟨?_, hij⟩
    have hjk : j ≠ k := by
      intro hc
      rw [hc] at hempj
      exact hne hempj
    rw [hstateo j hjk]
    exact hempj
  · -- re-initialisation case
    set st' := (afatfs_cacheSector geo st S flags).2.2
    have hSempty : ∀ m, m < AFATFS_NUM_CACHE_SECTORS → m ≠ k →
        (st.slot m).sectorIndex = S → (st.slot m).state = CacheState.empty ∧ k < m := by
      intro m hm hmk hmsec
      rcases hcase with ⟨hksec, hkemp, hkfirst⟩ | hnoS
      · have hkm : k < m := by
          rcases Nat.lt_trichotomy m k with h | h | h
          · exact absurd hmsec (hkfirst m h)
          · exact absurd h hmk
          · exact h
        refine ⟨?_, hkm⟩
        by_contra hmne
        obtain ⟨hke, hmk2⟩ := hinv m hm k hk
          ⟨fun hc => hmk hc.symm, hmne, by rw [hksec, hmsec]⟩
        omega
      · exact absurd hmsec (hnoS m hm)
    intro i hi j hj hante
    obtain ⟨hji, hnei, hsecji⟩ := hante
    by_cases hik : i = k
    · subst hik
      have hjk : j ≠ i := hji
      have hjsec : (st.slot j).sectorIndex = S := by
        rw [← (hjs j hjk).1, hsecji, hks]
      obtain ⟨hje, hkj⟩ := hSempty j hj hjk hjsec
      refine ⟨?_, hkj⟩
      rw [(hjs j hjk).2]
      exact hje
    · by_cases hjk : j = k
      · subst hjk
        have hisec : (st.slot i).sectorIndex = S := by
          rw [← (hjs i hik).1, ← hsecji, hks]
        obtain ⟨hie, _⟩ := hSempty i hi hik hisec
        rw [← (hjs i hik).2] at hie
        exact absurd hie hnei
      · have hsecp : (st.slot j).sectorIndex = (st.slot i).sectorIndex := by
          rw [← (hjs j hjk).1, ← (hjs i hik).1]; exact hsecji
        have hnei' : (st.slot i).state ≠ CacheState.empty := by
          rw [← (hjs i hik).2]; exact hnei
        obtain ⟨hempj, hij⟩ := hinv i hi j hj ⟨hji, hnei', hsecp⟩
        refine ⟨?_, hij⟩
        rw [(hjs j hjk).2]
        exact hempj

/-- afatfs_cacheSectorMarkDirty preserves the cache invariant when
applied to the first slot caching its sector (as is the case for every
buffer handed out by afatfs_cacheSector). -/
theorem cacheInv_markDirty (st : St) (bufIdx : Nat)
    (hlen : st.slots.length = AFATFS_NUM_CACHE_SECTORS)
    (hbuf : bufIdx < AFATFS_NUM_CACHE_SECTORS)
    (hfirst : ∀ j, j < bufIdx → (st.slot j).sectorIndex ≠ (st.slot bufIdx).sectorIndex)
    (hinv : cacheInv st) :
    cacheInv (afatfs_cacheSectorMarkDirty st bufIdx) := by
  unfold afatfs_cacheSectorMarkDirty
  by_cases hd : (st.slot bufIdx).state ≠ CacheState.dirty
  case neg =>
    rw [if_neg hd]
    exact hinv
  case pos =>
  rw [if_pos hd]
  have hself := St.slot_setSlot_self st bufIdx
    { st.slot bufIdx with state := CacheState.dirty } (by omega)
  have hSempty : ∀ m, m < AFATFS_NUM_CACHE_SECTORS → m ≠ bufIdx →
      (st.slot m).sectorIndex = (st.slot bufIdx).sectorIndex →
      (st.slot m).state = CacheState.empty ∧ bufIdx < m := by
    intro m hm hmb hmsec
    have hbm : bufIdx < m := by
      rcases Nat.lt_trichotomy m bufIdx with h | h | h
      · exact absurd hmsec (hfirst m h)
      · exact absurd h hmb
      · exact h
    refine ⟨?_, hbm⟩
    by_contra hmne
    obtain ⟨_, hmlt⟩ := hinv m hm bufIdx hbuf
      ⟨fun hc => hmb hc.symm, hmne, hmsec.symm⟩
    omega
  have hsecall : ∀ x,
      ((st.setSlot bufIdx { st.slot bufIdx with state := CacheState.dirty }).slot x).sectorIndex
        = (st.slot x).sectorIndex := by
    intro x
    by_cases hx : x = bufIdx
    · rw [hx, hself]
    · rw [St.slot_setSlot_ne st bufIdx _ x hx]
  have hstateo : ∀ x, x ≠ bufIdx →
      ((st.setSlot bufIdx { st.slot bufIdx with state := CacheState.dirty }).slot x).state
        = (st.slot x).state := by
    intro x hx
    rw [St.slot_setSlot_ne st bufIdx _ x hx]
  intro i hi j hj hante
  obtain ⟨hji, hnei0, hsecji0⟩ := hante
  have hnei : ((st.setSlot bufIdx { st.slot bufIdx with state := CacheState.dirty }).slot i).state
      ≠ CacheState.empty := hnei0
  have hsecji : ((st.setSlot bufIdx { st.slot bufIdx with state := CacheState.dirty }).slot j).sectorIndex
      = ((st.setSlot bufIdx { st.slot bufIdx with state := CacheState.dirty }).slot i).sectorIndex :=
    hsecji0
  show ((st.setSlot bufIdx { st.slot bufIdx with state := CacheState.dirty }).slot j).state
      = CacheState.empty ∧ i < j
  by_cases hik : i = bufIdx
  · subst hik
    have hjsec : (st.slot j).sectorIndex = (st.slot i).sectorIndex := by
      rw [← hsecall j, hsecji, hsecall i]
    obtain ⟨hje, hij⟩ := hSempty j hj hji hjsec
    refine ⟨?_, hij⟩
    rw [hstateo j hji]
    exact hje
  · by_cases hjk : j = bufIdx
    · subst hjk
      have hisec : (st.slot i).sectorIndex = (st.slot j).sectorIndex := by
        rw [← hsecall i, ← hsecji, hsecall j]
      obtain ⟨hie, _⟩ := hSempty i hi hik hisec
      rw [← hstateo i hik] at hie
      exact absurd hie hnei
    · have hsecp : (st.slot j).sectorIndex = (st.slot i).sectorIndex := by
        rw [← hsecall j, ← hsecall i]; exact hsecji
      have hnei' : (st.slot i).state ≠ CacheState.empty := by
        rw [← hstateo i hik]; exact hnei
      obtain ⟨hempj, hij⟩ := hinv i hi j hj ⟨hji, hnei', hsecp⟩
      refine ⟨?_, hij⟩
      rw [hstateo j hjk]
      exact hempj

/-- afatfs_fileUnlockCacheSector only clears a locked flag. -/
theorem fileUnlock_slotsFrame (st : St) (file : File) :
    slotsFrame st (afatfs_fileUnlockCacheSector st file).2 := by
  unfold afatfs_fileUnlockCacheSector
  cases file.lockedCacheIndex with
  | none => exact slotsFrame_refl st
  | some i => exact slotsFrame_setSlot st i _ rfl rfl

/-- C8: for every disk sector index S, at most one cache slot descriptor
has sectorIndex = S together with a state different from Empty, at any
quiescent moment.  The inductive invariant `cacheInv` (which strengthens
the claim's property with: the non-Empty holder precedes every Empty slot
carrying the same sectorIndex) implies the claim's property and is
preserved by every routine that touches the slot descriptors — and hence
by every filesystem operation, all of which manipulate descriptors only
through these routines: afatfs_cacheSector (with any flags),
afatfs_flush, both SD-card completion callbacks,
afatfs_fileUnlockCacheSector, and afatfs_cacheSectorMarkDirty (called
only on buffers afatfs_cacheSector handed out, which always belong to
the first slot caching their sector). -/
theorem cache_uniqueSlotPerSector :
    (∀ st : St, cacheInv st → atMostOneSlotPerSector st)
    ∧ (∀ (geo : Geo) (st : St) (S : Nat) (flags : CacheFlags),
        st.slots.length = AFATFS_NUM_CACHE_SECTORS → cacheInv st →
        cacheInv ((afatfs_cacheSector geo st S flags).2.2))
    ∧ (∀ st : St, st.slots.length = AFATFS_NUM_CACHE_SECTORS → cacheInv st →
        cacheInv (afatfs_flush st).2)
    ∧ (∀ (st : St) (sectorIndex buffer : Nat),
        st.slots.length = AFATFS_NUM_CACHE_SECTORS → cacheInv st →
        cacheInv (afatfs_sdcardReadComplete st sectorIndex buffer))
    ∧ (∀ (st : St) (sectorIndex buffer : Nat),
        st.slots.length = AFATFS_NUM_CACHE_SECTORS → cacheInv st →
        cacheInv (afatfs_sdcardWriteComplete st sectorIndex buffer))
    ∧ (∀ (st : St) (file : File), cacheInv st →
        cacheInv (afatfs_fileUnlockCacheSector st file).2)
    ∧ (∀ (st : St) (bufIdx : Nat),
        st.slots.length = AFATFS_NUM_CACHE_SECTORS →
        bufIdx < AFATFS_NUM_CACHE_SECTORS →
        (∀ j, j < bufIdx → (st.slot j).sectorIndex ≠ (st.slot bufIdx).sectorIndex) →
        cacheInv st → cacheInv (afatfs_cacheSectorMarkDirty st bufIdx)) := by
  refine ⟨atMostOne_of_cacheInv, cacheInv_cacheSector, ?_, ?_, ?_, ?_, cacheInv_markDirty⟩
  · intro st hlen hinv
    exact cacheInv_of_classPreserving (flush_classPreserving st hlen) hinv
  · intro st sec buf hlen hinv
    exact cacheInv_of_classPreserving (readComplete_classPreserving st sec buf hlen) hinv
  · intro st sec buf hlen hinv
    exact cacheInv_of_classPreserving (writeComplete_classPreserving st sec buf hlen) hinv
  · intro st file hinv
    exact cacheInv_of_classPreserving
      (classPreserving_of_slotsFrame (fileUnlock_slotsFrame st file)) hinv

/-- A ready filesystem whose slot 2 is InSync on sector 40, all other
slots empty. -/
def c8_exSt : St :=
  { slots := [emptySlot, emptySlot, ⟨40, CacheState.inSync, 3, false, 0, false⟩,
      emptySlot, emptySlot, emptySlot, emptySlot, emptySlot]
    mem := fun _ _ => 0
    cacheTimer := 3
    cacheDirtyEntries := 0
    filesystemState := FsState.ready
    substate := 0
    filesystemFull := false
    lastClusterAllocated := 1
    freeFile := exFile
    freeSpaceSearch := exSearch
    freeSpaceFATStartCluster := 0
    freeSpaceFATEndCluster := 0
    sdReadAccepts := true
    sdWriteAccepts := true }

theorem c8_witness :
    atMostOneSlotPerSector c8_exSt
      ∧ cacheInv (afatfs_flush c8_exSt).2
      ∧ cacheInv (afatfs_sdcardReadComplete c8_exSt 40 2) :=
  ⟨cache_uniqueSlotPerSector.1 c8_exSt (by decide),
    cache_uniqueSlotPerSector.2.2.1 c8_exSt (by decide) (by decide),
    cache_uniqueSlotPerSector.2.2.2.1 c8_exSt 40 2 (by decide) (by decide)⟩

/-!  ## Claims C10 and C5: FAT chain writing and cluster search -/

/-- The allocation scan never touches the cached sector contents. -/
theorem allocLoop_mem (st : St) (S : Nat) :
    ∀ n i e d ol oi, AFATFS_NUM_CACHE_SECTORS - i ≤ n →
    ((afatfs_allocateCacheSectorLoop st S i e d ol oi).2).mem = st.mem := by
  intro n
  induction n with
  | zero =>
      intro i e d ol oi hn
      unfold afatfs_allocateCacheSectorLoop
      rw [if_neg (by omega)]
  | succ n ih =>
      intro i e d ol oi hn
      by_cases hi : i < AFATFS_NUM_CACHE_SECTORS
      case neg =>
        unfold afatfs_allocateCacheSectorLoop
        rw [if_neg hi]
      case pos =>
      unfold afatfs_allocateCacheSectorLoop
      rw [if_pos hi]
      dsimp only
      by_cases hsec : (st.slot i).sectorIndex = S
      · rw [if_pos hsec]
        by_cases hemp : (st.slot i).state = CacheState.empty
        · rw [if_pos hemp]
        · rw [if_neg hemp]
          rfl
      · rw [if_neg hsec]
        cases hstate : (st.slot i).state with
        | empty => exact ih (i + 1) _ _ _ _ (by omega)
        | inSync =>
            by_cases helig : (st.slot i).locked = false ∧ (st.slot i).retainCount = 0
            · rw [if_pos helig]
              by_cases hdisc : (st.slot i).discardable
              · rw [if_pos hdisc]
                exact ih (i + 1) _ _ _ _ (by omega)
              · rw [if_neg hdisc]
                by_cases hlu : (st.slot i).lastUse < ol
                · rw [if_pos hlu]
                  exact ih (i + 1) _ _ _ _ (by omega)
                · rw [if_neg hlu]
                  exact ih (i + 1) _ _ _ _ (by omega)
            · rw [if_neg helig]
              exact ih (i + 1) _ _ _ _ (by omega)
        | reading => exact ih (i + 1) _ _ _ _ (by omega)
        | dirty => exact ih (i + 1) _ _ _ _ (by omega)
        | writing => exact ih (i + 1) _ _ _ _ (by omega)

/-- afatfs_allocateCacheSector never touches the cached sector contents. -/
theorem allocateCacheSector_mem (geo : Geo) (st : St) (S : Nat) :
    ((afatfs_allocateCacheSector geo st S).2).mem = st.mem := by
  by_cases hb : geo.numClusters = 0
    ∨ S < geo.clusterStartSector + geo.numClusters * geo.sectorsPerCluster
  · rw [allocateCacheSector_eq geo st S hb]
    rcases hl : afatfs_allocateCacheSectorLoop st S 0 none none 0xFFFFFFFF none
      with ⟨r, st2⟩
    have hm : st2.mem = st.mem := by
      have h2 := allocLoop_mem st S AFATFS_NUM_CACHE_SECTORS 0 none none
        0xFFFFFFFF none (by omega)
      rw [hl] at h2
      exact h2
    cases r with
    | hit i => exact hm
    | finish e2 d2 o2 =>
        cases e2 with
        | some x => exact hm
        | none =>
            cases d2 with
            | some x => exact hm
            | none =>
                cases o2 with
                | some x => exact hm
                | none => exact hm
  · rw [allocateCacheSector_boundsFail geo st S hb]

/-- The lock phase never touches the cached sector contents. -/
theorem lockPhase_mem (st : St) (idx : Nat) (flags : CacheFlags) :
    ((afatfs_cacheSectorLockPhase st idx flags).2.2).mem = st.mem := by
  unfold afatfs_cacheSectorLockPhase
  dsimp only
  by_cases h1 : flags.lock = true <;> by_cases h2 : flags.unlock = true <;>
    by_cases h3 : flags.retain = true <;>
    simp only [h1, h2, h3, if_true, if_false] <;> rfl

/-- The write phase never touches the cached sector contents. -/
theorem writePhase_mem (st : St) (idx : Nat) (flags : CacheFlags) :
    ((afatfs_cacheSectorWritePhase st idx flags).2.2).mem = st.mem := by
  unfold afatfs_cacheSectorWritePhase
  dsimp only
  by_cases hw : flags.write = true
  · rw [if_pos hw, lockPhase_mem]
    rfl
  · rw [if_neg hw, lockPhase_mem]

/-- afatfs_cacheSector never touches the cached sector contents (data moves
into buffers only through the SD card read or the caller's own writes). -/
theorem cacheSector_mem (geo : Geo) (st : St) (S : Nat) (flags : CacheFlags) :
    ((afatfs_cacheSector geo st S flags).2.2).mem = st.mem := by
  by_cases hmbr : flags.write = true ∧ S = 0
  · rw [cacheSector_mbrFail geo st S flags hmbr]
  · rcases ha : afatfs_allocateCacheSector geo st S with ⟨r, st2⟩
    have hm : st2.mem = st.mem := by
      have h2 := allocateCacheSector_mem geo st S
      rw [ha] at h2
      exact h2
    cases r with
    | none =>
        rw [cacheSector_eq geo st S flags hmbr, ha]
        exact hm
    | some idx =>
        rw [cacheSector_eq_some geo st S flags idx st2 hmbr ha]
        cases hstate : (st2.slot idx).state with
        | reading => exact hm
        | empty =>
            by_cases hread : flags.read = true
            · rw [if_pos hread]
              by_cases hacc : st2.sdReadAccepts = true
              · rw [if_pos hacc]
                exact hm
              · rw [if_neg hacc]
                exact hm
            · rw [if_neg hread]
              rw [writePhase_mem]
              exact hm
        | writing => rw [writePhase_mem]; exact hm
        | inSync => rw [writePhase_mem]; exact hm
        | dirty => rw [lockPhase_mem]; exact hm

/-- The FAT-entry writing loop touches only entry indexes below `count`. -/
theorem writeFatEntriesLoop_mem (buf width : Nat) :
    ∀ n i count nextCluster (st : St) (b idx : Nat), count - i ≤ n → count ≤ idx →
    ((writeFatEntriesLoop buf width st i count nextCluster).1).mem b idx
      = st.mem b idx := by
  intro n
  induction n with
  | zero =>
      intro i count nc st b idx hn hidx
      unfold writeFatEntriesLoop
      rw [if_neg (by omega)]
  | succ n ih =>
      intro i count nc st b idx hn hidx
      by_cases hi : i < count
      · unfold writeFatEntriesLoop
        rw [if_pos hi]
        rw [ih (i + 1) count (nc + 1) _ b idx (by omega) hidx]
        show (if b = buf ∧ idx = i then _ else st.mem b idx) = st.mem b idx
        rw [if_neg (by omega)]
      · unfold writeFatEntriesLoop
        rw [if_neg hi]

/-- chainEntriesToWrite in terms of the filesystem's FAT entries per
sector. -/
theorem chainEntriesToWrite_eq (geo : Geo) (s e : Nat)
    (hfs : geo.filesystemType = FatType.fat16 ∨ geo.filesystemType = FatType.fat32) :
    chainEntriesToWrite geo s e = min (e - s - 1) (afatfs_fatEntriesPerSector geo) := by
  unfold chainEntriesToWrite afatfs_fatEntriesPerSector
  rcases hfs with h | h <;> rw [h] <;> simp

theorem fatEntriesPerSector_ge_two (geo : Geo) :
    2 ≤ afatfs_fatEntriesPerSector geo := by
  unfold afatfs_fatEntriesPerSector AFATFS_FAT32_FAT_ENTRIES_PER_SECTOR
    AFATFS_FAT16_FAT_ENTRIES_PER_SECTOR
  split <;> norm_num

/-- One iteration of the chain-writing loop on a successful cache fetch. -/
theorem chainLoop_eq_success (geo : Geo) (st : St) (s e nc fps buf0 : Nat)
    (st1 : St) (hslt : s < e)
    (hcs : afatfs_cacheSector geo st fps ⟨false, true, false, false, true, false⟩
      = (OpStatus.success, buf0, st1)) :
    FATWriteSuperclusterChainLoop geo st s e nc fps =
      (if s + chainEntriesToWrite geo s e = e - 1 then
        (OpStatus.success, s + chainEntriesToWrite geo s e + 1,
          if geo.filesystemType = FatType.fat16 then
            ((writeFatEntriesLoop buf0
              (if geo.filesystemType = FatType.fat16 then 2 ^ 16 else 2 ^ 32)
              st1 0 (chainEntriesToWrite geo s e) nc).1).setMem buf0
              (chainEntriesToWrite geo s e) 0xFFFF
          else
            ((writeFatEntriesLoop buf0
              (if geo.filesystemType = FatType.fat16 then 2 ^ 16 else 2 ^ 32)
              st1 0 (chainEntriesToWrite geo s e) nc).1).setMem buf0
              (chainEntriesToWrite geo s e) 0xFFFFFFFF)
      else
        FATWriteSuperclusterChainLoop geo
          (writeFatEntriesLoop buf0
            (if geo.filesystemType = FatType.fat16 then 2 ^ 16 else 2 ^ 32)
            st1 0 (chainEntriesToWrite geo s e) nc).1
          (s + chainEntriesToWrite geo s e) e
          (writeFatEntriesLoop buf0
            (if geo.filesystemType = FatType.fat16 then 2 ^ 16 else 2 ^ 32)
            st1 0 (chainEntriesToWrite geo s e) nc).2 (fps + 1)) := by
  conv =>
    lhs
    rw [FATWriteSuperclusterChainLoop]
  rw [if_pos hslt, hcs]
  rfl

/-- One iteration of the chain-writing loop on a stalled or failed cache
fetch. -/
theorem chainLoop_eq_stall (geo : Geo) (st : St) (s e nc fps : Nat)
    (status : OpStatus) (buf0 : Nat) (st1 : St) (hslt : s < e)
    (hcs : afatfs_cacheSector geo st fps ⟨false, true, false, false, true, false⟩
      = (status, buf0, st1)) (hns : status ≠ OpStatus.success) :
    FATWriteSuperclusterChainLoop geo st s e nc fps = (status, s, st1) := by
  conv =>
    lhs
    rw [FATWriteSuperclusterChainLoop]
  rw [if_pos hslt, hcs]
  cases status with
  | success => exact absurd rfl hns
  | inProgress => rfl
  | failure => rfl

/-- The loop of afatfs_FATWriteSuperclusterChain leaves every FAT entry at
index ≥ the FAT entries per sector untouched, for a span that is a
positive multiple of the FAT entries per sector. -/
theorem chainLoop_memFrame (geo : Geo) (endCluster : Nat) :
    ∀ n startCluster (st : St) nextCluster fatPhysicalSector,
    geo.filesystemType = FatType.fat16 ∨ geo.filesystemType = FatType.fat32 →
    endCluster - startCluster ≤ n →
    (∃ m, 0 < m ∧ endCluster - startCluster = m * afatfs_fatEntriesPerSector geo) →
    ∀ b idx, afatfs_fatEntriesPerSector geo ≤ idx →
    ((FATWriteSuperclusterChainLoop geo st startCluster endCluster nextCluster
        fatPhysicalSector).2.2).mem b idx = st.mem b idx := by
  intro n
  induction n with
  | zero =>
      intro s st nc fps hfs hn hmul b idx hidx
      unfold FATWriteSuperclusterChainLoop
      rw [if_neg (by omega)]
  | succ n ih =>
      intro s st nc fps hfs hn hmul b idx hidx
      obtain ⟨m, hm, hms⟩ := hmul
      have heps := fatEntriesPerSector_ge_two geo
      have hprod : 2 ≤ m * afatfs_fatEntriesPerSector geo := by
        calc 2 = 1 * 2 := by ring
          _ ≤ m * afatfs_fatEntriesPerSector geo := Nat.mul_le_mul hm heps
      have hslt : s < endCluster := by omega
      rcases hcs : afatfs_cacheSector geo st fps
        ⟨false, true, false, false, true, false⟩ with ⟨status, buf0, st1⟩
      have hmem1 : ∀ b2 i2, st1.mem b2 i2 = st.mem b2 i2 := by
        intro b2 i2
        have h2 := cacheSector_mem geo st fps ⟨false, true, false, false, true, false⟩
        rw [hcs] at h2
        rw [h2]
      cases status with
      | inProgress =>
          rw [chainLoop_eq_stall geo st s endCluster nc fps OpStatus.inProgress
            buf0 st1 hslt hcs (by simp)]
          exact hmem1 b idx
      | failure =>
          rw [chainLoop_eq_stall geo st s endCluster nc fps OpStatus.failure
            buf0 st1 hslt hcs (by simp)]
          exact hmem1 b idx
      | success =>
          rw [chainLoop_eq_success geo st s endCluster nc fps buf0 st1 hslt hcs]
          have hetw := chainEntriesToWrite_eq geo s endCluster hfs
          rcases Nat.lt_or_ge m 2 with hmlt | hmge
          · -- the span is exactly one FAT sector: this writes the terminator
            have hm1 : m = 1 := by omega
            have hspan : endCluster - s = afatfs_fatEntriesPerSector geo := by
              rw [hm1, one_mul] at hms
              exact hms
            have hetwv : chainEntriesToWrite geo s endCluster
                = afatfs_fatEntriesPerSector geo - 1 := by
              rw [hetw]
              have h5 : min (endCluster - s - 1) (afatfs_fatEntriesPerSector geo)
                  = endCluster - s - 1 := Nat.min_eq_left (by omega)
              rw [h5]
              omega
            have hterm : s + chainEntriesToWrite geo s endCluster = endCluster - 1 := by
              rw [hetwv]
              omega
            rw [if_pos hterm]
            have hwf := writeFatEntriesLoop_mem buf0
              (if geo.filesystemType = FatType.fat16 then 2 ^ 16 else 2 ^ 32)
              (chainEntriesToWrite geo s endCluster) 0
              (chainEntriesToWrite geo s endCluster) nc st1 b idx (by omega)
              (by rw [hetwv]; omega)
            by_cases hft : geo.filesystemType = FatType.fat16
            · rw [if_pos hft]
              show (if b = buf0 ∧ idx = chainEntriesToWrite geo s endCluster
                  then (65535 : Nat)
                  else ((writeFatEntriesLoop buf0
                    (if geo.filesystemType = FatType.fat16 then 2 ^ 16 else 2 ^ 32)
                    st1 0 (chainEntriesToWrite geo s endCluster) nc).1).mem b idx)
                = st.mem b idx
              rw [if_neg (by rw [hetwv]; omega), hwf]
              exact hmem1 b idx
            · rw [if_neg hft]
              show (if b = buf0 ∧ idx = chainEntriesToWrite geo s endCluster
                  then (4294967295 : Nat)
                  else ((writeFatEntriesLoop buf0
                    (if geo.filesystemType = FatType.fat16 then 2 ^ 16 else 2 ^ 32)
                    st1 0 (chainEntriesToWrite geo s endCluster) nc).1).mem b idx)
                = st.mem b idx
              rw [if_neg (by rw [hetwv]; omega), hwf]
              exact hmem1 b idx
          · -- at least two FAT sectors remain: a full sector is written and
            -- the loop recurses on the rest of the span
            have hge : 2 * afatfs_fatEntriesPerSector geo ≤ endCluster - s := by
              rw [hms]
              exact Nat.mul_le_mul_right _ hmge
            have hetwv : chainEntriesToWrite geo s endCluster
                = afatfs_fatEntriesPerSector geo := by
              rw [hetw]
              exact Nat.min_eq_right (by omega)
            have hterm : ¬(s + chainEntriesToWrite geo s endCluster = endCluster - 1) := by
              rw [hetwv]
              omega
            rw [if_neg hterm]
            have h9 : endCluster - s = (m - 1) * afatfs_fatEntriesPerSector geo
                + afatfs_fatEntriesPerSector geo := by
              have hsucc : m - 1 + 1 = m := by omega
              calc endCluster - s = m * afatfs_fatEntriesPerSector geo := hms
                _ = (m - 1 + 1) * afatfs_fatEntriesPerSector geo := by rw [hsucc]
                _ = (m - 1) * afatfs_fatEntriesPerSector geo
                    + afatfs_fatEntriesPerSector geo := by ring
            have hspan2 : endCluster - (s + chainEntriesToWrite geo s endCluster)
                = (m - 1) * afatfs_fatEntriesPerSector geo := by
              rw [hetwv]
              calc endCluster - (s + afatfs_fatEntriesPerSector geo)
                  = (m - 1) * afatfs_fatEntriesPerSector geo
                    + afatfs_fatEntriesPerSector geo
                    - afatfs_fatEntriesPerSector geo := by
                    rw [← h9]
                    omega
                _ = (m - 1) * afatfs_fatEntriesPerSector geo := Nat.add_sub_cancel _ _
            have hrec := ih (s + chainEntriesToWrite geo s endCluster)
              ((writeFatEntriesLoop buf0
                (if geo.filesystemType = FatType.fat16 then 2 ^ 16 else 2 ^ 32)
                st1 0 (chainEntriesToWrite geo s endCluster) nc).1)
              ((writeFatEntriesLoop buf0
                (if geo.filesystemType = FatType.fat16 then 2 ^ 16 else 2 ^ 32)
                st1 0 (chainEntriesToWrite geo s endCluster) nc).2)
              (fps + 1) hfs
              (by rw [hetwv]; omega)
              ⟨m - 1, by omega, hspan2⟩
              b idx hidx
            rw [hrec]
            have hwf := writeFatEntriesLoop_mem buf0
              (if geo.filesystemType = FatType.fat16 then 2 ^ 16 else 2 ^ 32)
              (chainEntriesToWrite geo s endCluster) 0
              (chainEntriesToWrite geo s endCluster) nc st1 b idx (by omega)
              (by rw [hetwv]; omega)
            rw [hwf]
            exact hmem1 b idx

/-- C10: whenever afatfs_FATWriteSuperclusterChain(&start, end) is called
on a FAT16 or FAT32 volume with start aligned to a FAT-sector boundary
(FAT entry index 0) and end − start a positive multiple of the FAT
entries per sector, every FAT-entry index it writes into a cached FAT
sector — the chained next-cluster entries as well as the end-of-chain
terminator — is strictly less than the FAT entries per sector: every FAT
entry at an index at or beyond that bound is left untouched, so no write
lands outside the 512-byte sector buffer. -/
theorem FATWriteSuperclusterChain_writesInBounds (geo : Geo) (st : St)
    (startCluster endCluster : Nat)
    (hfs : geo.filesystemType = FatType.fat16 ∨ geo.filesystemType = FatType.fat32)
    (halign : (afatfs_getFATPositionForCluster geo startCluster).2 = 0)
    (hmul : ∃ m, 0 < m
      ∧ endCluster - startCluster = m * afatfs_fatEntriesPerSector geo) :
    ∀ b idx, afatfs_fatEntriesPerSector geo ≤ idx →
      ((afatfs_FATWriteSuperclusterChain geo st startCluster endCluster).2.2).mem b idx
        = st.mem b idx := by
  intro b idx hidx
  have hred : afatfs_FATWriteSuperclusterChain geo st startCluster endCluster
      = FATWriteSuperclusterChainLoop geo st startCluster endCluster
        (startCluster + 1)
        (afatfs_fatSectorToPhysical geo 0
          (afatfs_getFATPositionForCluster geo startCluster).1) := by
    unfold afatfs_FATWriteSuperclusterChain
    dsimp only
    rw [decide_eq_true halign]
    rfl
  rw [hred]
  exact chainLoop_memFrame geo endCluster (endCluster - startCluster) startCluster
    st _ _ hfs (le_refl _) hmul b idx hidx

theorem c10_witness :
    ((afatfs_FATWriteSuperclusterChain c3_geo c3_exSt 256 512).2.2).mem 0 256
      = c3_exSt.mem 0 256 :=
  FATWriteSuperclusterChain_writesInBounds c3_geo c3_exSt 256 512
    (Or.inl (by decide)) (by decide) ⟨1, by decide, by decide⟩ 0 256 (by decide)

/-- The inner sector scan exits with NotFound only with the cursor set to
numClusters + 2, one past the final valid cluster. -/
theorem findClusterScanSector_done_notFound (geo : Geo) (st : St)
    (lookingForFree : Bool) (jump : Nat) (hj : 0 < jump) (buf : Nat) :
    ∀ n cluster fei c2, afatfs_fatEntriesPerSector geo - fei ≤ n →
      findClusterScanSector geo st lookingForFree jump hj buf cluster fei
        = InnerScan.done FindClusterStatus.notFound c2 →
      c2 = geo.numClusters + FAT_SMALLEST_LEGAL_CLUSTER_NUMBER := by
  intro n
  induction n with
  | zero =>
      intro cluster fei c2 hn h
      unfold findClusterScanSector at h
      split at h
      · simp at h
      · split at h
        · split at h
          · simp at h
          · cases h
            rfl
        · split at h
          · omega
          · simp at h
  | succ n ih =>
      intro cluster fei c2 hn h
      unfold findClusterScanSector at h
      split at h
      · simp at h
      · split at h
        · split at h
          · simp at h
          · cases h
            rfl
        · split at h
          · exact ih (cluster + jump) (fei + jump) c2 (by omega) h
          · simp at h

/-- The search loop of afatfs_findClusterWithCondition returns NotFound
only with the cursor set to numClusters + 2. -/
theorem findClusterLoop_notFound (geo : Geo) (hspc : 0 < geo.sectorsPerCluster)
    (lookingForFree : Bool) (jump : Nat) (hj : 0 < jump)
    (hje : jump ≤ afatfs_fatEntriesPerSector geo) :
    ∀ n (st : St) cluster fsi fei c2 (st2 : St),
      geo.numClusters + FAT_SMALLEST_LEGAL_CLUSTER_NUMBER
        + 2 * afatfs_fatEntriesPerSector geo - cluster ≤ n →
      findClusterLoop geo hspc lookingForFree jump hj hje st cluster fsi fei
        = (FindClusterStatus.notFound, c2, st2) →
      c2 = geo.numClusters + FAT_SMALLEST_LEGAL_CLUSTER_NUMBER := by
  intro n
  induction n with
  | zero =>
      intro st cluster fsi fei c2 st2 hn h
      have heps := fatEntriesPerSector_ge_two geo
      unfold findClusterLoop at h
      rw [if_neg (by omega)] at h
      cases h
      rfl
  | succ n ih =>
      intro st cluster fsi fei c2 st2 hn h
      have heps := fatEntriesPerSector_ge_two geo
      by_cases hlt : cluster < geo.numClusters + FAT_SMALLEST_LEGAL_CLUSTER_NUMBER
      case neg =>
        unfold findClusterLoop at h
        rw [if_neg hlt] at h
        cases h
        rfl
      case pos =>
      unfold findClusterLoop at h
      rw [if_pos hlt] at h
      by_cases hskip : st.freeFile.directoryEntry.fileSize > 0
        ∧ cluster = freeFileStartAdd st
      · rw [if_pos hskip] at h
        have hcs : 0 < afatfs_clusterSize geo := clusterSize_pos geo hspc
        have h1 : 1 ≤ (st.freeFile.directoryEntry.fileSize + afatfs_clusterSize geo - 1)
            / afatfs_clusterSize geo := by
          rw [Nat.le_div_iff_mul_le hcs]
          omega
        have h2 := roundUpTo_ge
          (cluster + (st.freeFile.directoryEntry.fileSize + afatfs_clusterSize geo - 1)
            / afatfs_clusterSize geo) jump
        exact ih st _ fsi fei c2 st2 (by omega) h
      · rw [if_neg hskip] at h
        rcases hcs2 : afatfs_cacheSector geo st (afatfs_fatSectorToPhysical geo 0 fsi)
          ⟨true, false, false, false, true, false⟩ with ⟨status, buf, st1⟩
        rw [hcs2] at h
        cases status with
        | inProgress => simp at h
        | failure => simp at h
        | success =>
            dsimp only at h
            rcases hscan : findClusterScanSector geo st1 lookingForFree jump hj buf
              cluster fei with ⟨r, c3⟩ | c3
            · rw [hscan] at h
              have hr : r = FindClusterStatus.notFound := congrArg Prod.fst h
              have hc : c3 = c2 := congrArg (fun p => p.2.1) h
              subst hr
              rw [← hc]
              exact findClusterScanSector_done_notFound geo st1 lookingForFree jump
                hj buf (afatfs_fatEntriesPerSector geo - fei) cluster fei c3
                (le_refl _) hscan
            · rw [hscan] at h
              have h3 := findClusterScanSector_nextSector_lt geo st1 lookingForFree
                jump hj buf (afatfs_fatEntriesPerSector geo - fei) cluster fei c3
                (le_refl _) hscan
              exact ih st1 c3 (fsi + 1) 0 c2 st2 (by omega) h

theorem roundUpTo_mod (value rounding : Nat) (h : 0 < rounding) :
    roundUpTo value rounding % rounding = 0 := by
  unfold roundUpTo
  dsimp only
  split
  case isTrue hrem =>
    have h2 : value % rounding < rounding := Nat.mod_lt _ h
    rw [Nat.add_mod, Nat.mod_eq_of_lt (show rounding - value % rounding < rounding by omega)]
    rw [show value % rounding + (rounding - value % rounding) = rounding by omega]
    exact Nat.mod_self rounding
  case isFalse hrem => omega

/-- C5: the freefile skip and the NotFound exit of
afatfs_findClusterWithCondition.  (a) When the freefile is allocated
(non-zero file size) and the search cursor reaches the freefile (its
first cluster), one loop step jumps the cursor past the entire freefile
— to at least cursor + ceil(fileSize / clusterSize) — rounded up to a
multiple of the search's jump (the FAT-sector alignment required by the
condition), while the loop's FAT position variables are carried over
unchanged.  (b) Whenever the search returns NotFound, the final cursor is
numClusters + 2, just beyond the final valid cluster. -/
theorem findClusterWithCondition_spec (geo : Geo) (hspc : 0 < geo.sectorsPerCluster)
    (st : St) :
    (∀ (lookingForFree : Bool) (jump : Nat) (hj : 0 < jump)
       (hje : jump ≤ afatfs_fatEntriesPerSector geo) (cluster fsi fei : Nat),
      cluster < geo.numClusters + FAT_SMALLEST_LEGAL_CLUSTER_NUMBER →
      st.freeFile.directoryEntry.fileSize > 0 →
      cluster = freeFileStartAdd st →
      findClusterLoop geo hspc lookingForFree jump hj hje st cluster fsi fei
        = findClusterLoop geo hspc lookingForFree jump hj hje st
            (roundUpTo
              (cluster + (st.freeFile.directoryEntry.fileSize
                + afatfs_clusterSize geo - 1) / afatfs_clusterSize geo)
              jump) fsi fei
      ∧ cluster + (st.freeFile.directoryEntry.fileSize
          + afatfs_clusterSize geo - 1) / afatfs_clusterSize geo
        ≤ roundUpTo
            (cluster + (st.freeFile.directoryEntry.fileSize
              + afatfs_clusterSize geo - 1) / afatfs_clusterSize geo) jump
      ∧ roundUpTo
            (cluster + (st.freeFile.directoryEntry.fileSize
              + afatfs_clusterSize geo - 1) / afatfs_clusterSize geo) jump
          % jump = 0)
    ∧ (∀ (condition : ClusterSearchCondition) (cluster c2 : Nat) (st2 : St),
      afatfs_findClusterWithCondition geo hspc st condition cluster
        = (FindClusterStatus.notFound, c2, st2) →
      c2 = geo.numClusters + FAT_SMALLEST_LEGAL_CLUSTER_NUMBER) := by
  constructor
  · intro lookingForFree jump hj hje cluster fsi fei hlt hsz heq
    refine ⟨?_, roundUpTo_ge _ _, roundUpTo_mod _ _ hj⟩
    conv =>
      lhs
      rw [findClusterLoop]
    rw [if_pos hlt, if_pos ⟨hsz, heq⟩]
  · intro condition cluster c2 st2 h
    cases condition with
    | freeSectorAtBeginningOfFatSector =>
        unfold afatfs_findClusterWithCondition at h
        dsimp only at h
        by_cases halign : (afatfs_getFATPositionForCluster geo cluster).2 = 0
        · rw [decide_eq_true halign] at h
          exact findClusterLoop_notFound geo hspc true
            (afatfs_fatEntriesPerSector geo) (fatEntriesPerSector_pos geo)
            (le_refl _)
            (geo.numClusters + FAT_SMALLEST_LEGAL_CLUSTER_NUMBER
              + 2 * afatfs_fatEntriesPerSector geo) st cluster _ _ c2 st2
            (by omega) h
        · rw [decide_eq_false halign] at h
          simp [afatfs_assert] at h
    | freeSector =>
        unfold afatfs_findClusterWithCondition at h
        dsimp only at h
        exact findClusterLoop_notFound geo hspc true 1 one_pos
          (fatEntriesPerSector_pos geo)
          (geo.numClusters + FAT_SMALLEST_LEGAL_CLUSTER_NUMBER
            + 2 * afatfs_fatEntriesPerSector geo) st cluster _ _ c2 st2
          (by omega) h
    | occupiedSector =>
        unfold afatfs_findClusterWithCondition at h
        dsimp only at h
        exact findClusterLoop_notFound geo hspc false 1 one_pos
          (fatEntriesPerSector_pos geo)
          (geo.numClusters + FAT_SMALLEST_LEGAL_CLUSTER_NUMBER
            + 2 * afatfs_fatEntriesPerSector geo) st cluster _ _ c2 st2
          (by omega) h

/-- A ready filesystem whose freefile spans two clusters starting at
cluster 50. -/
def c5_exSt : St :=
  { slots := [emptySlot, emptySlot, emptySlot, emptySlot, emptySlot, emptySlot,
      emptySlot, emptySlot]
    mem := fun _ _ => 0
    cacheTimer := 0
    cacheDirtyEntries := 0
    filesystemState := FsState.ready
    substate := 0
    filesystemFull := false
    lastClusterAllocated := 1
    freeFile := { exFile with directoryEntry := ⟨1024, 0, 50, 0⟩ }
    freeSpaceSearch := exSearch
    freeSpaceFATStartCluster := 0
    freeSpaceFATEndCluster := 0
    sdReadAccepts := true
    sdWriteAccepts := true }

/-!  ## Claim C9: the filesystemFull flag is sticky -/

/-- The state fields outside the cache layer (in particular
filesystemFull) are unchanged between two states. -/
def sameScalars (st st' : St) : Prop :=
  st'.filesystemFull = st.filesystemFull
  ∧ st'.freeFile = st.freeFile
  ∧ st'.substate = st.substate
  ∧ st'.lastClusterAllocated = st.lastClusterAllocated
  ∧ st'.freeSpaceSearch = st.freeSpaceSearch
  ∧ st'.freeSpaceFATStartCluster = st.freeSpaceFATStartCluster
  ∧ st'.freeSpaceFATEndCluster = st.freeSpaceFATEndCluster
  ∧ st'.sdReadAccepts = st.sdReadAccepts
  ∧ st'.sdWriteAccepts = st.sdWriteAccepts

theorem sameScalars_refl (st : St) : sameScalars st st :=
  ⟨rfl, rfl, rfl, rfl, rfl, rfl, rfl, rfl, rfl⟩

theorem sameScalars_trans {a b c : St} (h1 : sameScalars a b)
    (h2 : sameScalars b c) : sameScalars a c :=
  ⟨h2.1.trans h1.1, h2.2.1.trans h1.2.1, h2.2.2.1.trans h1.2.2.1,
    h2.2.2.2.1.trans h1.2.2.2.1, h2.2.2.2.2.1.trans h1.2.2.2.2.1,
    h2.2.2.2.2.2.1.trans h1.2.2.2.2.2.1,
    h2.2.2.2.2.2.2.1.trans h1.2.2.2.2.2.2.1,
    h2.2.2.2.2.2.2.2.1.trans h1.2.2.2.2.2.2.2.1,
    h2.2.2.2.2.2.2.2.2.trans h1.2.2.2.2.2.2.2.2⟩

/-- The allocation scan changes only cache-layer fields. -/
theorem allocLoop_scalars (st : St) (S : Nat) :
    ∀ n i e d ol oi, AFATFS_NUM_CACHE_SECTORS - i ≤ n →
    sameScalars st ((afatfs_allocateCacheSectorLoop st S i e d ol oi).2) := by
  intro n
  induction n with
  | zero =>
      intro i e d ol oi hn
      unfold afatfs_allocateCacheSectorLoop
      rw [if_neg (by omega)]
      exact sameScalars_refl st
  | succ n ih =>
      intro i e d ol oi hn
      by_cases hi : i < AFATFS_NUM_CACHE_SECTORS
      case neg =>
        unfold afatfs_allocateCacheSectorLoop
        rw [if_neg hi]
        exact sameScalars_refl st
      case pos =>
      unfold afatfs_allocateCacheSectorLoop
      rw [if_pos hi]
      dsimp only
      by_cases hsec : (st.slot i).sectorIndex = S
      · rw [if_pos hsec]
        by_cases hemp : (st.slot i).state = CacheState.empty
        · rw [if_pos hemp]
          exact sameScalars_refl st
        · rw [if_neg hemp]
          exact ⟨rfl, rfl, rfl, rfl, rfl, rfl, rfl, rfl, rfl⟩
      · rw [if_neg hsec]
        cases hstate : (st.slot i).state with
        | empty => exact ih (i + 1) _ _ _ _ (by omega)
        | inSync =>
            by_cases helig : (st.slot i).locked = false ∧ (st.slot i).retainCount = 0
            · rw [if_pos helig]
              by_cases hdisc : (st.slot i).discardable
              · rw [if_pos hdisc]
                exact ih (i + 1) _ _ _ _ (by omega)
              · rw [if_neg hdisc]
                by_cases hlu : (st.slot i).lastUse < ol
                · rw [if_pos hlu]
                  exact ih (i + 1) _ _ _ _ (by omega)
                · rw [if_neg hlu]
                  exact ih (i + 1) _ _ _ _ (by omega)
            · rw [if_neg helig]
              exact ih (i + 1) _ _ _ _ (by omega)
        | reading => exact ih (i + 1) _ _ _ _ (by omega)
        | dirty => exact ih (i + 1) _ _ _ _ (by omega)
        | writing => exact ih (i + 1) _ _ _ _ (by omega)

theorem allocateCacheSector_scalars (geo : Geo) (st : St) (S : Nat) :
    sameScalars st ((afatfs_allocateCacheSector geo st S).2) := by
  by_cases hb : geo.numClusters = 0
    ∨ S < geo.clusterStartSector + geo.numClusters * geo.sectorsPerCluster
  · rw [allocateCacheSector_eq geo st S hb]
    rcases hl : afatfs_allocateCacheSectorLoop st S 0 none none 0xFFFFFFFF none
      with ⟨r, st2⟩
    have hm : sameScalars st st2 := by
      have h2 := allocLoop_scalars st S AFATFS_NUM_CACHE_SECTORS 0 none none
        0xFFFFFFFF none (by omega)
      rw [hl] at h2
      exact h2
    cases r with
    | hit i => exact hm
    | finish e2 d2 o2 =>
        cases e2 with
        | some x => exact hm
        | none =>
            cases d2 with
            | some x => exact hm
            | none =>
                cases o2 with
                | some x => exact hm
                | none => exact hm
  · rw [allocateCacheSector_boundsFail geo st S hb]
    exact ⟨rfl, rfl, rfl, rfl, rfl, rfl, rfl, rfl, rfl⟩

theorem lockPhase_scalars (st : St) (idx : Nat) (flags : CacheFlags) :
    sameScalars st ((afatfs_cacheSectorLockPhase st idx flags).2.2) := by
  unfold afatfs_cacheSectorLockPhase
  dsimp only
  by_cases h1 : flags.lock = true <;> by_cases h2 : flags.unlock = true <;>
    by_cases h3 : flags.retain = true <;>
    simp only [h1, h2, h3, if_true, if_false] <;>
    exact ⟨rfl, rfl, rfl, rfl, rfl, rfl, rfl, rfl, rfl⟩

theorem writePhase_scalars (st : St) (idx : Nat) (flags : CacheFlags) :
    sameScalars st ((afatfs_cacheSectorWritePhase st idx flags).2.2) := by
  unfold afatfs_cacheSectorWritePhase
  dsimp only
  by_cases hw : flags.write = true
  · rw [if_pos hw]
    exact sameScalars_trans
      (⟨rfl, rfl, rfl, rfl, rfl, rfl, rfl, rfl, rfl⟩ :
        sameScalars st _)
      (lockPhase_scalars _ idx flags)
  · rw [if_neg hw]
    exact lockPhase_scalars st idx flags

/-- afatfs_cacheSector changes only cache-layer fields and the
filesystemState; in particular it never resets filesystemFull. -/
theorem cacheSector_scalars (geo : Geo) (st : St) (S : Nat) (flags : CacheFlags) :
    sameScalars st ((afatfs_cacheSector geo st S flags).2.2) := by
  by_cases hmbr : flags.write = true ∧ S = 0
  · rw [cacheSector_mbrFail geo st S flags hmbr]
    exact ⟨rfl, rfl, rfl, rfl, rfl, rfl, rfl, rfl, rfl⟩
  · rcases ha : afatfs_allocateCacheSector geo st S with ⟨r, st2⟩
    have hm : sameScalars st st2 := by
      have h2 := allocateCacheSector_scalars geo st S
      rw [ha] at h2
      exact h2
    cases r with
    | none =>
        rw [cacheSector_eq geo st S flags hmbr, ha]
        exact hm
    | some idx =>
        rw [cacheSector_eq_some geo st S flags idx st2 hmbr ha]
        cases hstate : (st2.slot idx).state with
        | reading => exact hm
        | empty =>
            by_cases hread : flags.read = true
            · rw [if_pos hread]
              by_cases hacc : st2.sdReadAccepts = true
              · rw [if_pos hacc]
                exact hm
              · rw [if_neg hacc]
                exact hm
            · rw [if_neg hread]
              exact sameScalars_trans
                (sameScalars_trans hm
                  ⟨rfl, rfl, rfl, rfl, rfl, rfl, rfl, rfl, rfl⟩)
                (writePhase_scalars _ idx flags)
        | writing =>
            exact sameScalars_trans hm (writePhase_scalars st2 idx flags)
        | inSync =>
            exact sameScalars_trans hm (writePhase_scalars st2 idx flags)
        | dirty =>
            exact sameScalars_trans hm (lockPhase_scalars st2 idx flags)

theorem flushLoop_scalars (st : St) :
    ∀ n i, AFATFS_NUM_CACHE_SECTORS - i ≤ n →
    sameScalars st (afatfs_flushLoop st i).2 := by
  intro n
  induction n with
  | zero =>
      intro i hn
      unfold afatfs_flushLoop
      rw [if_neg (by omega)]
      exact sameScalars_refl st
  | succ n ih =>
      intro i hn
      by_cases hi : i < AFATFS_NUM_CACHE_SECTORS
      case neg =>
        unfold afatfs_flushLoop
        rw [if_neg hi]
        exact sameScalars_refl st
      case pos =>
      unfold afatfs_flushLoop
      rw [if_pos hi]
      by_cases hm : (st.slot i).state = CacheState.dirty ∧ (st.slot i).locked = false
      · rw [if_pos hm]
        by_cases ha : st.sdWriteAccepts = true
        · rw [if_pos ha]
          exact ⟨rfl, rfl, rfl, rfl, rfl, rfl, rfl, rfl, rfl⟩
        · rw [if_neg ha]
          exact sameScalars_refl st
      · rw [if_neg hm]
        exact ih (i + 1) (by omega)

theorem flush_scalars (st : St) : sameScalars st (afatfs_flush st).2 := by
  unfold afatfs_flush
  by_cases h : st.cacheDirtyEntries > 0
  · rw [if_pos h]
    exact flushLoop_scalars st AFATFS_NUM_CACHE_SECTORS 0 (by omega)
  · rw [if_neg h]
    exact sameScalars_refl st

theorem iteFatal_scalars (c : Prop) [Decidable c] (st : St) :
    sameScalars st
      ((if c then st else { st with filesystemState := FsState.fatal }) : St) := by
  by_cases hc : c
  · rw [if_pos hc]
    exact sameScalars_refl st
  · rw [if_neg hc]
    exact ⟨rfl, rfl, rfl, rfl, rfl, rfl, rfl, rfl, rfl⟩

theorem readCompleteLoop_scalars (st : St) (sec buf : Nat) :
    ∀ n i, AFATFS_NUM_CACHE_SECTORS - i ≤ n →
    sameScalars st (afatfs_sdcardReadCompleteLoop st sec buf i) := by
  intro n
  induction n with
  | zero =>
      intro i hn
      unfold afatfs_sdcardReadCompleteLoop
      rw [if_neg (by omega)]
      exact sameScalars_refl st
  | succ n ih =>
      intro i hn
      by_cases hi : i < AFATFS_NUM_CACHE_SECTORS
      case neg =>
        unfold afatfs_sdcardReadCompleteLoop
        rw [if_neg hi]
        exact sameScalars_refl st
      case pos =>
      unfold afatfs_sdcardReadCompleteLoop
      rw [if_pos hi]
      by_cases hm : (st.slot i).state ≠ CacheState.empty ∧ (st.slot i).sectorIndex = sec
      · rw [if_pos hm]
        exact sameScalars_trans
          (iteFatal_scalars _ st)
          ⟨rfl, rfl, rfl, rfl, rfl, rfl, rfl, rfl, rfl⟩
      · rw [if_neg hm]
        exact ih (i + 1) (by omega)

theorem readComplete_scalars (st : St) (sec buf : Nat) :
    sameScalars st (afatfs_sdcardReadComplete st sec buf) :=
  readCompleteLoop_scalars st sec buf AFATFS_NUM_CACHE_SECTORS 0 (by omega)

theorem writeCompleteLoop_scalars (st : St) (sec buf : Nat) :
    ∀ n i, AFATFS_NUM_CACHE_SECTORS - i ≤ n →
    sameScalars st (afatfs_sdcardWriteCompleteLoop st sec buf i) := by
  intro n
  induction n with
  | zero =>
      intro i hn
      unfold afatfs_sdcardWriteCompleteLoop
      rw [if_neg (by omega)]
      exact sameScalars_refl st
  | succ n ih =>
      intro i hn
      by_cases hi : i < AFATFS_NUM_CACHE_SECTORS
      case neg =>
        unfold afatfs_sdcardWriteCompleteLoop
        rw [if_neg hi]
        exact sameScalars_refl st
      case pos =>
      unfold afatfs_sdcardWriteCompleteLoop
      rw [if_pos hi]
      by_cases hm : (st.slot i).state = CacheState.writing ∧ (st.slot i).sectorIndex = sec
      · rw [if_pos hm]
        exact sameScalars_trans
          (iteFatal_scalars _ st)
          ⟨rfl, rfl, rfl, rfl, rfl, rfl, rfl, rfl, rfl⟩
      · rw [if_neg hm]
        exact ih (i + 1) (by omega)

theorem writeComplete_scalars (st : St) (sec buf : Nat) :
    sameScalars st (afatfs_sdcardWriteComplete st sec buf) :=
  writeCompleteLoop_scalars st sec buf AFATFS_NUM_CACHE_SECTORS 0 (by omega)

theorem markDirty_scalars (st : St) (bufIdx : Nat) :
    sameScalars st (afatfs_cacheSectorMarkDirty st bufIdx) := by
  unfold afatfs_cacheSectorMarkDirty
  by_cases hd : (st.slot bufIdx).state ≠ CacheState.dirty
  · rw [if_pos hd]
    exact ⟨rfl, rfl, rfl, rfl, rfl, rfl, rfl, rfl, rfl⟩
  · rw [if_neg hd]
    exact sameScalars_refl st

theorem fileUnlock_scalars (st : St) (file : File) :
    sameScalars st (afatfs_fileUnlockCacheSector st file).2 := by
  unfold afatfs_fileUnlockCacheSector
  cases file.lockedCacheIndex with
  | none => exact sameScalars_refl st
  | some i => exact ⟨rfl, rfl, rfl, rfl, rfl, rfl, rfl, rfl, rfl⟩

theorem assert_scalars (st : St) (c : Bool) :
    sameScalars st ((afatfs_assert st c).2) := by
  cases c
  · exact ⟨rfl, rfl, rfl, rfl, rfl, rfl, rfl, rfl, rfl⟩
  · exact sameScalars_refl st

theorem setMem_scalars (st : St) (buf idx v : Nat) :
    sameScalars st (st.setMem buf idx v) :=
  ⟨rfl, rfl, rfl, rfl, rfl, rfl, rfl, rfl, rfl⟩

theorem FATGetNextCluster_scalars (geo : Geo) (st : St) (fatIndex cluster : Nat) :
    sameScalars st ((afatfs_FATGetNextCluster geo st fatIndex cluster).2.2) := by
  unfold afatfs_FATGetNextCluster
  dsimp only
  rcases hcs : afatfs_cacheSector geo st
      (afatfs_fatSectorToPhysical geo fatIndex
        (afatfs_getFATPositionForCluster geo cluster).1)
      ⟨true, false, false, false, false, false⟩ with ⟨status, buf, st1⟩
  have hm := cacheSector_scalars geo st
    (afatfs_fatSectorToPhysical geo fatIndex
      (afatfs_getFATPositionForCluster geo cluster).1)
    ⟨true, false, false, false, false, false⟩
  rw [hcs] at hm
  cases status with
  | inProgress => exact hm
  | failure => exact hm
  | success =>
      by_cases hft : geo.filesystemType = FatType.fat16
      · simp only [hft, if_pos]
        exact hm
      · simp only [if_neg hft]
        exact hm

theorem FATSetNextCluster_scalars (geo : Geo) (st : St)
    (startCluster nextCluster : Nat) :
    sameScalars st ((afatfs_FATSetNextCluster geo st startCluster nextCluster).2) := by
  unfold afatfs_FATSetNextCluster
  dsimp only
  rcases hcs : afatfs_cacheSector geo st
      (afatfs_fatSectorToPhysical geo 0
        (afatfs_getFATPositionForCluster geo startCluster).1)
      ⟨true, true, false, false, false, false⟩ with ⟨status, buf, st1⟩
  have hm := cacheSector_scalars geo st
    (afatfs_fatSectorToPhysical geo 0
      (afatfs_getFATPositionForCluster geo startCluster).1)
    ⟨true, true, false, false, false, false⟩
  rw [hcs] at hm
  cases status with
  | inProgress => exact hm
  | failure => exact hm
  | success =>
      by_cases hft : geo.filesystemType = FatType.fat16
      · simp only [hft, if_pos]
        exact sameScalars_trans hm (setMem_scalars st1 buf _ _)
      · simp only [if_neg hft]
        exact sameScalars_trans hm (setMem_scalars st1 buf _ _)

theorem findClusterLoop_scalars (geo : Geo) (hspc : 0 < geo.sectorsPerCluster)
    (lookingForFree : Bool) (jump : Nat) (hj : 0 < jump)
    (hje : jump ≤ afatfs_fatEntriesPerSector geo) :
    ∀ n (st : St) cluster fsi fei r c2 (st2 : St),
      geo.numClusters + FAT_SMALLEST_LEGAL_CLUSTER_NUMBER
        + 2 * afatfs_fatEntriesPerSector geo - cluster ≤ n →
      findClusterLoop geo hspc lookingForFree jump hj hje st cluster fsi fei
        = (r, c2, st2) →
      sameScalars st st2 := by
  intro n
  induction n with
  | zero =>
      intro st cluster fsi fei r c2 st2 hn h
      have heps := fatEntriesPerSector_ge_two geo
      unfold findClusterLoop at h
      rw [if_neg (by omega)] at h
      have hst : st = st2 := congrArg (fun p => p.2.2) h
      rw [← hst]
      exact sameScalars_refl st
  | succ n ih =>
      intro st cluster fsi fei r c2 st2 hn h
      have heps := fatEntriesPerSector_ge_two geo
      by_cases hlt : cluster < geo.numClusters + FAT_SMALLEST_LEGAL_CLUSTER_NUMBER
      case neg =>
        unfold findClusterLoop at h
        rw [if_neg hlt] at h
        have hst : st = st2 := congrArg (fun p => p.2.2) h
        rw [← hst]
        exact sameScalars_refl st
      case pos =>
      unfold findClusterLoop at h
      rw [if_pos hlt] at h
      by_cases hskip : st.freeFile.directoryEntry.fileSize > 0
        ∧ cluster = freeFileStartAdd st
      · rw [if_pos hskip] at h
        have hcs : 0 < afatfs_clusterSize geo := clusterSize_pos geo hspc
        have h1 : 1 ≤ (st.freeFile.directoryEntry.fileSize + afatfs_clusterSize geo - 1)
            / afatfs_clusterSize geo := by
          rw [Nat.le_div_iff_mul_le hcs]
          omega
        have h2 := roundUpTo_ge
          (cluster + (st.freeFile.directoryEntry.fileSize + afatfs_clusterSize geo - 1)
            / afatfs_clusterSize geo) jump
        exact ih st _ fsi fei r c2 st2 (by omega) h
      · rw [if_neg hskip] at h
        rcases hcs2 : afatfs_cacheSector geo st (afatfs_fatSectorToPhysical geo 0 fsi)
          ⟨true, false, false, false, true, false⟩ with ⟨status, buf, st1⟩
        have hm := cacheSector_scalars geo st (afatfs_fatSectorToPhysical geo 0 fsi)
          ⟨true, false, false, false, true, false⟩
        rw [hcs2] at hm
        rw [hcs2] at h
        cases status with
        | inProgress =>
            have hst : st1 = st2 := congrArg (fun p => p.2.2) h
            rw [← hst]
            exact hm
        | failure =>
            have hst : st1 = st2 := congrArg (fun p => p.2.2) h
            rw [← hst]
            exact hm
        | success =>
            dsimp only at h
            rcases hscan : findClusterScanSector geo st1 lookingForFree jump hj buf
              cluster fei with ⟨r0, c3⟩ | c3
            · rw [hscan] at h
              have hst : st1 = st2 := congrArg (fun p => p.2.2) h
              rw [← hst]
              exact hm
            · rw [hscan] at h
              have h3 := findClusterScanSector_nextSector_lt geo st1 lookingForFree
                jump hj buf (afatfs_fatEntriesPerSector geo - fei) cluster fei c3
                (le_refl _) hscan
              exact sameScalars_trans hm
                (ih st1 c3 (fsi + 1) 0 r c2 st2 (by omega) h)

theorem findClusterWithCondition_scalars (geo : Geo)
    (hspc : 0 < geo.sectorsPerCluster) (st : St)
    (condition : ClusterSearchCondition) (cluster : Nat) :
    sameScalars st
      ((afatfs_findClusterWithCondition geo hspc st condition cluster).2.2) := by
  have heps := fatEntriesPerSector_ge_two geo
  cases condition with
  | freeSectorAtBeginningOfFatSector =>
      unfold afatfs_findClusterWithCondition
      dsimp only
      rcases ha : afatfs_assert st
          (decide ((afatfs_getFATPositionForCluster geo cluster).2 = 0))
        with ⟨b, st1⟩
      have hm := assert_scalars st
        (decide ((afatfs_getFATPositionForCluster geo cluster).2 = 0))
      rw [ha] at hm
      cases b with
      | false => exact hm
      | true =>
          dsimp only
          rcases hl : findClusterLoop geo hspc true (afatfs_fatEntriesPerSector geo)
              (fatEntriesPerSector_pos geo) (le_refl _) st1 cluster
              (afatfs_getFATPositionForCluster geo cluster).1
              (afatfs_getFATPositionForCluster geo cluster).2
            with ⟨r, c2, st2⟩
          exact sameScalars_trans hm
            (findClusterLoop_scalars geo hspc true (afatfs_fatEntriesPerSector geo)
              (fatEntriesPerSector_pos geo) (le_refl _)
              (geo.numClusters + FAT_SMALLEST_LEGAL_CLUSTER_NUMBER
                + 2 * afatfs_fatEntriesPerSector geo) st1 cluster _ _ r c2 st2
              (by omega) hl)
  | freeSector =>
      unfold afatfs_findClusterWithCondition
      dsimp only
      rcases hl : findClusterLoop geo hspc true 1 one_pos
          (fatEntriesPerSector_pos geo) st cluster
          (afatfs_getFATPositionForCluster geo cluster).1
          (afatfs_getFATPositionForCluster geo cluster).2
        with ⟨r, c2, st2⟩
      exact findClusterLoop_scalars geo hspc true 1 one_pos
        (fatEntriesPerSector_pos geo)
        (geo.numClusters + FAT_SMALLEST_LEGAL_CLUSTER_NUMBER
          + 2 * afatfs_fatEntriesPerSector geo) st cluster _ _ r c2 st2
        (by omega) hl
  | occupiedSector =>
      unfold afatfs_findClusterWithCondition
      dsimp only
      rcases hl : findClusterLoop geo hspc false 1 one_pos
          (fatEntriesPerSector_pos geo) st cluster
          (afatfs_getFATPositionForCluster geo cluster).1
          (afatfs_getFATPositionForCluster geo cluster).2
        with ⟨r, c2, st2⟩
      exact findClusterLoop_scalars geo hspc false 1 one_pos
        (fatEntriesPerSector_pos geo)
        (geo.numClusters + FAT_SMALLEST_LEGAL_CLUSTER_NUMBER
          + 2 * afatfs_fatEntriesPerSector geo) st cluster _ _ r c2 st2
        (by omega) hl

theorem writeFatEntriesLoop_scalars (buf width : Nat) :
    ∀ n i count nextCluster (st : St), count - i ≤ n →
    sameScalars st ((writeFatEntriesLoop buf width st i count nextCluster).1) := by
  intro n
  induction n with
  | zero =>
      intro i count nc st hn
      unfold writeFatEntriesLoop
      rw [if_neg (by omega)]
      exact sameScalars_refl st
  | succ n ih =>
      intro i count nc st hn
      by_cases hi : i < count
      · unfold writeFatEntriesLoop
        rw [if_pos hi]
        exact sameScalars_trans (setMem_scalars st buf i _)
          (ih (i + 1) count (nc + 1) _ (by omega))
      · unfold writeFatEntriesLoop
        rw [if_neg hi]
        exact sameScalars_refl st

theorem chainLoop_scalars (geo : Geo) (endCluster : Nat) :
    ∀ n startCluster (st : St) nextCluster fatPhysicalSector,
    endCluster - startCluster ≤ n →
    sameScalars st
      ((FATWriteSuperclusterChainLoop geo st startCluster endCluster nextCluster
        fatPhysicalSector).2.2) := by
  intro n
  induction n with
  | zero =>
      intro s st nc fps hn
      unfold FATWriteSuperclusterChainLoop
      rw [if_neg (by omega)]
      exact sameScalars_refl st
  | succ n ih =>
      intro s st nc fps hn
      by_cases hslt : s < endCluster
      case neg =>
        unfold FATWriteSuperclusterChainLoop
        rw [if_neg hslt]
        exact sameScalars_refl st
      case pos =>
      rcases hcs : afatfs_cacheSector geo st fps
        ⟨false, true, false, false, true, false⟩ with ⟨status, buf0, st1⟩
      have hm := cacheSector_scalars geo st fps ⟨false, true, false, false, true, false⟩
      rw [hcs] at hm
      cases status with
      | inProgress =>
          rw [chainLoop_eq_stall geo st s endCluster nc fps OpStatus.inProgress
            buf0 st1 hslt hcs (by simp)]
          exact hm
      | failure =>
          rw [chainLoop_eq_stall geo st s endCluster nc fps OpStatus.failure
            buf0 st1 hslt hcs (by simp)]
          exact hm
      | success =>
          rw [chainLoop_eq_success geo st s endCluster nc fps buf0 st1 hslt hcs]
          have hwf := writeFatEntriesLoop_scalars buf0
            (if geo.filesystemType = FatType.fat16 then 2 ^ 16 else 2 ^ 32)
            (chainEntriesToWrite geo s endCluster) 0
            (chainEntriesToWrite geo s endCluster) nc st1 (by omega)
          by_cases hterm : s + chainEntriesToWrite geo s endCluster = endCluster - 1
          · rw [if_pos hterm]
            by_cases hft : geo.filesystemType = FatType.fat16
            · rw [if_pos hft]
              exact sameScalars_trans (sameScalars_trans hm hwf)
                (setMem_scalars _ buf0 _ _)
            · rw [if_neg hft]
              exact sameScalars_trans (sameScalars_trans hm hwf)
                (setMem_scalars _ buf0 _ _)
          · rw [if_neg hterm]
            have hetwpos : 1 ≤ chainEntriesToWrite geo s endCluster := by
              rcases Nat.lt_or_ge (s + 1) endCluster with h2 | h2
              · exact chainEntriesToWrite_pos geo s endCluster h2
              · exfalso
                apply hterm
                have he1 : endCluster = s + 1 := by omega
                have : chainEntriesToWrite geo s endCluster = 0 := by
                  unfold chainEntriesToWrite
                  split <;> omega
                omega
            exact sameScalars_trans (sameScalars_trans hm hwf)
              (ih (s + chainEntriesToWrite geo s endCluster) _ _ (fps + 1)
                (by omega))

theorem FATWriteSuperclusterChain_scalars (geo : Geo) (st : St)
    (startCluster endCluster : Nat) :
    sameScalars st
      ((afatfs_FATWriteSuperclusterChain geo st startCluster endCluster).2.2) := by
  unfold afatfs_FATWriteSuperclusterChain
  dsimp only
  rcases ha : afatfs_assert st
      (decide ((afatfs_getFATPositionForCluster geo startCluster).2 = 0))
    with ⟨b, st1⟩
  have hm := assert_scalars st
    (decide ((afatfs_getFATPositionForCluster geo startCluster).2 = 0))
  rw [ha] at hm
  exact sameScalars_trans hm
    (chainLoop_scalars geo endCluster (endCluster - startCluster) startCluster st1
      _ _ (le_refl _))

theorem saveDirectoryEntry_scalars (geo : Geo) (st : St) (file : File) :
    sameScalars st ((afatfs_saveDirectoryEntry geo st file).2.2) := by
  unfold afatfs_saveDirectoryEntry
  dsimp only
  rcases hcs : afatfs_cacheSector geo st
      (afatfs_directorySectorToPhysical geo file.directoryEntryPos.clusterNumber
        file.directoryEntryPos.sectorNumber)
      ⟨true, true, false, false, false, false⟩ with ⟨status, buf, st1⟩
  have hm := cacheSector_scalars geo st
    (afatfs_directorySectorToPhysical geo file.directoryEntryPos.clusterNumber
      file.directoryEntryPos.sectorNumber)
    ⟨true, true, false, false, false, false⟩
  rw [hcs] at hm
  cases status with
  | inProgress => exact hm
  | failure => exact hm
  | success =>
      dsimp only
      by_cases hdir : file.type = FileType.directory
      · rw [if_pos hdir]
        dsimp only
        rcases ha : afatfs_assert st1
            (decide (file.directoryEntryPos.entryIndex ≥ 0)) with ⟨b, st2⟩
        have hm2 := assert_scalars st1
          (decide (file.directoryEntryPos.entryIndex ≥ 0))
        rw [ha] at hm2
        cases b with
        | true => exact sameScalars_trans hm hm2
        | false => exact sameScalars_trans hm hm2
      · rw [if_neg hdir]
        rcases ha : afatfs_assert st1
            (decide (file.directoryEntryPos.entryIndex ≥ 0)) with ⟨b, st2⟩
        have hm2 := assert_scalars st1
          (decide (file.directoryEntryPos.entryIndex ≥ 0))
        rw [ha] at hm2
        cases b with
        | true => exact sameScalars_trans hm hm2
        | false => exact sameScalars_trans hm hm2

theorem fileGetNextCluster_scalars (geo : Geo) (st : St) (file : File)
    (currentCluster : Nat) :
    sameScalars st ((afatfs_fileGetNextCluster geo st file currentCluster).2.2) := by
  unfold afatfs_fileGetNextCluster
  by_cases hc : file.mode.contiguous = true
  · rw [if_pos hc]
    dsimp only
    by_cases h2 : currentCluster + 1 = freeFileStartOr st
    · rw [if_pos h2]
      exact sameScalars_refl st
    · rw [if_neg h2]
      exact sameScalars_refl st
  · rw [if_neg hc]
    exact FATGetNextCluster_scalars geo st 0 currentCluster

theorem fseekAtomicFinish_st (geo : Geo) (st : St) (file : File) (offset : Int) :
    (afatfs_fseekAtomicFinish geo st file offset).2.2 = st := by
  unfold afatfs_fseekAtomicFinish
  split <;> rfl

theorem fseekAtomic_scalars (geo : Geo) (st : St) (file : File) (offset : Int) :
    sameScalars st ((afatfs_fseekAtomic geo st file offset).2.2) := by
  unfold afatfs_fseekAtomic
  dsimp only
  by_cases h1 : u32AddInt (file.cursorOffset % AFATFS_SECTOR_SIZE) offset
      < AFATFS_SECTOR_SIZE
  · rw [if_pos h1]
    exact sameScalars_refl st
  · rw [if_neg h1]
    rcases hu : afatfs_fileUnlockCacheSector st file with ⟨file1, st1⟩
    have hm := fileUnlock_scalars st file
    rw [hu] at hm
    by_cases h2 : file1.type = FileType.fat16Root
    · rw [if_pos h2]
      exact hm
    · rw [if_neg h2]
      dsimp only
      by_cases h3 : offset > ((afatfs_clusterSize geo : Nat) : Int)
          ∨ offset < -((afatfs_byteIndexInCluster geo file1.cursorOffset : Nat) : Int)
      · rw [if_pos h3]
        exact hm
      · rw [if_neg h3]
        by_cases h4 : u32AddInt (afatfs_byteIndexInCluster geo file1.cursorOffset)
            offset ≥ afatfs_clusterSize geo
        · rw [if_pos h4]
          rcases hn : afatfs_fileGetNextCluster geo st1 file1 file1.cursorCluster
            with ⟨status, nextCluster, st2⟩
          have hm2 := fileGetNextCluster_scalars geo st1 file1 file1.cursorCluster
          rw [hn] at hm2
          cases status with
          | inProgress => exact sameScalars_trans hm hm2
          | failure => exact sameScalars_trans hm hm2
          | success =>
              dsimp only
              rw [fseekAtomicFinish_st]
              exact sameScalars_trans hm hm2
        · rw [if_neg h4]
          rw [fseekAtomicFinish_st]
          exact hm

theorem fseekInternal_scalars (geo : Geo) (st : St) (file : File) (offset : Nat) :
    sameScalars st ((afatfs_fseekInternal geo st file offset).2.2) := by
  unfold afatfs_fseekInternal
  rcases ha : afatfs_fseekAtomic geo st file (offset : Int) with ⟨b, file1, st1⟩
  have hm := fseekAtomic_scalars geo st file (offset : Int)
  rw [ha] at hm
  cases b with
  | true => exact hm
  | false =>
      dsimp only
      by_cases hb : afatfs_fileIsBusy file1 = true
      · rw [if_pos hb]
        exact hm
      · rw [if_neg hb]
        exact hm

theorem fseekSet_scalars (geo : Geo) (st : St) (file : File) (offset : Int) :
    sameScalars st ((afatfs_fseekSet geo st file offset).2.2) := by
  unfold afatfs_fseekSet
  rcases hu : afatfs_fileUnlockCacheSector st file with ⟨file1, st1⟩
  have hm := fileUnlock_scalars st file
  rw [hu] at hm
  exact sameScalars_trans hm (fseekInternal_scalars geo st1 _ _)

theorem fseek_scalars (geo : Geo) (st : St) (file : File) (offset : Int)
    (whence : Whence) :
    sameScalars st ((afatfs_fseek geo st file offset whence).2.2) := by
  unfold afatfs_fseek
  cases whence with
  | cur =>
      dsimp only
      by_cases ho : offset ≥ 0
      · rw [if_pos ho]
        exact fseekInternal_scalars geo st file _
      · rw [if_neg ho]
        exact fseekSet_scalars geo st file _
  | seekEnd => exact fseekSet_scalars geo st file _
  | set => exact fseekSet_scalars geo st file _

theorem fileLockCursorSectorFetch_scalars (geo : Geo) (st : St) (file : File) :
    sameScalars st ((fileLockCursorSectorFetch geo st file).2.2) := by
  unfold fileLockCursorSectorFetch
  dsimp only
  rcases hcs : afatfs_cacheSector geo st (afatfs_fileGetCursorPhysicalSector geo file)
      ⟨decide (file.cursorOffset % AFATFS_SECTOR_SIZE > 0
        ∨ (file.cursorOffset &&& (2 ^ 32 - AFATFS_SECTOR_SIZE)) + AFATFS_SECTOR_SIZE
            < file.directoryEntry.fileSize), true, true, false, false, false⟩
    with ⟨status, idx, st1⟩
  have hm := cacheSector_scalars geo st (afatfs_fileGetCursorPhysicalSector geo file)
    ⟨decide (file.cursorOffset % AFATFS_SECTOR_SIZE > 0
      ∨ (file.cursorOffset &&& (2 ^ 32 - AFATFS_SECTOR_SIZE)) + AFATFS_SECTOR_SIZE
          < file.directoryEntry.fileSize), true, true, false, false, false⟩
  rw [hcs] at hm
  cases status with
  | inProgress => exact hm
  | failure => exact hm
  | success => exact hm

/-- Monotonicity of the filesystemFull flag between two states: once set,
still set. -/
def keepsFull (st st2 : St) : Prop :=
  st.filesystemFull = true → st2.filesystemFull = true

theorem keepsFull_refl (st : St) : keepsFull st st := fun h => h

theorem keepsFull_trans {a b c : St} (h1 : keepsFull a b) (h2 : keepsFull b c) :
    keepsFull a c := fun h => h2 (h1 h)

theorem keepsFull_of_sameScalars {a b : St} (h : sameScalars a b) :
    keepsFull a b := fun hf => h.1.trans hf

theorem keepsFull_congrFull {a b c : St} (h : keepsFull b c)
    (hab : b.filesystemFull = a.filesystemFull) : keepsFull a c :=
  fun hf => h (hab.trans hf)

theorem appendRegularFreeClusterMachine_keepsFull (geo : Geo)
    (hspc : 0 < geo.sectorsPerCluster) :
    ∀ n (st : St) (file : File) (opS : AppendFreeClusterState),
      7 - opS.phase ≤ n →
      keepsFull st
        ((appendRegularFreeClusterMachine geo hspc st file opS).2.2.2) := by
  intro n
  induction n with
  | zero =>
      intro st file opS hn
      unfold appendRegularFreeClusterMachine
      rw [dif_neg (by unfold PHASE_AFC_INIT; omega),
        dif_neg (by unfold PHASE_AFC_FIND_FREESPACE; omega),
        dif_neg (by unfold PHASE_AFC_UPDATE_FAT1; omega),
        dif_neg (by unfold PHASE_AFC_UPDATE_FILE_DIRECTORY; omega),
        dif_neg (by unfold PHASE_AFC_UPDATE_FAT2; omega),
        dif_neg (by unfold PHASE_AFC_COMPLETE; omega),
        dif_neg (by unfold PHASE_AFC_FAILURE; omega)]
      exact keepsFull_refl st
  | succ n ih =>
      intro st file opS hn
      unfold appendRegularFreeClusterMachine
      by_cases h0 : opS.phase = PHASE_AFC_INIT
      · rw [dif_pos h0]
        exact ih st file _
          (by simp only [PHASE_AFC_INIT, PHASE_AFC_FIND_FREESPACE] at *; omega)
      · rw [dif_neg h0]
        by_cases h1 : opS.phase = PHASE_AFC_FIND_FREESPACE
        · rw [dif_pos h1]
          rcases hf : afatfs_findClusterWithCondition geo hspc st
              ClusterSearchCondition.freeSector opS.searchCluster with ⟨r, c, st1⟩
          have hm := findClusterWithCondition_scalars geo hspc st
            ClusterSearchCondition.freeSector opS.searchCluster
          rw [hf] at hm
          have hkf : keepsFull st st1 := keepsFull_of_sameScalars hm
          cases r with
          | inProgress => exact hkf
          | found =>
              dsimp only
              exact keepsFull_trans hkf
                (keepsFull_congrFull
                  (ih _ _ _
                    (by simp only [PHASE_AFC_FIND_FREESPACE,
                      PHASE_AFC_UPDATE_FAT1] at *; omega)) rfl)
          | fatal =>
              exact keepsFull_trans hkf
                (ih _ _ _
                  (by simp only [PHASE_AFC_FIND_FREESPACE, PHASE_AFC_FAILURE] at *
                      omega))
          | notFound =>
              exact keepsFull_trans hkf
                (ih _ _ _
                  (by simp only [PHASE_AFC_FIND_FREESPACE, PHASE_AFC_FAILURE] at *
                      omega))
        · rw [dif_neg h1]
          by_cases h2 : opS.phase = PHASE_AFC_UPDATE_FAT1
          · rw [dif_pos h2]
            rcases hs : afatfs_FATSetNextCluster geo st opS.searchCluster 0xFFFFFFFF
              with ⟨r, st1⟩
            have hm := FATSetNextCluster_scalars geo st opS.searchCluster 0xFFFFFFFF
            rw [hs] at hm
            have hkf : keepsFull st st1 := keepsFull_of_sameScalars hm
            cases r with
            | inProgress => exact hkf
            | failure => exact hkf
            | success =>
                exact keepsFull_trans hkf
                  (ih _ _ _
                    (by simp only [PHASE_AFC_UPDATE_FAT1,
                          PHASE_AFC_UPDATE_FILE_DIRECTORY, PHASE_AFC_UPDATE_FAT2] at *
                        split <;> omega))
          · rw [dif_neg h2]
            by_cases h3 : opS.phase = PHASE_AFC_UPDATE_FILE_DIRECTORY
            · rw [dif_pos h3]
              rcases hd : afatfs_saveDirectoryEntry geo st file with ⟨r, f1, st1⟩
              have hm := saveDirectoryEntry_scalars geo st file
              rw [hd] at hm
              have hkf : keepsFull st st1 := keepsFull_of_sameScalars hm
              cases r with
              | inProgress => exact hkf
              | failure => exact hkf
              | success =>
                  exact keepsFull_trans hkf
                    (ih _ _ _
                      (by simp only [PHASE_AFC_UPDATE_FILE_DIRECTORY,
                            PHASE_AFC_COMPLETE] at *
                          omega))
            · rw [dif_neg h3]
              by_cases h4 : opS.phase = PHASE_AFC_UPDATE_FAT2
              · rw [dif_pos h4]
                rcases hs : afatfs_FATSetNextCluster geo st opS.previousCluster
                  opS.searchCluster with ⟨r, st1⟩
                have hm := FATSetNextCluster_scalars geo st opS.previousCluster
                  opS.searchCluster
                rw [hs] at hm
                have hkf : keepsFull st st1 := keepsFull_of_sameScalars hm
                cases r with
                | inProgress => exact hkf
                | failure => exact hkf
                | success =>
                    exact keepsFull_trans hkf
                      (ih _ _ _
                        (by simp only [PHASE_AFC_UPDATE_FAT2,
                              PHASE_AFC_COMPLETE] at *
                            omega))
              · rw [dif_neg h4]
                by_cases h5 : opS.phase = PHASE_AFC_COMPLETE
                · rw [dif_pos h5]
                  exact keepsFull_refl st
                · rw [dif_neg h5]
                  by_cases h6 : opS.phase = PHASE_AFC_FAILURE
                  · rw [dif_pos h6]
                    exact fun _ => rfl
                  · rw [dif_neg h6]
                    exact keepsFull_refl st

theorem appendRegularFreeClusterContinue_keepsFull (geo : Geo)
    (hspc : 0 < geo.sectorsPerCluster) (st : St) (file : File) :
    keepsFull st ((afatfs_appendRegularFreeClusterContinue geo hspc st file).2.2) := by
  unfold afatfs_appendRegularFreeClusterContinue
  rcases hmach : appendRegularFreeClusterMachine geo hspc st file
    file.operation.getAppendFreeCluster with ⟨status, opS, f2, st2⟩
  have h := appendRegularFreeClusterMachine_keepsFull geo hspc 7 st file
    file.operation.getAppendFreeCluster (by omega)
  rw [hmach] at h
  exact h

theorem appendRegularFreeCluster_keepsFull (geo : Geo)
    (hspc : 0 < geo.sectorsPerCluster) (st : St) (file : File) :
    keepsFull st ((afatfs_appendRegularFreeCluster geo hspc st file).2.2) := by
  unfold afatfs_appendRegularFreeCluster
  by_cases hop : (match file.operation with
      | FileOperation.appendFreeCluster _ => true
      | _ => false) = true
  · rw [if_pos hop]
    exact keepsFull_refl st
  · rw [if_neg hop]
    by_cases hfb : st.filesystemFull = true ∨ afatfs_fileIsBusy file = true
    · rw [if_pos hfb]
      exact keepsFull_refl st
    · rw [if_neg hfb]
      dsimp only
      rcases hc : afatfs_appendRegularFreeClusterContinue geo hspc st { file with operation := FileOperation.appendFreeCluster (afatfs_appendRegularFreeClusterInitOperationState file.cursorPreviousCluster) } with ⟨status, f2, st2⟩
      have h := appendRegularFreeClusterContinue_keepsFull geo hspc st { file with operation := FileOperation.appendFreeCluster (afatfs_appendRegularFreeClusterInitOperationState file.cursorPreviousCluster) }
      rw [hc] at h
      by_cases hs : status ≠ OpStatus.inProgress
      · rw [if_pos hs]
        exact h
      · rw [if_neg hs]
        exact h

theorem appendSuperclusterMachine_keepsFull (geo : Geo) :
    ∀ n (st : St) (file : File) (phase previousCluster frs fre : Nat),
      4 - phase ≤ n →
      keepsFull st
        ((appendSuperclusterMachine geo st file phase previousCluster
          frs fre).2.2.2.2.2) := by
  intro n
  induction n with
  | zero =>
      intro st file phase previousCluster frs fre hn
      unfold appendSuperclusterMachine
      rw [dif_neg (by unfold PHASE_ASC_INIT; omega),
        dif_neg (by unfold PHASE_ASC_UPDATE_FAT; omega),
        dif_neg (by unfold PHASE_ASC_UPDATE_FREEFILE_DIRECTORY; omega),
        dif_neg (by unfold PHASE_ASC_UPDATE_FILE_DIRECTORY; omega)]
      exact keepsFull_refl st
  | succ n ih =>
      intro st file phase previousCluster frs fre hn
      unfold appendSuperclusterMachine
      by_cases h0 : phase = PHASE_ASC_INIT
      · rw [dif_pos h0]
        exact keepsFull_congrFull
          (ih _ _ _ _ _ _
            (by simp only [PHASE_ASC_INIT, PHASE_ASC_UPDATE_FAT] at *; omega)) rfl
      · rw [dif_neg h0]
        by_cases h1 : phase = PHASE_ASC_UPDATE_FAT
        · rw [dif_pos h1]
          rcases hw : afatfs_FATWriteSuperclusterChain geo st frs fre
            with ⟨r, s2, st1⟩
          have hm := FATWriteSuperclusterChain_scalars geo st frs fre
          rw [hw] at hm
          have hkf : keepsFull st st1 := keepsFull_of_sameScalars hm
          cases r with
          | inProgress => exact hkf
          | failure => exact hkf
          | success =>
              exact keepsFull_trans hkf
                (ih _ _ _ _ _ _
                  (by simp only [PHASE_ASC_UPDATE_FAT,
                        PHASE_ASC_UPDATE_FREEFILE_DIRECTORY] at *
                      omega))
        · rw [dif_neg h1]
          by_cases h2 : phase = PHASE_ASC_UPDATE_FREEFILE_DIRECTORY
          · rw [dif_pos h2]
            rcases hd : afatfs_saveDirectoryEntry geo st st.freeFile
              with ⟨r, ff, st1⟩
            have hm := saveDirectoryEntry_scalars geo st st.freeFile
            rw [hd] at hm
            have hkf : keepsFull st st1 := keepsFull_of_sameScalars hm
            cases r with
            | inProgress => exact keepsFull_trans hkf (fun h => h)
            | failure => exact keepsFull_trans hkf (fun h => h)
            | success =>
                dsimp only
                by_cases hpc : previousCluster = 0
                · rw [if_pos hpc]
                  exact keepsFull_trans hkf
                    (keepsFull_congrFull
                      (ih _ _ _ _ _ _
                        (by simp only [PHASE_ASC_UPDATE_FREEFILE_DIRECTORY,
                              PHASE_ASC_UPDATE_FILE_DIRECTORY] at *
                            omega)) rfl)
                · rw [if_neg hpc]
                  exact keepsFull_trans hkf (fun h => h)
          · rw [dif_neg h2]
            by_cases h3 : phase = PHASE_ASC_UPDATE_FILE_DIRECTORY
            · rw [dif_pos h3]
              rcases hd : afatfs_saveDirectoryEntry geo st file with ⟨r, f1, st1⟩
              have hm := saveDirectoryEntry_scalars geo st file
              rw [hd] at hm
              exact keepsFull_of_sameScalars hm
            · rw [dif_neg h3]
              exact keepsFull_refl st

theorem appendSuperclusterContinue_keepsFull (geo : Geo) (st : St) (file : File) :
    keepsFull st ((afatfs_appendSuperclusterContinue geo st file).2.2) := by
  unfold afatfs_appendSuperclusterContinue
  cases hop : file.operation
  case appendSupercluster phase previousCluster frs fre =>
    dsimp only
    rcases hmach : appendSuperclusterMachine geo st file phase previousCluster frs fre
      with ⟨status, p2, frs2, fre2, f2, st2⟩
    have h := appendSuperclusterMachine_keepsFull geo 4 st file phase
      previousCluster frs fre (by omega)
    rw [hmach] at h
    exact h
  all_goals exact keepsFull_refl st

theorem appendSupercluster_keepsFull (geo : Geo) (st : St) (file : File)
    (previousCluster : Nat) :
    keepsFull st ((afatfs_appendSupercluster geo st file previousCluster).2.2) := by
  unfold afatfs_appendSupercluster
  by_cases hop : (match file.operation with
      | FileOperation.appendSupercluster _ _ _ _ => true
      | _ => false) = true
  · rw [if_pos hop]
    exact keepsFull_refl st
  · rw [if_neg hop]
    dsimp only
    by_cases hguard : st.freeFile.directoryEntry.fileSize < afatfs_superClusterSize geo
    · rw [if_pos hguard]
      have hset : keepsFull st ({ st with filesystemFull := true } : St) :=
        fun _ => rfl
      by_cases hfb : ({ st with filesystemFull := true } : St).filesystemFull = true
          ∨ afatfs_fileIsBusy file = true
      · rw [if_pos hfb]
        exact hset
      · rw [if_neg hfb]
        rcases hc : afatfs_appendSuperclusterContinue geo ({ st with filesystemFull := true } : St) { file with operation := FileOperation.appendSupercluster PHASE_ASC_INIT previousCluster 0 0, cursorCluster := freeFileStartOr ({ st with filesystemFull := true } : St) } with ⟨status, f2, st2⟩
        have h := appendSuperclusterContinue_keepsFull geo ({ st with filesystemFull := true } : St) { file with operation := FileOperation.appendSupercluster PHASE_ASC_INIT previousCluster 0 0, cursorCluster := freeFileStartOr ({ st with filesystemFull := true } : St) }
        rw [hc] at h
        by_cases hs : status ≠ OpStatus.inProgress
        · rw [if_pos hs]
          exact keepsFull_trans hset h
        · rw [if_neg hs]
          exact keepsFull_trans hset h
    · rw [if_neg hguard]
      by_cases hfb : st.filesystemFull = true ∨ afatfs_fileIsBusy file = true
      · rw [if_pos hfb]
        exact keepsFull_refl st
      · rw [if_neg hfb]
        rcases hc : afatfs_appendSuperclusterContinue geo st { file with operation := FileOperation.appendSupercluster PHASE_ASC_INIT previousCluster 0 0, cursorCluster := freeFileStartOr st } with ⟨status, f2, st2⟩
        have h := appendSuperclusterContinue_keepsFull geo st { file with operation := FileOperation.appendSupercluster PHASE_ASC_INIT previousCluster 0 0, cursorCluster := freeFileStartOr st }
        rw [hc] at h
        by_cases hs : status ≠ OpStatus.inProgress
        · rw [if_pos hs]
          exact h
        · rw [if_neg hs]
          exact h

theorem appendFreeCluster_keepsFull (geo : Geo) (hspc : 0 < geo.sectorsPerCluster)
    (st : St) (file : File) :
    keepsFull st ((afatfs_appendFreeCluster geo hspc st file).2.2) := by
  unfold afatfs_appendFreeCluster
  by_cases hc : file.mode.contiguous = true
  · rw [if_pos hc]
    exact appendSupercluster_keepsFull geo st file file.cursorPreviousCluster
  · rw [if_neg hc]
    exact appendRegularFreeCluster_keepsFull geo hspc st file

theorem fileLockCursorSectorForWrite_keepsFull (geo : Geo)
    (hspc : 0 < geo.sectorsPerCluster) (st : St) (file : File) :
    keepsFull st ((afatfs_fileLockCursorSectorForWrite geo hspc st file).2.2) := by
  unfold afatfs_fileLockCursorSectorForWrite
  rcases hl : file.lockedCacheIndex with _ | lockedCacheIndex
  · dsimp only
    by_cases hend : afatfs_isEndOfAllocatedFile geo file = true
    · rw [if_pos hend]
      rcases ha : afatfs_appendFreeCluster geo hspc st file with ⟨r, f1, st1⟩
      have h1 := appendFreeCluster_keepsFull geo hspc st file
      rw [ha] at h1
      cases r with
      | inProgress => exact h1
      | failure => exact h1
      | success =>
          exact keepsFull_trans h1
            (keepsFull_of_sameScalars (fileLockCursorSectorFetch_scalars geo st1 f1))
    · rw [if_neg hend]
      exact keepsFull_of_sameScalars (fileLockCursorSectorFetch_scalars geo st file)
  · dsimp only
    rcases ha : afatfs_assert st
        (decide (afatfs_fileGetCursorPhysicalSector geo file
          = (st.slot lockedCacheIndex).sectorIndex)) with ⟨b, st1⟩
    have hm := assert_scalars st
      (decide (afatfs_fileGetCursorPhysicalSector geo file
        = (st.slot lockedCacheIndex).sectorIndex))
    rw [ha] at hm
    cases b with
    | false => exact keepsFull_of_sameScalars hm
    | true => exact keepsFull_of_sameScalars hm

theorem fwriteLoop_keepsFull (geo : Geo) (hspc : 0 < geo.sectorsPerCluster) :
    ∀ len (st : St) (file : File) cursorOffsetInSector
      (hcos : cursorOffsetInSector < AFATFS_SECTOR_SIZE) writtenBytes,
      keepsFull st
        ((afatfs_fwriteLoop geo hspc st file cursorOffsetInSector hcos len
          writtenBytes).2.2.2) := by
  intro len
  induction len using Nat.strong_induction_on with
  | _ len ih =>
      intro st file cursorOffsetInSector hcos writtenBytes
      unfold afatfs_fwriteLoop
      by_cases hlen : len > 0
      case neg =>
        rw [dif_neg hlen]
        exact keepsFull_refl st
      case pos =>
      rw [dif_pos hlen]
      dsimp only
      rcases hlk : afatfs_fileLockCursorSectorForWrite geo hspc st file
        with ⟨lockResult, f1, st1⟩
      have h1 := fileLockCursorSectorForWrite_keepsFull geo hspc st file
      rw [hlk] at h1
      cases lockResult with
      | none => exact h1
      | some buf =>
          dsimp only
          rcases hsk : afatfs_fseek geo st1 f1
              ((min (AFATFS_SECTOR_SIZE - cursorOffsetInSector) len : Nat) : Int)
              Whence.cur with ⟨r, f2, st2⟩
          have h2 := fseek_scalars geo st1 f1
            ((min (AFATFS_SECTOR_SIZE - cursorOffsetInSector) len : Nat) : Int)
            Whence.cur
          rw [hsk] at h2
          have hkf2 : keepsFull st st2 :=
            keepsFull_trans h1 (keepsFull_of_sameScalars h2)
          have hmin : 0 < min (AFATFS_SECTOR_SIZE - cursorOffsetInSector) len := by
            unfold AFATFS_SECTOR_SIZE at *
            omega
          cases r with
          | inProgress => exact hkf2
          | failure =>
              exact keepsFull_trans hkf2
                (ih _ (by omega) st2 f2 0 (by unfold AFATFS_SECTOR_SIZE; omega) _)
          | success =>
              exact keepsFull_trans hkf2
                (ih _ (by omega) st2 f2 0 (by unfold AFATFS_SECTOR_SIZE; omega) _)

theorem fwrite_keepsFull (geo : Geo) (hspc : 0 < geo.sectorsPerCluster)
    (st : St) (file : File) (len : Nat) :
    keepsFull st ((afatfs_fwrite geo hspc st file len).2.2) := by
  unfold afatfs_fwrite
  by_cases hmode : ((file.mode.append ∨ file.mode.write) = false)
  · rw [if_pos hmode]
    exact keepsFull_refl st
  · rw [if_neg hmode]
    by_cases hbusy : afatfs_fileIsBusy file = true
    · rw [if_pos hbusy]
      exact keepsFull_refl st
    · rw [if_neg hbusy]
      rcases hw : afatfs_fwriteLoop geo hspc st file
          (file.cursorOffset % AFATFS_SECTOR_SIZE)
          (by unfold AFATFS_SECTOR_SIZE; omega) len 0 with ⟨flag, written, f1, st1⟩
      have h := fwriteLoop_keepsFull geo hspc len st file
        (file.cursorOffset % AFATFS_SECTOR_SIZE)
        (by unfold AFATFS_SECTOR_SIZE; omega) 0
      rw [hw] at h
      cases flag with
      | true => exact h
      | false => exact h

theorem initContinueSaveDirEntry_keepsFull (geo : Geo) (st : St) :
    keepsFull st (afatfs_initContinueSaveDirEntry geo st) := by
  unfold afatfs_initContinueSaveDirEntry
  rcases hd : afatfs_saveDirectoryEntry geo st st.freeFile with ⟨r, ff, st1⟩
  have hm := saveDirectoryEntry_scalars geo st st.freeFile
  rw [hd] at hm
  have hkf : keepsFull st st1 := keepsFull_of_sameScalars hm
  cases r with
  | success => exact keepsFull_trans hkf (fun h => h)
  | failure => exact keepsFull_trans hkf (fun h => h)
  | inProgress => exact keepsFull_trans hkf (fun h => h)

theorem initContinueUpdateFat_keepsFull (geo : Geo) (st : St) :
    keepsFull st (afatfs_initContinueUpdateFat geo st) := by
  unfold afatfs_initContinueUpdateFat
  rcases hw : afatfs_FATWriteSuperclusterChain geo st st.freeSpaceFATStartCluster
    st.freeSpaceFATEndCluster with ⟨r, s2, st1⟩
  have hm := FATWriteSuperclusterChain_scalars geo st st.freeSpaceFATStartCluster
    st.freeSpaceFATEndCluster
  rw [hw] at hm
  have hkf : keepsFull st st1 := keepsFull_of_sameScalars hm
  cases r with
  | failure => exact keepsFull_trans hkf (fun h => h)
  | inProgress => exact keepsFull_trans hkf (fun h => h)
  | success =>
      dsimp only
      exact keepsFull_trans hkf
        (keepsFull_congrFull
          (initContinueSaveDirEntry_keepsFull geo _) rfl)

theorem initContinueFreefileFatSearchCompleted_keepsFull (geo : Geo) (st : St) :
    keepsFull st (afatfs_initContinueFreefileFatSearchCompleted geo st) := by
  unfold afatfs_initContinueFreefileFatSearchCompleted
  dsimp only
  by_cases hgap : st.freeSpaceSearch.bestGapLength > AFATFS_FREEFILE_LEAVE_CLUSTERS
  · rw [if_pos hgap]
    by_cases hbgl : (st.freeSpaceSearch.bestGapLength
        - AFATFS_FREEFILE_LEAVE_CLUSTERS) &&& (2 ^ 32 - afatfs_fatEntriesPerSector geo)
        > 0
    · rw [if_pos hbgl]
      exact keepsFull_congrFull (initContinueUpdateFat_keepsFull geo _) rfl
    · rw [if_neg hbgl]
      exact keepsFull_congrFull (initContinueSaveDirEntry_keepsFull geo _) rfl
  · rw [if_neg hgap]
    exact keepsFull_congrFull (initContinueSaveDirEntry_keepsFull geo _) rfl

/-- C9: the filesystemFull flag is sticky.  Once it is true, every
modelled operation of the filesystem leaves it true: the cache layer
(sector fetch, flush, dirty marking, unlock, block-device completions),
the FAT layer (entry read/write, free-cluster search, supercluster chain
write, directory-entry save), seeking, writing, all three append paths
(which are where the flag is set: the regular append's FAILURE phase and
the supercluster append's too-small-freefile guard), the cursor-sector
lock, and the freefile-initialisation tail.  Only tearing the state down
(re-initialising the St value wholesale) can reset it. -/
theorem filesystemFull_sticky (geo : Geo) (hspc : 0 < geo.sectorsPerCluster)
    (st : St) (h : st.filesystemFull = true) :
    (∀ S flags, ((afatfs_cacheSector geo st S flags).2.2).filesystemFull = true)
    ∧ ((afatfs_flush st).2).filesystemFull = true
    ∧ (∀ bufIdx, (afatfs_cacheSectorMarkDirty st bufIdx).filesystemFull = true)
    ∧ (∀ file, ((afatfs_fileUnlockCacheSector st file).2).filesystemFull = true)
    ∧ (∀ S buf, (afatfs_sdcardReadComplete st S buf).filesystemFull = true)
    ∧ (∀ S buf, (afatfs_sdcardWriteComplete st S buf).filesystemFull = true)
    ∧ (∀ fatIndex cluster,
        ((afatfs_FATGetNextCluster geo st fatIndex cluster).2.2).filesystemFull = true)
    ∧ (∀ s nc, ((afatfs_FATSetNextCluster geo st s nc).2).filesystemFull = true)
    ∧ (∀ condition cluster,
        ((afatfs_findClusterWithCondition geo hspc st condition
          cluster).2.2).filesystemFull = true)
    ∧ (∀ s e,
        ((afatfs_FATWriteSuperclusterChain geo st s e).2.2).filesystemFull = true)
    ∧ (∀ file, ((afatfs_saveDirectoryEntry geo st file).2.2).filesystemFull = true)
    ∧ (∀ file c,
        ((afatfs_fileGetNextCluster geo st file c).2.2).filesystemFull = true)
    ∧ (∀ file offset whence,
        ((afatfs_fseek geo st file offset whence).2.2).filesystemFull = true)
    ∧ (∀ file len, ((afatfs_fwrite geo hspc st file len).2.2).filesystemFull = true)
    ∧ (∀ file,
        ((afatfs_fileLockCursorSectorForWrite geo hspc st
          file).2.2).filesystemFull = true)
    ∧ (∀ file,
        ((afatfs_appendRegularFreeCluster geo hspc st file).2.2).filesystemFull = true)
    ∧ (∀ file previousCluster,
        ((afatfs_appendSupercluster geo st file
          previousCluster).2.2).filesystemFull = true)
    ∧ (∀ file, ((afatfs_appendFreeCluster geo hspc st file).2.2).filesystemFull = true)
    ∧ (afatfs_initContinueSaveDirEntry geo st).filesystemFull = true
    ∧ (afatfs_initContinueUpdateFat geo st).filesystemFull = true
    ∧ (afatfs_initContinueFreefileFatSearchCompleted geo st).filesystemFull = true := by
  refine ⟨?_, ?_, ?_, ?_, ?_, ?_, ?_, ?_, ?_, ?_, ?_, ?_, ?_, ?_, ?_, ?_, ?_, ?_,
    ?_, ?_, ?_⟩
  · intro S flags
    exact keepsFull_of_sameScalars (cacheSector_scalars geo st S flags) h
  · exact keepsFull_of_sameScalars (flush_scalars st) h
  · intro bufIdx
    exact keepsFull_of_sameScalars (markDirty_scalars st bufIdx) h
  · intro file
    exact keepsFull_of_sameScalars (fileUnlock_scalars st file) h
  · intro S buf
    exact keepsFull_of_sameScalars (readComplete_scalars st S buf) h
  · intro S buf
    exact keepsFull_of_sameScalars (writeComplete_scalars st S buf) h
  · intro fatIndex cluster
    exact keepsFull_of_sameScalars (FATGetNextCluster_scalars geo st fatIndex cluster) h
  · intro s nc
    exact keepsFull_of_sameScalars (FATSetNextCluster_scalars geo st s nc) h
  · intro condition cluster
    exact keepsFull_of_sameScalars
      (findClusterWithCondition_scalars geo hspc st condition cluster) h
  · intro s e
    exact keepsFull_of_sameScalars (FATWriteSuperclusterChain_scalars geo st s e) h
  · intro file
    exact keepsFull_of_sameScalars (saveDirectoryEntry_scalars geo st file) h
  · intro file c
    exact keepsFull_of_sameScalars (fileGetNextCluster_scalars geo st file c) h
  · intro file offset whence
    exact keepsFull_of_sameScalars (fseek_scalars geo st file offset whence) h
  · intro file len
    exact fwrite_keepsFull geo hspc st file len h
  · intro file
    exact fileLockCursorSectorForWrite_keepsFull geo hspc st file h
  · intro file
    exact appendRegularFreeCluster_keepsFull geo hspc st file h
  · intro file previousCluster
    exact appendSupercluster_keepsFull geo st file previousCluster h
  · intro file
    exact appendFreeCluster_keepsFull geo hspc st file h
  · exact initContinueSaveDirEntry_keepsFull geo st h
  · exact initContinueUpdateFat_keepsFull geo st h
  · exact initContinueFreefileFatSearchCompleted_keepsFull geo st h

/-- A mounted state in which the filesystemFull flag is already set. -/
def c9_exSt : St :=
  { slots := [emptySlot, emptySlot, emptySlot, emptySlot, emptySlot, emptySlot,
      emptySlot, emptySlot]
    mem := fun _ _ => 0
    cacheTimer := 0
    cacheDirtyEntries := 0
    filesystemState := FsState.ready
    substate := 0
    filesystemFull := true
    lastClusterAllocated := 1
    freeFile := exFile
    freeSpaceSearch := exSearch
    freeSpaceFATStartCluster := 0
    freeSpaceFATEndCluster := 0
    sdReadAccepts := true
    sdWriteAccepts := true }

theorem c9_witness :
    (0 < c3_geo.sectorsPerCluster ∧ c9_exSt.filesystemFull = true)
    ∧ ((afatfs_flush c9_exSt).2).filesystemFull = true := by
  refine ⟨⟨by decide, rfl⟩, ?_⟩
  exact (filesystemFull_sticky c3_geo (by decide) c9_exSt rfl).2.1

theorem fileUnlock_cursorOffset (st : St) (file : File) :
    (afatfs_fileUnlockCacheSector st file).1.cursorOffset = file.cursorOffset := by
  unfold afatfs_fileUnlockCacheSector
  rcases hl : file.lockedCacheIndex with _ | i <;> rfl

theorem fileUnlock_type (st : St) (file : File) :
    (afatfs_fileUnlockCacheSector st file).1.type = file.type := by
  unfold afatfs_fileUnlockCacheSector
  rcases hl : file.lockedCacheIndex with _ | i <;> rfl

theorem fileUnlock_mode (st : St) (file : File) :
    (afatfs_fileUnlockCacheSector st file).1.mode = file.mode := by
  unfold afatfs_fileUnlockCacheSector
  rcases hl : file.lockedCacheIndex with _ | i <;> rfl

theorem fileUnlock_operation (st : St) (file : File) :
    (afatfs_fileUnlockCacheSector st file).1.operation = file.operation := by
  unfold afatfs_fileUnlockCacheSector
  rcases hl : file.lockedCacheIndex with _ | i <;> rfl

theorem fileUnlock_mem (st : St) (file : File) :
    ((afatfs_fileUnlockCacheSector st file).2).mem = st.mem := by
  unfold afatfs_fileUnlockCacheSector
  rcases hl : file.lockedCacheIndex with _ | i <;> rfl

theorem FATGetNextCluster_mem (geo : Geo) (st : St) (fatIndex cluster : Nat) :
    ((afatfs_FATGetNextCluster geo st fatIndex cluster).2.2).mem = st.mem := by
  unfold afatfs_FATGetNextCluster
  dsimp only
  rcases hcs : afatfs_cacheSector geo st
      (afatfs_fatSectorToPhysical geo fatIndex
        (afatfs_getFATPositionForCluster geo cluster).1)
      ⟨true, false, false, false, false, false⟩ with ⟨status, buf, st1⟩
  have hm := cacheSector_mem geo st
    (afatfs_fatSectorToPhysical geo fatIndex
      (afatfs_getFATPositionForCluster geo cluster).1)
    ⟨true, false, false, false, false, false⟩
  rw [hcs] at hm
  cases status with
  | inProgress => exact hm
  | failure => exact hm
  | success =>
      dsimp only
      by_cases hft : geo.filesystemType = FatType.fat16
      · rw [if_pos hft]
        exact hm
      · rw [if_neg hft]
        exact hm

theorem fileGetNextCluster_mem (geo : Geo) (st : St) (file : File)
    (currentCluster : Nat) :
    ((afatfs_fileGetNextCluster geo st file currentCluster).2.2).mem = st.mem := by
  unfold afatfs_fileGetNextCluster
  by_cases hc : file.mode.contiguous = true
  · rw [if_pos hc]
    dsimp only
    split <;> rfl
  · rw [if_neg hc]
    exact FATGetNextCluster_mem geo st 0 currentCluster

theorem fileGetNextCluster_contiguous (geo : Geo) (st : St) (file : File)
    (currentCluster : Nat) (h : file.mode.contiguous = true) :
    (afatfs_fileGetNextCluster geo st file currentCluster).1 = OpStatus.success := by
  unfold afatfs_fileGetNextCluster
  rw [if_pos h]
  dsimp only
  split <;> rfl

theorem fseekAtomicFinish_fst (geo : Geo) (st : St) (file : File) (offset : Int) :
    (afatfs_fseekAtomicFinish geo st file offset).1 = true := by
  unfold afatfs_fseekAtomicFinish
  split <;> rfl

/-- C7: the case analysis of afatfs_fseekAtomic.  (1) A seek whose target
stays inside the current 512-byte sector succeeds immediately: true is
returned, the cursor advances by the delta, and the state is untouched.
(2) A sector-crossing seek on the FAT16 root directory also succeeds with
the cursor advanced by the delta, and beyond the cache-sector unlock the
FAT (the modelled sector memory) is untouched.  (3) A delta larger than
one cluster, or backward past the start of the current cluster, fails:
false, with the returned handle's cursor and queued operation unchanged
and the memory untouched.  (4) An in-range seek that crosses the cluster
boundary succeeds exactly when the next cluster number is obtained
immediately from afatfs_fileGetNextCluster (which always succeeds for a
contiguous-mode file); when it is not available, false is returned with
cursor and queued operation unchanged and the memory untouched.  (5) An
in-range sector-crossing seek inside the same cluster succeeds with no
state change beyond the unlock. -/
theorem fseekAtomic_spec (geo : Geo) (st : St) (file : File) (offset : Int) :
    (u32AddInt (file.cursorOffset % AFATFS_SECTOR_SIZE) offset < AFATFS_SECTOR_SIZE →
      afatfs_fseekAtomic geo st file offset
        = (true, { file with cursorOffset := u32AddInt file.cursorOffset offset }, st))
    ∧ (¬ u32AddInt (file.cursorOffset % AFATFS_SECTOR_SIZE) offset
          < AFATFS_SECTOR_SIZE →
        file.type = FileType.fat16Root →
        afatfs_fseekAtomic geo st file offset
          = (true,
              { (afatfs_fileUnlockCacheSector st file).1 with
                  cursorOffset := u32AddInt file.cursorOffset offset },
              (afatfs_fileUnlockCacheSector st file).2)
        ∧ ((afatfs_fileUnlockCacheSector st file).2).mem = st.mem)
    ∧ (¬ u32AddInt (file.cursorOffset % AFATFS_SECTOR_SIZE) offset
          < AFATFS_SECTOR_SIZE →
        file.type ≠ FileType.fat16Root →
        (offset > ((afatfs_clusterSize geo : Nat) : Int)
          ∨ offset < -((afatfs_byteIndexInCluster geo file.cursorOffset : Nat) : Int)) →
        afatfs_fseekAtomic geo st file offset
          = (false, (afatfs_fileUnlockCacheSector st file).1,
              (afatfs_fileUnlockCacheSector st file).2)
        ∧ (afatfs_fileUnlockCacheSector st file).1.cursorOffset = file.cursorOffset
        ∧ (afatfs_fileUnlockCacheSector st file).1.operation = file.operation
        ∧ ((afatfs_fileUnlockCacheSector st file).2).mem = st.mem)
    ∧ (¬ u32AddInt (file.cursorOffset % AFATFS_SECTOR_SIZE) offset
          < AFATFS_SECTOR_SIZE →
        file.type ≠ FileType.fat16Root →
        ¬ (offset > ((afatfs_clusterSize geo : Nat) : Int)
          ∨ offset < -((afatfs_byteIndexInCluster geo file.cursorOffset : Nat) : Int)) →
        u32AddInt (afatfs_byteIndexInCluster geo file.cursorOffset) offset
          ≥ afatfs_clusterSize geo →
        ((afatfs_fseekAtomic geo st file offset).1 = true
          ↔ (afatfs_fileGetNextCluster geo (afatfs_fileUnlockCacheSector st file).2
              (afatfs_fileUnlockCacheSector st file).1
              (afatfs_fileUnlockCacheSector st file).1.cursorCluster).1
            = OpStatus.success)
        ∧ (file.mode.contiguous = true →
            (afatfs_fileGetNextCluster geo (afatfs_fileUnlockCacheSector st file).2
              (afatfs_fileUnlockCacheSector st file).1
              (afatfs_fileUnlockCacheSector st file).1.cursorCluster).1
            = OpStatus.success)
        ∧ ((afatfs_fileGetNextCluster geo (afatfs_fileUnlockCacheSector st file).2
              (afatfs_fileUnlockCacheSector st file).1
              (afatfs_fileUnlockCacheSector st file).1.cursorCluster).1
            ≠ OpStatus.success →
            afatfs_fseekAtomic geo st file offset
              = (false, (afatfs_fileUnlockCacheSector st file).1,
                  (afatfs_fileGetNextCluster geo
                    (afatfs_fileUnlockCacheSector st file).2
                    (afatfs_fileUnlockCacheSector st file).1
                    (afatfs_fileUnlockCacheSector st file).1.cursorCluster).2.2)
            ∧ (afatfs_fileUnlockCacheSector st file).1.cursorOffset = file.cursorOffset
            ∧ (afatfs_fileUnlockCacheSector st file).1.operation = file.operation
            ∧ ((afatfs_fileGetNextCluster geo (afatfs_fileUnlockCacheSector st file).2
                  (afatfs_fileUnlockCacheSector st file).1
                  (afatfs_fileUnlockCacheSector st file).1.cursorCluster).2.2).mem
              = st.mem))
    ∧ (¬ u32AddInt (file.cursorOffset % AFATFS_SECTOR_SIZE) offset
          < AFATFS_SECTOR_SIZE →
        file.type ≠ FileType.fat16Root →
        ¬ (offset > ((afatfs_clusterSize geo : Nat) : Int)
          ∨ offset < -((afatfs_byteIndexInCluster geo file.cursorOffset : Nat) : Int)) →
        ¬ u32AddInt (afatfs_byteIndexInCluster geo file.cursorOffset) offset
          ≥ afatfs_clusterSize geo →
        (afatfs_fseekAtomic geo st file offset).1 = true
        ∧ (afatfs_fseekAtomic geo st file offset).2.2
          = (afatfs_fileUnlockCacheSector st file).2) := by
  have hco := fileUnlock_cursorOffset st file
  have hty := fileUnlock_type st file
  have hmo := fileUnlock_mode st file
  have hop := fileUnlock_operation st file
  have hmem := fileUnlock_mem st file
  refine ⟨?_, ?_, ?_, ?_, ?_⟩
  · intro hin
    unfold afatfs_fseekAtomic
    dsimp only
    rw [if_pos hin]
  · intro hin hroot
    unfold afatfs_fseekAtomic
    dsimp only
    rw [if_neg hin]
    rcases hu : afatfs_fileUnlockCacheSector st file with ⟨file1, st1⟩
    rw [hu] at hco hty hmem
    dsimp only at hco hty hmem ⊢
    rw [if_pos (hty.trans hroot), hco]
    exact ⟨rfl, hmem⟩
  · intro hin hroot hrange
    unfold afatfs_fseekAtomic
    dsimp only
    rw [if_neg hin]
    rcases hu : afatfs_fileUnlockCacheSector st file with ⟨file1, st1⟩
    rw [hu] at hco hty hop hmem
    dsimp only at hco hty hop hmem ⊢
    rw [if_neg (fun h => hroot (hty.symm.trans h)), hco, if_pos hrange]
    exact ⟨rfl, rfl, hop, hmem⟩
  · intro hin hroot hrange hbound
    unfold afatfs_fseekAtomic
    dsimp only
    rw [if_neg hin]
    rcases hu : afatfs_fileUnlockCacheSector st file with ⟨file1, st1⟩
    rw [hu] at hco hty hmo hop hmem
    dsimp only at hco hty hmo hop hmem ⊢
    rw [if_neg (fun h => hroot (hty.symm.trans h)), hco, if_neg hrange,
      if_pos hbound]
    have hnm := fileGetNextCluster_mem geo st1 file1 file1.cursorCluster
    rcases hn : afatfs_fileGetNextCluster geo st1 file1 file1.cursorCluster
      with ⟨rs, nc, st2⟩
    rw [hn] at hnm
    cases rs with
    | success =>
        refine ⟨⟨fun _ => rfl, fun _ => fseekAtomicFinish_fst _ _ _ _⟩,
          fun _ => rfl, fun hne => absurd rfl hne⟩
    | inProgress =>
        refine ⟨?_, ?_, ?_⟩
        · constructor <;> intro h <;> simp at h
        · intro hcont
          have hsucc := fileGetNextCluster_contiguous geo st1 file1
            file1.cursorCluster (by rw [hmo]; exact hcont)
          rw [hn] at hsucc
          simp at hsucc
        · intro _
          exact ⟨rfl, rfl, hop, hnm.trans hmem⟩
    | failure =>
        refine ⟨?_, ?_, ?_⟩
        · constructor <;> intro h <;> simp at h
        · intro hcont
          have hsucc := fileGetNextCluster_contiguous geo st1 file1
            file1.cursorCluster (by rw [hmo]; exact hcont)
          rw [hn] at hsucc
          simp at hsucc
        · intro _
          exact ⟨rfl, rfl, hop, hnm.trans hmem⟩
  · intro hin hroot hrange hbound
    unfold afatfs_fseekAtomic
    dsimp only
    rw [if_neg hin]
    rcases hu : afatfs_fileUnlockCacheSector st file with ⟨file1, st1⟩
    rw [hu] at hco hty
    dsimp only at hco hty ⊢
    rw [if_neg (fun h => hroot (hty.symm.trans h)), hco, if_neg hrange,
      if_neg hbound]
    exact ⟨fseekAtomicFinish_fst _ _ _ _, fseekAtomicFinish_st _ _ _ _⟩

/-- A ready filesystem with an empty cache for exercising seeks. -/
def c7_exSt : St :=
  { slots := [emptySlot, emptySlot, emptySlot, emptySlot, emptySlot, emptySlot,
      emptySlot, emptySlot]
    mem := fun _ _ => 0
    cacheTimer := 0
    cacheDirtyEntries := 0
    filesystemState := FsState.ready
    substate := 0
    filesystemFull := false
    lastClusterAllocated := 1
    freeFile := exFile
    freeSpaceSearch := exSearch
    freeSpaceFATStartCluster := 0
    freeSpaceFATEndCluster := 0
    sdReadAccepts := true
    sdWriteAccepts := true }

theorem c7_witness :
    u32AddInt (exFile.cursorOffset % AFATFS_SECTOR_SIZE) 4 < AFATFS_SECTOR_SIZE
    ∧ afatfs_fseekAtomic c3_geo c7_exSt exFile 4
      = (true, { exFile with cursorOffset := u32AddInt exFile.cursorOffset 4 },
          c7_exSt) :=
  ⟨by decide, (fseekAtomic_spec c3_geo c7_exSt exFile 4).1 (by decide)⟩

theorem St.mem_setMem_self (st : St) (slot idx v : Nat) :
    (st.setMem slot idx v).mem slot idx = v := by
  unfold St.setMem
  dsimp only
  rw [if_pos ⟨rfl, rfl⟩]

theorem St.mem_setMem_ne (st : St) (slot idx v s i : Nat)
    (h : ¬ (s = slot ∧ i = idx)) :
    (st.setMem slot idx v).mem s i = st.mem s i := by
  unfold St.setMem
  dsimp only
  rw [if_neg h]

theorem and_mask (x m k : Nat) :
    x &&& ((2 ^ m - 1) <<< k) = x / 2 ^ k % 2 ^ m * 2 ^ k := by
  apply Nat.eq_of_testBit_eq
  intro i
  rw [show x / 2 ^ k % 2 ^ m * 2 ^ k = (x >>> k % 2 ^ m) <<< k by
    rw [Nat.shiftLeft_eq, Nat.shiftRight_eq_div_pow]]
  rw [Nat.testBit_and, Nat.testBit_shiftLeft, Nat.testBit_shiftLeft,
    Nat.testBit_two_pow_sub_one, Nat.testBit_mod_two_pow, Nat.testBit_shiftRight]
  by_cases hk : k ≤ i
  · rw [show k + (i - k) = i by omega]
    by_cases hm : i - k < m
    · simp [hk, hm]
    · simp [hk, hm]
  · simp [hk]

theorem writeFatEntriesLoop_mem_lo (buf width : Nat) :
    ∀ n i count nc (st : St) (b idx : Nat), count - i ≤ n → idx < i →
    ((writeFatEntriesLoop buf width st i count nc).1).mem b idx = st.mem b idx := by
  intro n
  induction n with
  | zero =>
      intro i count nc st b idx hn hidx
      unfold writeFatEntriesLoop
      rw [if_neg (by omega)]
  | succ n ih =>
      intro i count nc st b idx hn hidx
      by_cases hi : i < count
      · unfold writeFatEntriesLoop
        rw [if_pos hi]
        rw [ih (i + 1) count (nc + 1) _ b idx (by omega) (by omega)]
        exact St.mem_setMem_ne st buf i (nc % width) b idx
          (fun hc => by omega)
      · unfold writeFatEntriesLoop
        rw [if_neg hi]

theorem writeFatEntriesLoop_mem_written (buf width : Nat) :
    ∀ n i count nc (st : St) j, count - i ≤ n → i ≤ j → j < count →
    ((writeFatEntriesLoop buf width st i count nc).1).mem buf j
      = (nc + (j - i)) % width := by
  intro n
  induction n with
  | zero =>
      intro i count nc st j hn hij hjc
      omega
  | succ n ih =>
      intro i count nc st j hn hij hjc
      have hi : i < count := by omega
      unfold writeFatEntriesLoop
      rw [if_pos hi]
      rcases Nat.eq_or_lt_of_le hij with heq | hlt
      · rw [← heq]
        rw [writeFatEntriesLoop_mem_lo buf width n (i + 1) count (nc + 1) _ buf i
          (by omega) (by omega)]
        rw [St.mem_setMem_self]
        rw [show i - i = 0 by omega, Nat.add_zero]
      · rw [ih (i + 1) count (nc + 1) _ j (by omega) (by omega) hjc]
        rw [show nc + 1 + (j - (i + 1)) = nc + (j - i) by omega]

/-- The state the freefile-FAT-search-completed init step hands to the
FAT-update substate when the trimmed gap is non-empty (the assignments of
lines 2583–2597 of the source). -/
def freefileInitUpdateState (geo : Geo) (st : St) : St :=
  { st with
    substate := SUBSTATE_FREEFILE_UPDATE_FAT,
    freeSpaceSearch := { st.freeSpaceSearch with bestGapLength :=
      (st.freeSpaceSearch.bestGapLength - AFATFS_FREEFILE_LEAVE_CLUSTERS)
        &&& (2 ^ 32 - afatfs_fatEntriesPerSector geo) },
    freeSpaceFATStartCluster := st.freeSpaceSearch.bestGapStart,
    freeSpaceFATEndCluster := st.freeSpaceSearch.bestGapStart
      + ((st.freeSpaceSearch.bestGapLength - AFATFS_FREEFILE_LEAVE_CLUSTERS)
          &&& (2 ^ 32 - afatfs_fatEntriesPerSector geo)),
    freeFile := { st.freeFile with directoryEntry :=
      { st.freeFile.directoryEntry with
          firstClusterHigh := (st.freeSpaceSearch.bestGapStart >>> 16) % 2 ^ 16,
          firstClusterLow := st.freeSpaceSearch.bestGapStart &&& 0xFFFF,
          fileSize := (((st.freeSpaceSearch.bestGapLength
              - AFATFS_FREEFILE_LEAVE_CLUSTERS)
              &&& (2 ^ 32 - afatfs_fatEntriesPerSector geo))
            * afatfs_clusterSize geo) % 2 ^ 32 } } }

/-- C6: sizing and setup of the freefile at the end of the mount-time
free-space search.  With L the best gap in clusters: when L > 100
(AFATFS_FREEFILE_LEAVE_CLUSTERS), the retained length is (L − 100) rounded
down to a multiple of the FAT entries per sector (the masked value is that
multiple: divisible, not larger, and within one sector's entries of
L − 100); if it is non-zero the init step proceeds to the FAT-update
substate with the freefile's first cluster at the gap start, its byte size
the cluster count times the cluster size, and the FAT rewrite range
covering exactly the retained clusters — and a successful FAT chain write
is followed by the directory-entry save substate; if the trimmed length is
zero, or L ≤ 100, only the directory-entry save runs and the freefile is
unchanged (size stays 0).  The chain write itself, on a sector whose fetch
succeeded, writes each FAT entry to point to the cluster after it and
terminates the final cluster with the end-of-chain marker. -/
theorem freefileInit_spec (geo : Geo) (st : St)
    (hfs : geo.filesystemType = FatType.fat16 ∨ geo.filesystemType = FatType.fat32)
    (h32 : st.freeSpaceSearch.bestGapLength ≤ 2 ^ 32) :
    (st.freeSpaceSearch.bestGapLength > AFATFS_FREEFILE_LEAVE_CLUSTERS →
      ((st.freeSpaceSearch.bestGapLength - AFATFS_FREEFILE_LEAVE_CLUSTERS)
          &&& (2 ^ 32 - afatfs_fatEntriesPerSector geo))
          % afatfs_fatEntriesPerSector geo = 0
      ∧ ((st.freeSpaceSearch.bestGapLength - AFATFS_FREEFILE_LEAVE_CLUSTERS)
          &&& (2 ^ 32 - afatfs_fatEntriesPerSector geo))
          ≤ st.freeSpaceSearch.bestGapLength - AFATFS_FREEFILE_LEAVE_CLUSTERS
      ∧ st.freeSpaceSearch.bestGapLength - AFATFS_FREEFILE_LEAVE_CLUSTERS
          < ((st.freeSpaceSearch.bestGapLength - AFATFS_FREEFILE_LEAVE_CLUSTERS)
              &&& (2 ^ 32 - afatfs_fatEntriesPerSector geo))
            + afatfs_fatEntriesPerSector geo
      ∧ (((st.freeSpaceSearch.bestGapLength - AFATFS_FREEFILE_LEAVE_CLUSTERS)
            &&& (2 ^ 32 - afatfs_fatEntriesPerSector geo)) > 0 →
          afatfs_initContinueFreefileFatSearchCompleted geo st
            = afatfs_initContinueUpdateFat geo (freefileInitUpdateState geo st)
          ∧ (freefileInitUpdateState geo st).freeFile.directoryEntry.fileSize
            = (((st.freeSpaceSearch.bestGapLength - AFATFS_FREEFILE_LEAVE_CLUSTERS)
                &&& (2 ^ 32 - afatfs_fatEntriesPerSector geo))
              * afatfs_clusterSize geo) % 2 ^ 32
          ∧ (freefileInitUpdateState geo st).freeSpaceFATStartCluster
            = st.freeSpaceSearch.bestGapStart
          ∧ (freefileInitUpdateState geo st).freeSpaceFATEndCluster
            = st.freeSpaceSearch.bestGapStart
              + ((st.freeSpaceSearch.bestGapLength - AFATFS_FREEFILE_LEAVE_CLUSTERS)
                  &&& (2 ^ 32 - afatfs_fatEntriesPerSector geo))
          ∧ (freefileInitUpdateState geo st).freeFile.directoryEntry.firstClusterLow
            = st.freeSpaceSearch.bestGapStart &&& 0xFFFF
          ∧ (freefileInitUpdateState geo st).freeFile.directoryEntry.firstClusterHigh
            = (st.freeSpaceSearch.bestGapStart >>> 16) % 2 ^ 16
          ∧ (freefileInitUpdateState geo st).substate = SUBSTATE_FREEFILE_UPDATE_FAT)
      ∧ (((st.freeSpaceSearch.bestGapLength - AFATFS_FREEFILE_LEAVE_CLUSTERS)
            &&& (2 ^ 32 - afatfs_fatEntriesPerSector geo)) = 0 →
          afatfs_initContinueFreefileFatSearchCompleted geo st
            = afatfs_initContinueSaveDirEntry geo { st with substate := SUBSTATE_FREEFILE_SAVE_DIR_ENTRY, freeSpaceSearch := { st.freeSpaceSearch with bestGapLength := (st.freeSpaceSearch.bestGapLength - AFATFS_FREEFILE_LEAVE_CLUSTERS) &&& (2 ^ 32 - afatfs_fatEntriesPerSector geo) } }
          ∧ ({ st with substate := SUBSTATE_FREEFILE_SAVE_DIR_ENTRY, freeSpaceSearch := { st.freeSpaceSearch with bestGapLength := (st.freeSpaceSearch.bestGapLength - AFATFS_FREEFILE_LEAVE_CLUSTERS) &&& (2 ^ 32 - afatfs_fatEntriesPerSector geo) } } : St).freeFile
            = st.freeFile))
    ∧ (¬ st.freeSpaceSearch.bestGapLength > AFATFS_FREEFILE_LEAVE_CLUSTERS →
        afatfs_initContinueFreefileFatSearchCompleted geo st
          = afatfs_initContinueSaveDirEntry geo
              { st with substate := SUBSTATE_FREEFILE_SAVE_DIR_ENTRY }
        ∧ ({ st with substate := SUBSTATE_FREEFILE_SAVE_DIR_ENTRY } : St).freeFile
          = st.freeFile)
    ∧ (∀ (st0 : St) (s2 : Nat) (stc : St),
        afatfs_FATWriteSuperclusterChain geo st0 st0.freeSpaceFATStartCluster
          st0.freeSpaceFATEndCluster = (OpStatus.success, s2, stc) →
        afatfs_initContinueUpdateFat geo st0
          = afatfs_initContinueSaveDirEntry geo { stc with freeSpaceFATStartCluster := s2, substate := SUBSTATE_FREEFILE_SAVE_DIR_ENTRY })
    ∧ (∀ (s e fps buf0 : Nat) (st0 st1 : St),
        s < e → e - s ≤ afatfs_fatEntriesPerSector geo →
        afatfs_cacheSector geo st0 fps ⟨false, true, false, false, true, false⟩
          = (OpStatus.success, buf0, st1) →
        (FATWriteSuperclusterChainLoop geo st0 s e (s + 1) fps).1 = OpStatus.success
        ∧ (FATWriteSuperclusterChainLoop geo st0 s e (s + 1) fps).2.1 = e
        ∧ (∀ i, i < e - s - 1 →
            ((FATWriteSuperclusterChainLoop geo st0 s e (s + 1) fps).2.2).mem buf0 i
              = (s + 1 + i)
                % (if geo.filesystemType = FatType.fat16 then 2 ^ 16 else 2 ^ 32))
        ∧ ((FATWriteSuperclusterChainLoop geo st0 s e (s + 1) fps).2.2).mem buf0
            (e - s - 1)
          = (if geo.filesystemType = FatType.fat16 then 0xFFFF else 0xFFFFFFFF)) := by
  refine ⟨?_, ?_, ?_, ?_⟩
  · intro hL
    have heps2 := fatEntriesPerSector_ge_two geo
    have hmask :
        ((st.freeSpaceSearch.bestGapLength - AFATFS_FREEFILE_LEAVE_CLUSTERS)
            &&& (2 ^ 32 - afatfs_fatEntriesPerSector geo))
            % afatfs_fatEntriesPerSector geo = 0
        ∧ ((st.freeSpaceSearch.bestGapLength - AFATFS_FREEFILE_LEAVE_CLUSTERS)
            &&& (2 ^ 32 - afatfs_fatEntriesPerSector geo))
            ≤ st.freeSpaceSearch.bestGapLength - AFATFS_FREEFILE_LEAVE_CLUSTERS
        ∧ st.freeSpaceSearch.bestGapLength - AFATFS_FREEFILE_LEAVE_CLUSTERS
            < ((st.freeSpaceSearch.bestGapLength - AFATFS_FREEFILE_LEAVE_CLUSTERS)
                &&& (2 ^ 32 - afatfs_fatEntriesPerSector geo))
              + afatfs_fatEntriesPerSector geo := by
      have hx : st.freeSpaceSearch.bestGapLength - AFATFS_FREEFILE_LEAVE_CLUSTERS
          < 2 ^ 32 := by
        unfold AFATFS_FREEFILE_LEAVE_CLUSTERS at *
        omega
      rcases hfs with hft | hft
      · have he : afatfs_fatEntriesPerSector geo = 256 := by
          unfold afatfs_fatEntriesPerSector AFATFS_FAT32_FAT_ENTRIES_PER_SECTOR
            AFATFS_FAT16_FAT_ENTRIES_PER_SECTOR
          rw [hft]
          decide
        rw [he, show (2 : Nat) ^ 32 - 256 = (2 ^ 24 - 1) <<< 8 by decide, and_mask]
        refine ⟨?_, ?_, ?_⟩ <;> omega
      · have he : afatfs_fatEntriesPerSector geo = 128 := by
          unfold afatfs_fatEntriesPerSector AFATFS_FAT32_FAT_ENTRIES_PER_SECTOR
            AFATFS_FAT16_FAT_ENTRIES_PER_SECTOR
          rw [hft]
          decide
        rw [he, show (2 : Nat) ^ 32 - 128 = (2 ^ 25 - 1) <<< 7 by decide, and_mask]
        refine ⟨?_, ?_, ?_⟩ <;> omega
    refine ⟨hmask.1, hmask.2.1, hmask.2.2, ?_, ?_⟩
    · intro hbgl
      unfold afatfs_initContinueFreefileFatSearchCompleted
      dsimp only
      rw [if_pos hL, if_pos hbgl]
      exact ⟨rfl, rfl, rfl, rfl, rfl, rfl, rfl⟩
    · intro hbgl0
      unfold afatfs_initContinueFreefileFatSearchCompleted
      dsimp only
      rw [if_pos hL, if_neg (by omega)]
      exact ⟨rfl, rfl⟩
  · intro hL
    unfold afatfs_initContinueFreefileFatSearchCompleted
    dsimp only
    rw [if_neg hL]
    exact ⟨rfl, rfl⟩
  · intro st0 s2 stc hchain
    unfold afatfs_initContinueUpdateFat
    rw [hchain]
  · intro s e fps buf0 st0 st1 hs he hcs
    have hetw : chainEntriesToWrite geo s e = e - s - 1 := by
      rw [chainEntriesToWrite_eq geo s e hfs]
      exact Nat.min_eq_left (by omega)
    have hterm : s + chainEntriesToWrite geo s e = e - 1 := by
      rw [hetw]
      omega
    rw [chainLoop_eq_success geo st0 s e (s + 1) fps buf0 st1 hs hcs,
      if_pos hterm, hetw]
    by_cases hft : geo.filesystemType = FatType.fat16
    · simp only [if_pos hft]
      refine ⟨by trivial, by omega, ?_, ?_⟩
      · intro i hi
        rw [St.mem_setMem_ne _ buf0 (e - s - 1) 0xFFFF buf0 i
          (fun hc => by omega)]
        rw [writeFatEntriesLoop_mem_written buf0 (2 ^ 16) (e - s - 1) 0 (e - s - 1)
          (s + 1) st1 i (by omega) (by omega) hi]
        rw [show s + 1 + (i - 0) = s + 1 + i by omega]
      · exact St.mem_setMem_self _ buf0 (e - s - 1) 0xFFFF
    · simp only [if_neg hft]
      refine ⟨by trivial, by omega, ?_, ?_⟩
      · intro i hi
        rw [St.mem_setMem_ne _ buf0 (e - s - 1) 0xFFFFFFFF buf0 i
          (fun hc => by omega)]
        rw [writeFatEntriesLoop_mem_written buf0 (2 ^ 32) (e - s - 1) 0 (e - s - 1)
          (s + 1) st1 i (by omega) (by omega) hi]
        rw [show s + 1 + (i - 0) = s + 1 + i by omega]
      · exact St.mem_setMem_self _ buf0 (e - s - 1) 0xFFFFFFFF

/-- A mount in progress whose free-space search found a best gap of 612
clusters starting at cluster 2. -/
def c6_exSt : St :=
  { slots := [emptySlot, emptySlot, emptySlot, emptySlot, emptySlot, emptySlot,
      emptySlot, emptySlot]
    mem := fun _ _ => 0
    cacheTimer := 0
    cacheDirtyEntries := 0
    filesystemState := FsState.initialization
    substate := 0
    filesystemFull := false
    lastClusterAllocated := 1
    freeFile := exFile
    freeSpaceSearch := ⟨0, 0, 2, 612, FreeSpaceSearchPhase.findHole⟩
    freeSpaceFATStartCluster := 0
    freeSpaceFATEndCluster := 0
    sdReadAccepts := true
    sdWriteAccepts := true }

theorem c6_witness :
    ((c3_geo.filesystemType = FatType.fat16 ∨ c3_geo.filesystemType = FatType.fat32)
      ∧ c6_exSt.freeSpaceSearch.bestGapLength ≤ 2 ^ 32
      ∧ c6_exSt.freeSpaceSearch.bestGapLength > AFATFS_FREEFILE_LEAVE_CLUSTERS)
    ∧ ((c6_exSt.freeSpaceSearch.bestGapLength - AFATFS_FREEFILE_LEAVE_CLUSTERS)
        &&& (2 ^ 32 - afatfs_fatEntriesPerSector c3_geo))
        % afatfs_fatEntriesPerSector c3_geo = 0 := by
  refine ⟨⟨Or.inl rfl, by decide, by decide⟩, ?_⟩
  have h := (freefileInit_spec c3_geo c6_exSt (Or.inl rfl) (by decide)).1 (by decide)
  exact h.1

/-- The offset of a queued seek operation (0 when none is queued). -/
def pendingSeek (file : File) : Nat :=
  match file.operation with
  | FileOperation.seek o => o
  | _ => 0

theorem u32ofInt_coe (n : Nat) (h : n < 2 ^ 32) : u32ofInt (n : Int) = n := by
  unfold u32ofInt
  omega

theorem u32AddInt_eq (a n : Nat) (h : a + n < 2 ^ 32) :
    u32AddInt a (n : Int) = a + n := by
  unfold u32AddInt u32ofInt
  omega

theorem fileUnlock_cursorCluster (st : St) (file : File) :
    (afatfs_fileUnlockCacheSector st file).1.cursorCluster = file.cursorCluster := by
  unfold afatfs_fileUnlockCacheSector
  rcases hl : file.lockedCacheIndex with _ | i <;> rfl

theorem fileUnlock_isEnd (geo : Geo) (st : St) (file : File) :
    afatfs_isEndOfAllocatedFile geo (afatfs_fileUnlockCacheSector st file).1
      = afatfs_isEndOfAllocatedFile geo file := by
  unfold afatfs_fileUnlockCacheSector
  rcases hl : file.lockedCacheIndex with _ | i <;> rfl

theorem sectorSize_dvd_clusterSize (geo : Geo) :
    AFATFS_SECTOR_SIZE ∣ afatfs_clusterSize geo :=
  ⟨geo.sectorsPerCluster, by unfold afatfs_clusterSize; ring⟩

theorem sectorSize_le_clusterSize (geo : Geo) (hspc : 0 < geo.sectorsPerCluster) :
    AFATFS_SECTOR_SIZE ≤ afatfs_clusterSize geo := by
  unfold afatfs_clusterSize
  unfold AFATFS_SECTOR_SIZE
  nlinarith

/-- One atomic seek of 1 ≤ n ≤ sector-remainder bytes on an idle handle
that is not at the end of its allocated chain: on true the cursor advances
by exactly n, on false it is unchanged, and no operation is queued either
way. -/
theorem fseekAtomic_step (geo : Geo) (hspc : 0 < geo.sectorsPerCluster)
    (hmask : ∀ x, afatfs_byteIndexInCluster geo x = x % afatfs_clusterSize geo)
    (hcs32 : afatfs_clusterSize geo ≤ 2 ^ 31)
    (st : St) (f : File) (n : Nat)
    (hc32 : f.cursorOffset + AFATFS_SECTOR_SIZE < 2 ^ 32)
    (hop : f.operation = FileOperation.none)
    (hend : afatfs_isEndOfAllocatedFile geo f = false)
    (hn1 : 0 < n)
    (hn2 : n ≤ AFATFS_SECTOR_SIZE - f.cursorOffset % AFATFS_SECTOR_SIZE) :
    ((afatfs_fseekAtomic geo st f (n : Int)).1 = true →
      (afatfs_fseekAtomic geo st f (n : Int)).2.1.cursorOffset = f.cursorOffset + n
      ∧ (afatfs_fseekAtomic geo st f (n : Int)).2.1.operation = FileOperation.none)
    ∧ ((afatfs_fseekAtomic geo st f (n : Int)).1 = false →
      (afatfs_fseekAtomic geo st f (n : Int)).2.1.cursorOffset = f.cursorOffset
      ∧ (afatfs_fseekAtomic geo st f (n : Int)).2.1.operation = FileOperation.none) := by
  have h512 : AFATFS_SECTOR_SIZE = 512 := rfl
  have hmlt : f.cursorOffset % AFATFS_SECTOR_SIZE < 512 := by
    rw [h512]
    exact Nat.mod_lt _ (by omega)
  have hsec : u32AddInt (f.cursorOffset % AFATFS_SECTOR_SIZE) (n : Int)
      = f.cursorOffset % AFATFS_SECTOR_SIZE + n :=
    u32AddInt_eq _ _ (by unfold AFATFS_SECTOR_SIZE at *; omega)
  unfold afatfs_fseekAtomic
  dsimp only
  rw [hsec]
  by_cases hin : f.cursorOffset % AFATFS_SECTOR_SIZE + n < AFATFS_SECTOR_SIZE
  · rw [if_pos hin]
    refine ⟨fun _ => ⟨?_, hop⟩, fun h => by simp at h⟩
    exact u32AddInt_eq _ _ (by unfold AFATFS_SECTOR_SIZE at *; omega)
  · rw [if_neg hin]
    have hn3 : f.cursorOffset % AFATFS_SECTOR_SIZE + n = 512 := by
      unfold AFATFS_SECTOR_SIZE at *
      omega
    rcases hu : afatfs_fileUnlockCacheSector st f with ⟨f1, st1⟩
    have hco := fileUnlock_cursorOffset st f
    have hopu := fileUnlock_operation st f
    have hend1 := fileUnlock_isEnd geo st f
    rw [hu] at hco hopu hend1
    dsimp only at hco hopu hend1
    rw [hend] at hend1
    by_cases hroot : f1.type = FileType.fat16Root
    · rw [if_pos hroot]
      refine ⟨fun _ => ⟨?_, hopu.trans hop⟩, fun h => by simp at h⟩
      rw [hco]
      exact u32AddInt_eq _ _ (by unfold AFATFS_SECTOR_SIZE at *; omega)
    · rw [if_neg hroot]
      rw [hmask f1.cursorOffset, hco]
      have hcsle := sectorSize_le_clusterSize geo hspc
      have hdvd := sectorSize_dvd_clusterSize geo
      rw [h512] at hcsle hdvd
      have hcspos : 0 < afatfs_clusterSize geo := by omega
      have hmm : f.cursorOffset % afatfs_clusterSize geo % 512
          = f.cursorOffset % 512 := Nat.mod_mod_of_dvd _ hdvd
      have hrlt : f.cursorOffset % afatfs_clusterSize geo < afatfs_clusterSize geo :=
        Nat.mod_lt _ hcspos
      rw [if_neg (show ¬ ((n : Int) > ((afatfs_clusterSize geo : Nat) : Int)
          ∨ (n : Int) < -((f.cursorOffset % afatfs_clusterSize geo : Nat) : Int)) by
        rw [h512] at *
        omega)]
      rw [u32AddInt_eq _ n (by unfold AFATFS_SECTOR_SIZE at *; omega)]
      by_cases hcross : f.cursorOffset % afatfs_clusterSize geo + n
          ≥ afatfs_clusterSize geo
      · rw [if_pos hcross]
        have hceq : f.cursorOffset % afatfs_clusterSize geo + n
            = afatfs_clusterSize geo := by
          rw [h512] at *
          omega
        rcases hnc : afatfs_fileGetNextCluster geo st1 f1 f1.cursorCluster
          with ⟨rs, nc, st2⟩
        cases rs with
        | inProgress =>
            exact ⟨fun h => by simp at h, fun _ => ⟨hco, hopu.trans hop⟩⟩
        | failure =>
            exact ⟨fun h => by simp at h, fun _ => ⟨hco, hopu.trans hop⟩⟩
        | success =>
            dsimp only
            rw [show afatfs_clusterSize geo
                - f.cursorOffset % afatfs_clusterSize geo = n by omega]
            rw [show (f.cursorOffset + n) % 2 ^ 32 = f.cursorOffset + n by
              unfold AFATFS_SECTOR_SIZE at *; omega]
            unfold afatfs_fseekAtomicFinish
            split
            · refine ⟨fun _ => ⟨?_, hopu.trans hop⟩, fun h => by simp at h⟩
              dsimp only
              rw [show ((n : Int) - ((n : Nat) : Int)) = ((0 : Nat) : Int) by
                push_cast; ring]
              exact u32AddInt_eq _ 0 (by unfold AFATFS_SECTOR_SIZE at *; omega)
            · exact ⟨fun _ => ⟨rfl, hopu.trans hop⟩, fun h => by simp at h⟩
      · rw [if_neg hcross]
        unfold afatfs_fseekAtomicFinish
        rw [if_pos (by rw [hend1]; simp)]
        refine ⟨fun _ => ⟨?_, hopu.trans hop⟩, fun h => by simp at h⟩
        rw [hco]
        exact u32AddInt_eq _ _ (by unfold AFATFS_SECTOR_SIZE at *; omega)

/-- afatfs_fseekInternal on an idle handle: success advances the cursor by
exactly n and leaves nothing queued; in-progress leaves the cursor where it
was with a seek of n queued; failure is impossible. -/
theorem fseekInternal_step (geo : Geo) (hspc : 0 < geo.sectorsPerCluster)
    (hmask : ∀ x, afatfs_byteIndexInCluster geo x = x % afatfs_clusterSize geo)
    (hcs32 : afatfs_clusterSize geo ≤ 2 ^ 31)
    (st : St) (f : File) (n : Nat)
    (hc32 : f.cursorOffset + AFATFS_SECTOR_SIZE < 2 ^ 32)
    (hop : f.operation = FileOperation.none)
    (hend : afatfs_isEndOfAllocatedFile geo f = false)
    (hn1 : 0 < n)
    (hn2 : n ≤ AFATFS_SECTOR_SIZE - f.cursorOffset % AFATFS_SECTOR_SIZE) :
    ((afatfs_fseekInternal geo st f n).1 = OpStatus.success →
      (afatfs_fseekInternal geo st f n).2.1.cursorOffset = f.cursorOffset + n
      ∧ (afatfs_fseekInternal geo st f n).2.1.operation = FileOperation.none)
    ∧ ((afatfs_fseekInternal geo st f n).1 = OpStatus.inProgress →
      (afatfs_fseekInternal geo st f n).2.1.cursorOffset = f.cursorOffset
      ∧ (afatfs_fseekInternal geo st f n).2.1.operation = FileOperation.seek n)
    ∧ (afatfs_fseekInternal geo st f n).1 ≠ OpStatus.failure := by
  have hstep := fseekAtomic_step geo hspc hmask hcs32 st f n hc32 hop hend hn1 hn2
  unfold afatfs_fseekInternal
  rcases ha : afatfs_fseekAtomic geo st f (n : Int) with ⟨b, f2, st2⟩
  rw [ha] at hstep
  cases b with
  | true =>
      refine ⟨fun _ => hstep.1 rfl, fun h => by simp at h, by simp⟩
  | false =>
      have hf2 := hstep.2 rfl
      dsimp only
      rw [if_neg (show ¬ afatfs_fileIsBusy f2 = true by
        unfold afatfs_fileIsBusy
        rw [hf2.2]
        decide)]
      refine ⟨fun h => by simp at h, fun _ => ⟨hf2.1, rfl⟩, by simp⟩

theorem fseek_cur_eq (geo : Geo) (st : St) (f : File) (n : Nat) (h : n < 2 ^ 32) :
    afatfs_fseek geo st f (n : Int) Whence.cur = afatfs_fseekInternal geo st f n := by
  unfold afatfs_fseek
  dsimp only
  rw [if_pos (Int.ofNat_nonneg n), u32ofInt_coe n h]

theorem fileUnlock_directoryEntry (st : St) (file : File) :
    (afatfs_fileUnlockCacheSector st file).1.directoryEntry = file.directoryEntry := by
  unfold afatfs_fileUnlockCacheSector
  rcases hl : file.lockedCacheIndex with _ | i <;> rfl

theorem fseekAtomic_dirEntry (geo : Geo) (st : St) (f : File) (offset : Int) :
    (afatfs_fseekAtomic geo st f offset).2.1.directoryEntry = f.directoryEntry := by
  unfold afatfs_fseekAtomic
  dsimp only
  by_cases h1 : u32AddInt (f.cursorOffset % AFATFS_SECTOR_SIZE) offset
      < AFATFS_SECTOR_SIZE
  · rw [if_pos h1]
  · rw [if_neg h1]
    rcases hu : afatfs_fileUnlockCacheSector st f with ⟨f1, st1⟩
    have hde := fileUnlock_directoryEntry st f
    rw [hu] at hde
    by_cases h2 : f1.type = FileType.fat16Root
    · rw [if_pos h2]
      exact hde
    · rw [if_neg h2]
      dsimp only
      by_cases h3 : offset > ((afatfs_clusterSize geo : Nat) : Int)
          ∨ offset < -((afatfs_byteIndexInCluster geo f1.cursorOffset : Nat) : Int)
      · rw [if_pos h3]
        exact hde
      · rw [if_neg h3]
        by_cases h4 : u32AddInt (afatfs_byteIndexInCluster geo f1.cursorOffset)
            offset ≥ afatfs_clusterSize geo
        · rw [if_pos h4]
          rcases hn : afatfs_fileGetNextCluster geo st1 f1 f1.cursorCluster
            with ⟨rs, nc, st2⟩
          cases rs with
          | inProgress => exact hde
          | failure => exact hde
          | success =>
              dsimp only
              unfold afatfs_fseekAtomicFinish
              split <;> exact hde
        · rw [if_neg h4]
          unfold afatfs_fseekAtomicFinish
          split <;> exact hde

theorem fseekInternal_dirEntry (geo : Geo) (st : St) (f : File) (n : Nat) :
    (afatfs_fseekInternal geo st f n).2.1.directoryEntry = f.directoryEntry := by
  unfold afatfs_fseekInternal
  rcases ha : afatfs_fseekAtomic geo st f (n : Int) with ⟨b, f2, st2⟩
  have hde := fseekAtomic_dirEntry geo st f (n : Int)
  rw [ha] at hde
  cases b with
  | true => exact hde
  | false =>
      dsimp only
      by_cases hb : afatfs_fileIsBusy f2 = true
      · rw [if_pos hb]
        exact hde
      · rw [if_neg hb]
        exact hde

/-- fileLockCursorSectorForWrite on a handle not at the end of its
allocated chain (so the append path is not taken) leaves the handle's
cursor, queued operation, end-of-file status and directory entry
unchanged. -/
theorem fileLock_noAppend_facts (geo : Geo) (hspc : 0 < geo.sectorsPerCluster)
    (st : St) (file : File)
    (hend : afatfs_isEndOfAllocatedFile geo file = false) :
    (afatfs_fileLockCursorSectorForWrite geo hspc st file).2.1.cursorOffset
      = file.cursorOffset
    ∧ (afatfs_fileLockCursorSectorForWrite geo hspc st file).2.1.operation
      = file.operation
    ∧ afatfs_isEndOfAllocatedFile geo
        (afatfs_fileLockCursorSectorForWrite geo hspc st file).2.1
      = afatfs_isEndOfAllocatedFile geo file
    ∧ (afatfs_fileLockCursorSectorForWrite geo hspc st file).2.1.directoryEntry
      = file.directoryEntry := by
  unfold afatfs_fileLockCursorSectorForWrite
  rcases hl : file.lockedCacheIndex with _ | k
  · dsimp only
    rw [if_neg (by rw [hend]; simp)]
    unfold fileLockCursorSectorFetch
    dsimp only
    rcases hcs : afatfs_cacheSector geo st (afatfs_fileGetCursorPhysicalSector geo file)
        ⟨decide (file.cursorOffset % AFATFS_SECTOR_SIZE > 0
          ∨ (file.cursorOffset &&& (2 ^ 32 - AFATFS_SECTOR_SIZE)) + AFATFS_SECTOR_SIZE
              < file.directoryEntry.fileSize), true, true, false, false, false⟩
      with ⟨status, idx, st1⟩
    cases status with
    | inProgress => exact ⟨rfl, rfl, rfl, rfl⟩
    | failure => exact ⟨rfl, rfl, rfl, rfl⟩
    | success => exact ⟨rfl, rfl, rfl, rfl⟩
  · dsimp only
    rcases ha : afatfs_assert st
        (decide (afatfs_fileGetCursorPhysicalSector geo file
          = (st.slot k).sectorIndex)) with ⟨b, st1⟩
    cases b with
    | false => exact ⟨rfl, rfl, rfl, rfl⟩
    | true => exact ⟨rfl, rfl, rfl, rfl⟩

/-- The single-sector iteration of the afatfs_fwrite loop: with the write
contained in the cursor's sector, the loop either writes all of len and
leaves through the loop condition or the queued-seek break (early-return
flag false), or writes nothing and leaves through the cache-busy return
(flag true, cursor untouched); it never touches the directory entry. -/
theorem fwriteLoop_singleStep (geo : Geo) (hspc : 0 < geo.sectorsPerCluster)
    (hmask : ∀ x, afatfs_byteIndexInCluster geo x = x % afatfs_clusterSize geo)
    (hcs32 : afatfs_clusterSize geo ≤ 2 ^ 31)
    (st : St) (file : File) (len : Nat)
    (hc32 : file.cursorOffset + AFATFS_SECTOR_SIZE < 2 ^ 32)
    (hop : file.operation = FileOperation.none)
    (hend : afatfs_isEndOfAllocatedFile geo file = false)
    (hlen : 0 < len)
    (hlen2 : len ≤ AFATFS_SECTOR_SIZE - file.cursorOffset % AFATFS_SECTOR_SIZE)
    (hcos : file.cursorOffset % AFATFS_SECTOR_SIZE < AFATFS_SECTOR_SIZE) :
    (((afatfs_fwriteLoop geo hspc st file (file.cursorOffset % AFATFS_SECTOR_SIZE)
          hcos len 0).1 = false
        ∧ (afatfs_fwriteLoop geo hspc st file (file.cursorOffset % AFATFS_SECTOR_SIZE)
            hcos len 0).2.1 = len)
      ∨ ((afatfs_fwriteLoop geo hspc st file (file.cursorOffset % AFATFS_SECTOR_SIZE)
            hcos len 0).1 = true
        ∧ (afatfs_fwriteLoop geo hspc st file (file.cursorOffset % AFATFS_SECTOR_SIZE)
            hcos len 0).2.1 = 0
        ∧ (afatfs_fwriteLoop geo hspc st file (file.cursorOffset % AFATFS_SECTOR_SIZE)
            hcos len 0).2.2.1.cursorOffset = file.cursorOffset))
    ∧ (afatfs_fwriteLoop geo hspc st file (file.cursorOffset % AFATFS_SECTOR_SIZE)
        hcos len 0).2.2.1.cursorOffset
        + pendingSeek (afatfs_fwriteLoop geo hspc st file
            (file.cursorOffset % AFATFS_SECTOR_SIZE) hcos len 0).2.2.1
      = file.cursorOffset
        + (afatfs_fwriteLoop geo hspc st file
            (file.cursorOffset % AFATFS_SECTOR_SIZE) hcos len 0).2.1
    ∧ (afatfs_fwriteLoop geo hspc st file (file.cursorOffset % AFATFS_SECTOR_SIZE)
        hcos len 0).2.2.1.directoryEntry = file.directoryEntry
    ∧ ((afatfs_fwriteLoop geo hspc st file (file.cursorOffset % AFATFS_SECTOR_SIZE)
          hcos len 0).2.2.1.operation = FileOperation.none →
        (afatfs_fwriteLoop geo hspc st file (file.cursorOffset % AFATFS_SECTOR_SIZE)
          hcos len 0).2.2.1.cursorOffset
          = file.cursorOffset
            + (afatfs_fwriteLoop geo hspc st file
                (file.cursorOffset % AFATFS_SECTOR_SIZE) hcos len 0).2.1) := by
  have hbtw : min (AFATFS_SECTOR_SIZE - file.cursorOffset % AFATFS_SECTOR_SIZE) len
      = len := Nat.min_eq_right hlen2
  unfold afatfs_fwriteLoop
  rw [dif_pos hlen]
  dsimp only
  rw [hbtw]
  have hfacts := fileLock_noAppend_facts geo hspc st file hend
  rcases hlk : afatfs_fileLockCursorSectorForWrite geo hspc st file with ⟨r, f1, st1⟩
  rw [hlk] at hfacts
  rcases hfacts with ⟨hco1, hop1, hend1, hde1⟩
  dsimp only at hco1 hop1 hend1 hde1
  cases r with
  | none =>
      dsimp only
      refine ⟨Or.inr ⟨rfl, rfl, hco1⟩, ?_, hde1, ?_⟩
      · have hp : pendingSeek f1 = 0 := by
          unfold pendingSeek
          rw [hop1, hop]
        rw [hco1, hp]
      · intro _
        rw [hco1]
        omega
  | some buf =>
      dsimp only
      rw [fseek_cur_eq geo st1 f1 len (by unfold AFATFS_SECTOR_SIZE at *; omega)]
      have hstep := fseekInternal_step geo hspc hmask hcs32 st1 f1 len
        (by rw [hco1]; exact hc32) (hop1.trans hop) (hend1.trans hend) hlen
        (by rw [hco1]; exact hlen2)
      have hde2 := fseekInternal_dirEntry geo st1 f1 len
      rcases hsk : afatfs_fseekInternal geo st1 f1 len with ⟨rs, f2, st2⟩
      rw [hsk] at hstep hde2
      cases rs with
      | inProgress =>
          dsimp only
          have h2 := hstep.2.1 rfl
          refine ⟨Or.inl ⟨rfl, by omega⟩, ?_, hde2.trans hde1, ?_⟩
          · have hp : pendingSeek f2 = len := by
              unfold pendingSeek
              rw [h2.2]
            rw [h2.1, hco1, hp]
            omega
          · intro hopn
            rw [h2.2] at hopn
            simp at hopn
      | failure => exact absurd rfl hstep.2.2
      | success =>
          dsimp only
          have h2 := hstep.1 rfl
          rw [show len - len = 0 by omega]
          unfold afatfs_fwriteLoop
          rw [dif_neg (by omega)]
          dsimp only
          refine ⟨Or.inl ⟨rfl, by omega⟩, ?_, hde2.trans hde1, ?_⟩
          · have hp : pendingSeek f2 = 0 := by
              unfold pendingSeek
              rw [h2.2]
            rw [h2.1, hco1, hp]
            omega
          · intro _
            rw [h2.1, hco1]
            omega

/-- C1 (amended): afatfs_fwrite for a request contained in the cursor's
current 512-byte sector, on an idle handle (no queued operation) with
write or append mode that is not at the end of its allocated cluster
chain, over sane geometry (byte-in-cluster mask acting as modulus by the
cluster size, cluster size at most 2^31, cursor at least a sector below
the uint32 limit): the call returns either the full length or 0; after
the call, the cursor plus the offset of any queued seek equals the
previous cursor plus the returned count. When the full length is
returned, the recorded file size becomes the maximum of its previous
value and the final cursor, but the cursor itself may not have advanced
if a seek had to be queued at a cluster boundary whose FAT sector was
not cached — the counterexample to the original claim. When 0 is
returned the write's own sector could not be locked and the early return
inside the loop skips the file-size update: both the cursor and the
recorded file size are left unchanged. When no operation is left queued
the cursor equals previous + returned, and if the full length was
written the file size is at least previous + returned. -/
theorem fwrite_spec (geo : Geo) (hspc : 0 < geo.sectorsPerCluster)
    (hmask : ∀ x, afatfs_byteIndexInCluster geo x = x % afatfs_clusterSize geo)
    (hcs32 : afatfs_clusterSize geo ≤ 2 ^ 31)
    (st : St) (file : File) (len : Nat)
    (hmode : file.mode.append = true ∨ file.mode.write = true)
    (hc32 : file.cursorOffset + AFATFS_SECTOR_SIZE < 2 ^ 32)
    (hop : file.operation = FileOperation.none)
    (hend : afatfs_isEndOfAllocatedFile geo file = false)
    (hlen : 0 < len)
    (hlen2 : len ≤ AFATFS_SECTOR_SIZE - file.cursorOffset % AFATFS_SECTOR_SIZE) :
    ((afatfs_fwrite geo hspc st file len).1 = len
      ∨ (afatfs_fwrite geo hspc st file len).1 = 0)
    ∧ (afatfs_fwrite geo hspc st file len).2.1.cursorOffset
        + pendingSeek (afatfs_fwrite geo hspc st file len).2.1
      = file.cursorOffset + (afatfs_fwrite geo hspc st file len).1
    ∧ ((afatfs_fwrite geo hspc st file len).1 = len →
        (afatfs_fwrite geo hspc st file len).2.1.directoryEntry.fileSize
          = max file.directoryEntry.fileSize
              (afatfs_fwrite geo hspc st file len).2.1.cursorOffset)
    ∧ ((afatfs_fwrite geo hspc st file len).1 = 0 →
        (afatfs_fwrite geo hspc st file len).2.1.directoryEntry.fileSize
          = file.directoryEntry.fileSize
        ∧ (afatfs_fwrite geo hspc st file len).2.1.cursorOffset
          = file.cursorOffset)
    ∧ ((afatfs_fwrite geo hspc st file len).2.1.operation = FileOperation.none →
        (afatfs_fwrite geo hspc st file len).2.1.cursorOffset
          = file.cursorOffset + (afatfs_fwrite geo hspc st file len).1
        ∧ ((afatfs_fwrite geo hspc st file len).1 = len →
            (afatfs_fwrite geo hspc st file len).2.1.directoryEntry.fileSize
              ≥ file.cursorOffset + (afatfs_fwrite geo hspc st file len).1)) := by
  unfold afatfs_fwrite
  split
  case isTrue h =>
    exfalso
    rcases hmode with hm | hm <;> rw [hm] at h <;> simp at h
  case isFalse h =>
  split
  case isTrue h2 =>
    exfalso
    unfold afatfs_fileIsBusy at h2
    rw [hop] at h2
    simp at h2
  case isFalse h2 =>
  have hL := fwriteLoop_singleStep geo hspc hmask hcs32 st file len hc32 hop hend
    hlen hlen2 (by unfold AFATFS_SECTOR_SIZE; omega)
  rcases hw : afatfs_fwriteLoop geo hspc st file
      (file.cursorOffset % AFATFS_SECTOR_SIZE)
      (by unfold AFATFS_SECTOR_SIZE; omega) len 0 with ⟨flag, w, fL, stL⟩
  rw [hw] at hL
  dsimp only at hL ⊢
  rcases hL with ⟨hL1, hL2, hL3, hL4⟩
  rcases hL1 with ⟨hflag, hw1⟩ | ⟨hflag, hw1, hcur⟩
  · subst hflag
    dsimp only
    refine ⟨Or.inl hw1, ?_, ?_, ?_, ?_⟩
    · have hp : pendingSeek { fL with directoryEntry :=
          { fL.directoryEntry with
              fileSize := max fL.directoryEntry.fileSize fL.cursorOffset } }
          = pendingSeek fL := rfl
      rw [hp]
      exact hL2
    · intro _
      rw [hL3]
    · intro hw0
      exfalso
      omega
    · intro hopn
      have hc := hL4 hopn
      refine ⟨hc, fun _ => ?_⟩
      calc file.cursorOffset + w = fL.cursorOffset := hc.symm
      _ ≤ max fL.directoryEntry.fileSize fL.cursorOffset := Nat.le_max_right _ _
  · subst hflag
    dsimp only
    refine ⟨Or.inr hw1, hL2, ?_, ?_, ?_⟩
    · intro hwlen
      exfalso
      omega
    · intro _
      exact ⟨by rw [hL3], hcur⟩
    · intro hopn
      refine ⟨hL4 hopn, fun hwlen => ?_⟩
      exfalso
      omega

/-- A writable file of 1024 bytes with its cursor at byte 510 of the
first sector of cluster 3, with no queued operation. -/
def c1_file : File :=
  { type := FileType.normal
    cursorOffset := 510
    cursorCluster := 3
    cursorPreviousCluster := 0
    mode := ⟨false, true, false, false, false, false⟩
    lockedCacheIndex := Option.none
    directoryEntryPos := ⟨0, 0, 0⟩
    directoryEntry := ⟨1024, 0, 3, 0⟩
    operation := FileOperation.none }

/-- A ready filesystem whose cache holds only the cursor's data sector
(physical sector 4) in sync; the FAT sector is not cached. -/
def c1_exSt : St :=
  { slots := [⟨4, CacheState.inSync, 0, false, 0, false⟩, emptySlot, emptySlot,
      emptySlot, emptySlot, emptySlot, emptySlot, emptySlot]
    mem := fun _ _ => 0
    cacheTimer := 0
    cacheDirtyEntries := 0
    filesystemState := FsState.ready
    substate := 0
    filesystemFull := false
    lastClusterAllocated := 1
    freeFile := exFile
    freeSpaceSearch := exSearch
    freeSpaceFATStartCluster := 0
    freeSpaceFATEndCluster := 0
    sdReadAccepts := true
    sdWriteAccepts := true }

set_option maxRecDepth 100000 in
set_option maxHeartbeats 4000000 in
/-- C1 as stated is false: writing 2 bytes at cursor 510 of a writable,
idle file reaches the end of its 512-byte cluster; the data is accepted
(fwrite returns the full 2) but the FAT sector needed to advance into the
next cluster is not cached, so a 2-byte seek is queued and the cursor
stays at 510 instead of 512 = previous + N. -/
theorem c1_counterexample :
    c1_file.mode.write = true
    ∧ afatfs_fileIsBusy c1_file = false
    ∧ 0 < 2
    ∧ (afatfs_fwrite c3_geo Nat.one_pos c1_exSt c1_file 2).1 = 2
    ∧ (afatfs_fwrite c3_geo Nat.one_pos c1_exSt c1_file 2).2.1.cursorOffset
        ≠ c1_file.cursorOffset + 2 := by
  refine ⟨rfl, rfl, by omega, ?_, ?_⟩ <;>
    simp +decide [afatfs_fwrite, afatfs_fwriteLoop, afatfs_fileIsBusy,
      afatfs_fileLockCursorSectorForWrite, afatfs_isEndOfAllocatedFile,
      fat16_isEndOfChainMarker, fat32_isEndOfChainMarker,
      fileLockCursorSectorFetch, afatfs_fileGetCursorPhysicalSector,
      afatfs_fileClusterToPhysical, afatfs_sectorIndexInCluster,
      afatfs_byteIndexInCluster, afatfs_cacheSector, afatfs_assert,
      afatfs_allocateCacheSector, afatfs_allocateCacheSectorLoop,
      afatfs_cacheSectorInit, afatfs_cacheSectorWritePhase,
      afatfs_cacheSectorLockPhase, St.setSlot, St.slot, St.setMem,
      afatfs_fseek, afatfs_fseekInternal, afatfs_fseekAtomic,
      afatfs_fseekAtomicFinish, afatfs_fileUnlockCacheSector,
      afatfs_fileGetNextCluster, afatfs_FATGetNextCluster,
      afatfs_getFATPositionForCluster, afatfs_fatSectorToPhysical,
      u32AddInt, u32ofInt, afatfs_clusterSize, AFATFS_SECTOR_SIZE,
      AFATFS_NUM_CACHE_SECTORS, FAT_SMALLEST_LEGAL_CLUSTER_NUMBER,
      c1_exSt, c1_file, c3_geo, exFile, exSearch, emptySlot]

theorem c1_witness :
    ((∀ x, afatfs_byteIndexInCluster c3_geo x = x % afatfs_clusterSize c3_geo)
      ∧ afatfs_clusterSize c3_geo ≤ 2 ^ 31
      ∧ (c1_file.mode.append = true ∨ c1_file.mode.write = true)
      ∧ c1_file.cursorOffset + AFATFS_SECTOR_SIZE < 2 ^ 32
      ∧ c1_file.operation = FileOperation.none
      ∧ afatfs_isEndOfAllocatedFile c3_geo c1_file = false
      ∧ 0 < 2
      ∧ 2 ≤ AFATFS_SECTOR_SIZE - c1_file.cursorOffset % AFATFS_SECTOR_SIZE)
    ∧ (afatfs_fwrite c3_geo Nat.one_pos c1_exSt c1_file 2).2.1.cursorOffset
        + pendingSeek (afatfs_fwrite c3_geo Nat.one_pos c1_exSt c1_file 2).2.1
      = c1_file.cursorOffset + (afatfs_fwrite c3_geo Nat.one_pos c1_exSt c1_file 2).1 := by
  have hmask : ∀ x, afatfs_byteIndexInCluster c3_geo x = x % afatfs_clusterSize c3_geo := by
    intro x
    show 511 &&& x = x % 512
    rw [Nat.and_comm]
    have h := and_mask x 9 0
    simp only [pow_zero, Nat.div_one, mul_one] at h
    exact (by rw [show ((2 ^ 9 - 1) <<< 0 : Nat) = 511 by decide] at h; exact h :
      x &&& 511 = x % 2 ^ 9)
  refine ⟨⟨hmask, by decide, Or.inr rfl, by decide, rfl, by decide, by omega, by decide⟩, ?_⟩
  exact (fwrite_spec c3_geo Nat.one_pos hmask (by decide) c1_exSt c1_file 2
    (Or.inr rfl) (by decide) rfl (by decide) (by omega) (by decide)).2.1

theorem c5_witness :
    (findClusterLoop c3_geo (by decide) true 1 (by decide) (by decide) c5_exSt
        50 0 50
      = findClusterLoop c3_geo (by decide) true 1 (by decide) (by decide) c5_exSt
          (roundUpTo
            (50 + (c5_exSt.freeFile.directoryEntry.fileSize
              + afatfs_clusterSize c3_geo - 1) / afatfs_clusterSize c3_geo) 1)
          0 50
      ∧ 50 + (c5_exSt.freeFile.directoryEntry.fileSize
          + afatfs_clusterSize c3_geo - 1) / afatfs_clusterSize c3_geo
        ≤ roundUpTo
            (50 + (c5_exSt.freeFile.directoryEntry.fileSize
              + afatfs_clusterSize c3_geo - 1) / afatfs_clusterSize c3_geo) 1
      ∧ roundUpTo
            (50 + (c5_exSt.freeFile.directoryEntry.fileSize
              + afatfs_clusterSize c3_geo - 1) / afatfs_clusterSize c3_geo) 1
          % 1 = 0)
    ∧ 50 = freeFileStartAdd c5_exSt :=
  ⟨(findClusterWithCondition_spec c3_geo (by decide) c5_exSt).1 true 1
      (by decide) (by decide) 50 0 50 (by decide) (by decide) (by decide),
    by decide⟩

end AFat
